import Mathlib

/-!
# Health-check and failover engine of telegram-auto-switch-dns-bot

A shallow embedding of the failover engine (`telegram/bot/auto_check.go`), of the
store operations it uses (`db/operate/db_up.go`) and of the DNS gateway call
(`cloudflare/cloudflare.go`), followed by theorems about them. The embedding
also covers the reader of the backend answer and the display of a forward
(`telegram/bot/check.go`), the probe backend (`CheckBackend/check_api.go`), the
edit and check-and-resolve handlers (`telegram/bot/admin_handlers.go`) and the
bulk import and export (`telegram/bot/tool.go`, `telegram/bot/handlers.go`).

Modelling conventions.

* The relational store is the list of rows of the `forward_records` table.
* The outside world is an `Env`: the clock reading, the answer of the
  reachability backend for a host and port, the availability of the Cloudflare
  client, the answers of the Cloudflare API and whether a store write is accepted.
* Calls that leave the process (probe calls, progress callbacks, DNS gateway
  calls) are appended to `State.trace` in the order in which they are made.
* Within one evaluation the clock reading is one value and the answer of the
  reachability backend is a function of host and port.
* Go `int`, `int64` and `uint` fields are `Int` and `Nat`; no arithmetic
  of the engine can overflow them (the only sums are a clock reading plus one
  day and a counter plus one).
* Log lines are not modelled.
-/

namespace AutoSwitchDns

/-! ## Data model (`db/models/db_models.go`) -/

/-- One row of `forward_records` (`models.ForwardRecord`). -/
structure ForwardRecord where
  ID : Nat
  DomainRecordID : Nat
  ForwardDomain : String
  IP : String
  ISP : String
  IsBan : Bool
  BanTime : Int
  Weight : Int
  SortOrder : Int
  RecordType : String
  LastResolvedAt : Int
  ResolveStatus : String
  CreatedAt : Int
  UpdatedAt : Int
  deriving DecidableEq, Repr

/-- One managed domain with its preloaded forwards (`models.DomainRecord`). -/
structure DomainRecord where
  ID : Nat
  Domain : String
  Port : Int
  RecordId : String
  ZoneId : String
  Forwards : List ForwardRecord
  IsDisableCheck : Bool
  SortOrder : Int
  CreatedAt : Int
  UpdatedAt : Int
  deriving DecidableEq, Repr

/-- The final answer of the reachability backend (`tcpCheckResponseData`, check.go). -/
structure tcpCheckResponseData where
  Result : Bool
  Target : String
  TargetIp : String
  Message : String
  BackendPublicIP : String
  deriving DecidableEq, Repr

/-! ## Report (`auto_check.go`, lines 35-58) -/

structure DomainFailure where
  Domain : String
  Port : Int
  Reason : String
  deriving DecidableEq, Repr

structure DomainSwitch where
  Domain : String
  Port : Int
  RecordType : String
  NewRecord : String
  ForwardDomain : String
  ISP : String
  Weight : Int
  deriving DecidableEq, Repr

structure CheckReport where
  FailedDomains : List String
  DisconnectedDomains : List DomainFailure
  BannedForwards : List String
  SwitchedDomains : List DomainSwitch
  NoForwardDomains : List String
  deriving DecidableEq, Repr

/-! ## Outside world -/

/-- The arguments of one `client.UpdateDNSRecordByID` call, in source order. -/
structure DnsUpdateCall where
  domain : String
  zoneId : String
  recordID : String
  recordType : String
  name : String
  content : String
  ttl : Int
  proxied : Bool
  deriving DecidableEq, Repr

/-- The fields of `cloudflare.UpdateDNSRecordParams` that the gateway fills in. -/
structure UpdateDNSRecordParams where
  ID : String
  Type_ : String
  Name : String
  Content : String
  TTL : Int
  Proxied : Bool
  deriving DecidableEq, Repr

/-- The store writes of `db/operate/db_up.go` used by the engine. -/
inductive DbOp where
  | banForward24Hours
  | updateForwardResolveStatus
  | clearOtherForwardStatus
  | autoUnbanForward
  | updateForwardRecord
  deriving DecidableEq, Repr

/-- A call that leaves the process. -/
inductive Effect where
  | probe (target : String) (port : Int)
  | progress (current total : Int) (text : String)
  | updateDNSRecordByID (call : DnsUpdateCall)
  | zoneIDByName (rootDomain : String)
  | apiUpdateDNSRecord (zoneID : String) (record : UpdateDNSRecordParams)
  deriving DecidableEq, Repr

/-- The outside world of one evaluation.

* `now` is `time.Now().Unix()`.
* `checkConnectivity target port` is what `checkConnectivityWithProgress`
  returns: `none` when it returns a non-nil error, `some data` otherwise.
* `clientOk` tells whether `cloudflare.GetGlobalClient` returns a client
  (it fails when no API token is configured).
* `zoneIDByName` and `apiUpdateDNSRecord` answer the two Cloudflare API calls
  of `UpdateDNSRecordByID` (`none`, resp. `false`, is an error).
* `dbOk op` tells whether the database accepts the write `op`.
* `ttl` is `config.Global.Cloudflare.TTL`, `apiFail` is
  `config.Global.AutoCheck.ApiFail`. -/
structure Env where
  now : Int
  checkConnectivity : String → Int → Option tcpCheckResponseData
  clientOk : Bool
  zoneIDByName : String → Option String
  apiUpdateDNSRecord : String → UpdateDNSRecordParams → Bool
  dbOk : DbOp → Bool
  ttl : Int
  apiFail : Int

/-- The mutable state the engine works on: the `forward_records` table, the
process-wide `apiFailureCount`, the report of the running cycle and the trace
of outside calls made so far. -/
structure State where
  store : List ForwardRecord
  apiFailureCount : Int
  report : CheckReport
  trace : List Effect
  deriving DecidableEq, Repr

/-! ## Strings -/

/-- Whether the characters `p` start the characters `s`. -/
def startsWith : List Char → List Char → Bool
  | _, [] => true
  | [], _ :: _ => false
  | c :: s, x :: p => c == x && startsWith s p

/-- Whether the characters `sub` occur contiguously in `s`. -/
def containsChars : List Char → List Char → Bool
  | [], sub => startsWith [] sub
  | c :: s, sub => startsWith (c :: s) sub || containsChars s sub

/-- Go `strings.Contains(s, substr)`. On valid UTF-8 a match of bytes is a
match of code points. -/
def stringsContains (s substr : String) : Bool :=
  containsChars s.data substr.data

/-- Go `fmt.Sprintf("%s:%d", domain, port)`. -/
def sprintfHostPort (domain : String) (port : Int) : String :=
  domain ++ ":" ++ toString port

/-! ## API failure counter (`auto_check.go`, lines 480-510) -/

def incrementApiFailureCount (st : State) : State :=
  { st with apiFailureCount := st.apiFailureCount + 1 }

def resetApiFailureCount (st : State) : State :=
  if st.apiFailureCount > 0 then { st with apiFailureCount := 0 } else st

def shouldSendApiFailureNotification (env : Env) (st : State) : Bool :=
  decide (st.apiFailureCount ≥ env.apiFail)

/-! ## Store writes (`db/operate/db_up.go`) -/

/-- A gorm `DB.Model(f).Updates(map)` on `forward_records`, where `f` carries the
primary key `id`: the write fails when the database refuses it, and gorm
refuses an update without a condition (`ErrMissingWhereClause`) when the
primary key is zero; otherwise every row with that key gets the columns `set`
sets, and `updated_at` is set to the clock reading. -/
def modelUpdates (env : Env) (op : DbOp) (id : Nat) (set : ForwardRecord → ForwardRecord)
    (store : List ForwardRecord) : Bool × List ForwardRecord :=
  if env.dbOk op = false then (false, store)
  else if id = 0 then (false, store)
  else (true, store.map (fun r => if r.ID = id then { set r with UpdatedAt := env.now } else r))

namespace operate

/-- The function `operate.BanForward24Hours`: returns the mutated `f`, whether the
write succeeded, and the store. -/
def BanForward24Hours (env : Env) (f : ForwardRecord) (store : List ForwardRecord) :
    ForwardRecord × Bool × List ForwardRecord :=
  let f1 := { f with IsBan := true, BanTime := env.now + 24 * 3600, ResolveStatus := "failed" }
  let w := modelUpdates env DbOp.banForward24Hours f1.ID
    (fun r => { r with IsBan := true, BanTime := f1.BanTime, ResolveStatus := "failed" }) store
  (f1, w.1, w.2)

/-- The function `operate.UpdateForwardResolveStatus`. -/
def UpdateForwardResolveStatus (env : Env) (f : ForwardRecord) (status resolvedIP : String)
    (store : List ForwardRecord) : ForwardRecord × Bool × List ForwardRecord :=
  let f1 := { f with ResolveStatus := status, LastResolvedAt := env.now, IP := resolvedIP }
  let w := modelUpdates env DbOp.updateForwardResolveStatus f1.ID
    (fun r => { r with ResolveStatus := status, LastResolvedAt := f1.LastResolvedAt,
                       IP := resolvedIP }) store
  (f1, w.1, w.2)

/-- The function `operate.ClearOtherForwardStatus`: an update of every row with
`domain_record_id = domainRecordID AND id != currentForwardID`. -/
def ClearOtherForwardStatus (env : Env) (domainRecordID currentForwardID : Nat)
    (store : List ForwardRecord) : Bool × List ForwardRecord :=
  if env.dbOk DbOp.clearOtherForwardStatus = false then (false, store)
  else (true, store.map (fun r =>
    if r.DomainRecordID = domainRecordID ∧ r.ID ≠ currentForwardID then
      { r with ResolveStatus := "never", UpdatedAt := env.now }
    else r))

/-- The function `operate.AutoUnbanForward`: clears the ban flag only. -/
def AutoUnbanForward (env : Env) (f : ForwardRecord) (store : List ForwardRecord) :
    ForwardRecord × Bool × List ForwardRecord :=
  let f1 := { f with IsBan := false }
  let w := modelUpdates env DbOp.autoUnbanForward f1.ID (fun r => { r with IsBan := false }) store
  (f1, w.1, w.2)

end operate

/-! ## DNS gateway (`cloudflare/cloudflare.go`) -/

/-- Go `strings.Split(s, ".")` on the characters of `s`. -/
def splitOnDot : List Char → List (List Char)
  | [] => [[]]
  | c :: cs =>
    let rest := splitOnDot cs
    if c = '.' then [] :: rest else (c :: rest.headD []) :: rest.tail

/-- Go `strings.Join(parts, ".")`. -/
def joinWithDot : List (List Char) → List Char
  | [] => []
  | [p] => p
  | p :: q :: ps => p ++ '.' :: joinWithDot (q :: ps)

/-- The function `extractRootDomain`: the last two dot-separated parts. -/
def extractRootDomain (domain : String) : String :=
  let parts := splitOnDot domain.data
  if parts.length ≥ 2 then String.mk (joinWithDot (parts.drop (parts.length - 2)))
  else domain

/-- The method `(*Client).UpdateDNSRecordByID`: the API calls it makes, and whether it
returns nil. With an empty `zoneId` the zone is looked up by root domain first. -/
def UpdateDNSRecordByID (env : Env) (c : DnsUpdateCall) : List Effect × Bool :=
  let record : UpdateDNSRecordParams :=
    { ID := c.recordID, Type_ := c.recordType, Name := c.name, Content := c.content,
      TTL := c.ttl, Proxied := c.proxied }
  if c.zoneId ≠ "" then
    ([Effect.apiUpdateDNSRecord c.zoneId record], env.apiUpdateDNSRecord c.zoneId record)
  else
    let rootDomain := extractRootDomain c.domain
    match env.zoneIDByName rootDomain with
    | none => ([Effect.zoneIDByName rootDomain], false)
    | some zoneID =>
      ([Effect.zoneIDByName rootDomain, Effect.apiUpdateDNSRecord zoneID record],
        env.apiUpdateDNSRecord zoneID record)

/-! ## Selection (`auto_check.go`, lines 221-404) -/

/-- The comparator passed to `sort.Slice` (lines 233-238): `less a b` is
`less(i, j)` for `forwards[i] = a`, `forwards[j] = b`. -/
def less (a b : ForwardRecord) : Bool :=
  if a.Weight ≠ b.Weight then decide (a.Weight > b.Weight)
  else decide (a.SortOrder < b.SortOrder)

/-- Go `sort.Slice(forwards, less)`. Up to twelve elements the Go runtime sorts by
insertion, which leaves elements that `less` does not separate in their input
order; a slice that is already in order (as the preloaded pool is) is left
unchanged whatever its length. The model is the insertion sort. -/
def sortSlice (forwards : List ForwardRecord) : List ForwardRecord :=
  forwards.insertionSort (fun a b => less b a = false)

/-- The test of lines 273 and 359: the terminal message of the backend after
all connection attempts failed. -/
def isExhaustedMessage (message : String) : Bool :=
  stringsContains message "检测结束" && stringsContains message "无法连接"

/-- The function `banForward24Hours` of the bot package: mutates `f` and writes the
ban to the store at once. -/
def banForward24Hours (env : Env) (f : ForwardRecord) (st : State) : ForwardRecord × State :=
  let f1 := { f with IsBan := true, BanTime := env.now + 24 * 3600, ResolveStatus := "failed" }
  let w := operate.BanForward24Hours env f1 st.store
  (w.1, { st with store := w.2.2 })

/-- What the loop over the sorted pool leaves behind. -/
structure LoopResult where
  availableForward : Option ForwardRecord
  resolvedIP : String
  bannedForwards : List String
  st : State

/-- The loop of `checkForwardPool` (lines 247-289) over the remaining forwards,
with the `bannedForwards` collected so far. -/
def forwardLoop (env : Env) (port : Int) :
    List ForwardRecord → List String → State → LoopResult
  | [], bannedForwards, st => ⟨none, "", bannedForwards, st⟩
  | f :: rest, bannedForwards, st =>
    if f.IsBan then forwardLoop env port rest bannedForwards st
    else
      let st1 := { st with trace := st.trace ++ [Effect.probe f.ForwardDomain port] }
      match env.checkConnectivity f.ForwardDomain port with
      | none =>
        let st2 := incrementApiFailureCount st1
        let b := banForward24Hours env f st2
        forwardLoop env port rest (bannedForwards ++ [b.1.ForwardDomain]) b.2
      | some result =>
        let st2 := resetApiFailureCount st1
        if !result.Result then
          if isExhaustedMessage result.Message then
            let b := banForward24Hours env f st2
            forwardLoop env port rest (bannedForwards ++ [b.1.ForwardDomain]) b.2
          else forwardLoop env port rest bannedForwards st2
        else ⟨some f, result.TargetIp, bannedForwards, st2⟩

/-- The loop of `checkForwardPoolWithProgress` (lines 332-375); `i` is the index
of the head of the remaining forwards and `total` is `len(forwards)`. The
attempt-level progress lines that the backend streams during a probe are
presentation only and are not traced. -/
def forwardLoopWithProgress (env : Env) (port : Int) (total : Int) :
    Int → List ForwardRecord → List String → State → LoopResult
  | _, [], bannedForwards, st => ⟨none, "", bannedForwards, st⟩
  | i, f :: rest, bannedForwards, st =>
    let st0 := { st with trace := st.trace ++ [Effect.progress (i + 1) total f.ForwardDomain] }
    if f.IsBan then forwardLoopWithProgress env port total (i + 1) rest bannedForwards st0
    else
      let st1 := { st0 with trace := st0.trace ++ [Effect.probe f.ForwardDomain port] }
      match env.checkConnectivity f.ForwardDomain port with
      | none =>
        let b := banForward24Hours env f st1
        forwardLoopWithProgress env port total (i + 1) rest
          (bannedForwards ++ [b.1.ForwardDomain]) b.2
      | some result =>
        if !result.Result then
          if isExhaustedMessage result.Message then
            let b := banForward24Hours env f st1
            forwardLoopWithProgress env port total (i + 1) rest
              (bannedForwards ++ [b.1.ForwardDomain]) b.2
          else forwardLoopWithProgress env port total (i + 1) rest bannedForwards st1
        else ⟨some f, result.TargetIp, bannedForwards, st1⟩

/-- Lines 420-433 of `updateToCloudflare`: the record content by record type,
`none` for an unsupported type. -/
def recordContent (f : ForwardRecord) (resolvedIP : String) : Option String :=
  if f.RecordType = "A" then some resolvedIP
  else if f.RecordType = "CNAME" then some f.ForwardDomain
  else none

/-- The function `updateToCloudflare` (lines 406-478). -/
def updateToCloudflare (env : Env) (d : DomainRecord) (f : ForwardRecord) (resolvedIP : String)
    (st : State) : State :=
  if d.RecordId = "" then st
  else if env.clientOk = false then st
  else
    match recordContent f resolvedIP with
    | none => st
    | some content =>
      let call : DnsUpdateCall :=
        { domain := d.Domain, zoneId := d.ZoneId, recordID := d.RecordId,
          recordType := f.RecordType, name := d.Domain, content := content,
          ttl := env.ttl, proxied := false }
      let r := UpdateDNSRecordByID env call
      let st1 := { st with trace := st.trace ++ Effect.updateDNSRecordByID call :: r.1 }
      if r.2 = false then st1
      else
        let f1 := { f with ResolveStatus := "success", LastResolvedAt := env.now, IP := resolvedIP }
        let c := operate.ClearOtherForwardStatus env f1.DomainRecordID f1.ID st1.store
        let u := operate.UpdateForwardResolveStatus env f1 "success" resolvedIP c.2
        let f2 := u.1
        { st1 with
          store := u.2.2
          report := { st1.report with
            SwitchedDomains := st1.report.SwitchedDomains ++
              [{ Domain := d.Domain, Port := d.Port, RecordType := f2.RecordType,
                 NewRecord := content, ForwardDomain := f2.ForwardDomain, ISP := f2.ISP,
                 Weight := f2.Weight }] } }

/-- Appends one entry to `report.NoForwardDomains`. -/
def appendNoForward (entry : String) (st : State) : State :=
  { st with report := { st.report with NoForwardDomains := st.report.NoForwardDomains ++ [entry] } }

/-- Lines 291-294 and 377-380: the bans of the loop are added to the report. -/
def reportBanned (r : LoopResult) : State :=
  if r.bannedForwards.length > 0 then
    { r.st with report := { r.st.report with
        BannedForwards := r.st.report.BannedForwards ++ r.bannedForwards } }
  else r.st

/-- Lines 291-304 and 377-390: what both pool checks do after their loop. -/
def finishPool (env : Env) (d : DomainRecord) (r : LoopResult) : State :=
  match r.availableForward with
  | some f => updateToCloudflare env d f r.resolvedIP (reportBanned r)
  | none => appendNoForward (sprintfHostPort d.Domain d.Port) (reportBanned r)

/-- The function `checkForwardPool` (lines 221-304). -/
def checkForwardPool (env : Env) (d : DomainRecord) (st : State) : State :=
  if d.Forwards.length = 0 then appendNoForward (sprintfHostPort d.Domain d.Port) st
  else finishPool env d (forwardLoop env d.Port (sortSlice d.Forwards) [] st)

/-- The function `checkForwardPoolWithProgress` (lines 306-390). -/
def checkForwardPoolWithProgress (env : Env) (d : DomainRecord) (st : State) : State :=
  if d.Forwards.length = 0 then appendNoForward (sprintfHostPort d.Domain d.Port) st
  else finishPool env d
    (forwardLoopWithProgress env d.Port (d.Forwards.length : Int) 0 (sortSlice d.Forwards) [] st)

/-! ## Per-domain evaluation (`auto_check.go`, lines 129-219) -/

/-- Lines 156-165: the simplified reason of a disconnected primary. -/
def failReason (message : String) : String :=
  if message ≠ "" then
    if stringsContains message "timeout" || stringsContains message "i/o timeout" then "连接超时"
    else if stringsContains message "refused" then "连接被拒绝"
    else if stringsContains message "no route" then "网络不可达"
    else "无法连接"
  else "无法连接"

/-- Lines 166-170: the entry appended to `report.DisconnectedDomains`. -/
def appendDisconnected (d : DomainRecord) (message : String) (st : State) : State :=
  { st with report := { st.report with
      DisconnectedDomains := st.report.DisconnectedDomains ++
        [{ Domain := d.Domain, Port := d.Port, Reason := failReason message }] } }

/-- Lines 139 and 187: the entry appended to `report.FailedDomains`. -/
def appendFailed (d : DomainRecord) (st : State) : State :=
  { st with report := { st.report with
      FailedDomains := st.report.FailedDomains ++ [sprintfHostPort d.Domain d.Port] } }

/-- The function `checkDomain` (lines 129-174). -/
def checkDomain (env : Env) (d : DomainRecord) (st : State) : State :=
  let st1 := { st with trace := st.trace ++ [Effect.probe d.Domain d.Port] }
  match env.checkConnectivity d.Domain d.Port with
  | none => appendFailed d (incrementApiFailureCount st1)
  | some result =>
    let st2 := resetApiFailureCount st1
    if result.Result then st2
    else checkForwardPool env d (appendDisconnected d result.Message st2)

/-- The function `checkDomainWithProgress` (lines 176-219). The attempt-level
progress lines of the primary probe are presentation only and are not
traced. -/
def checkDomainWithProgress (env : Env) (d : DomainRecord) (st : State) : State :=
  let st1 := { st with trace := st.trace ++ [Effect.probe d.Domain d.Port] }
  match env.checkConnectivity d.Domain d.Port with
  | none => appendFailed d st1
  | some result =>
    if result.Result then st1
    else checkForwardPoolWithProgress env d (appendDisconnected d result.Message st1)

/-- The loop of `performAutoCheck` over the loaded domains (lines 112-121). -/
def checkDomains (env : Env) : List DomainRecord → State → State
  | [], st => st
  | d :: ds, st =>
    if d.IsDisableCheck then checkDomains env ds st
    else checkDomains env ds (checkDomain env d st)

/-! ## Loading a domain (`auto_check.go`, lines 100-107) -/

/-- The order of the preload query (line 103), `weight desc, sort_order asc, id asc`:
`preloadLess a b` tells whether row `a` comes strictly before row `b`. -/
def preloadLess (a b : ForwardRecord) : Bool :=
  if a.Weight ≠ b.Weight then decide (a.Weight > b.Weight)
  else if a.SortOrder ≠ b.SortOrder then decide (a.SortOrder < b.SortOrder)
  else decide (a.ID < b.ID)

/-- The forwards of domain `domainID` as `Preload("Forwards", ...)` reads them from
the store: the rows with that `domain_record_id`, in the order of the query. -/
def preloadForwards (store : List ForwardRecord) (domainID : Nat) : List ForwardRecord :=
  (store.filter (fun r => decide (r.DomainRecordID = domainID))).insertionSort
    (fun a b => preloadLess b a = false)

/-- The domain row `d` read again from the store: its forwards are preloaded. -/
def reloadDomain (store : List ForwardRecord) (d : DomainRecord) : DomainRecord :=
  { d with Forwards := preloadForwards store d.ID }

/-! ## Lazy unban on display (`check.go`, lines 292-312) -/

/-- The ban branch of `editForwardInfo`: the status text shown for forward `f`
and the store after the lazy unban of an expired ban. The text of the ban
time is a rendering of `BanTime` and is left out. -/
def editForwardInfoBan (env : Env) (f : ForwardRecord) (store : List ForwardRecord) :
    String × List ForwardRecord :=
  if f.IsBan then
    if f.BanTime > 0 then
      if env.now > f.BanTime then
        ("✅ 未封禁", (operate.AutoUnbanForward env f store).2.2)
      else ("🚫 已封禁", store)
    else ("🚫 已封禁", store)
  else ("✅ 未封禁", store)

/-! ## Manual ban toggle (`admin_handlers.go`, lines 453-485) -/

namespace operate

/-- The function `operate.UpdateForwardRecord`, a gorm `DB.Save(&forward)`: with a
zero primary key it inserts the record under the next key; otherwise it writes
every column of the row with that key (and the clock reading to `updated_at`),
or inserts the record as it is when no row has that key. -/
def UpdateForwardRecord (env : Env) (forward : ForwardRecord) (store : List ForwardRecord) :
    Bool × List ForwardRecord :=
  if env.dbOk DbOp.updateForwardRecord = false then (false, store)
  else if forward.ID = 0 then
    (true, store ++ [{ forward with ID := (store.map (fun r => r.ID)).foldl max 0 + 1,
                                    CreatedAt := env.now, UpdatedAt := env.now }])
  else if store.any (fun r => decide (r.ID = forward.ID)) then
    (true, store.map (fun r => if r.ID = forward.ID then { forward with UpdatedAt := env.now }
      else r))
  else (true, store ++ [forward])

end operate

/-- The function `handleForwardToggleBan`: reads the forward with key `forwardID`,
flips its ban flag, sets the ban time to `oneYearLater`
(`time.Now().AddDate(1, 0, 0).Unix()`) when it bans and to zero when it unbans,
and saves the record. The chat messages are not modelled. -/
def handleForwardToggleBan (env : Env) (oneYearLater : Int) (forwardID : Nat)
    (store : List ForwardRecord) : List ForwardRecord :=
  match store.find? (fun r => decide (r.ID = forwardID)) with
  | none => store
  | some f =>
    let f1 := { f with IsBan := !f.IsBan }
    let f2 := if f1.IsBan then { f1 with BanTime := oneYearLater } else { f1 with BanTime := 0 }
    (operate.UpdateForwardRecord env f2 store).2

/-! ## Cycles and the digest (`auto_check.go`, lines 80-127, 512-595, 689-734) -/

/-- The report a cycle starts with (lines 92-98 and 667-673). -/
def emptyReport : CheckReport := ⟨[], [], [], [], []⟩

/-- One `WriteString` of `sendReport` (lines 536-591). -/
inductive ReportLine where
  | title
  | time (text : String)
  | switchedHeader
  | switched (sw : DomainSwitch)
  | failedHeader
  | failed (domain : String) (count : Int)
  | disconnectedHeader
  | disconnected (f : DomainFailure)
  | bannedHeader
  | banned (forward : String)
  | noForwardHeader
  | noForward (domain : String)
  | blank
  | footerRule
  | footer
  deriving DecidableEq, Repr

/-- The text that a `WriteString` of `sendReport` writes. -/
def ReportLine.render : ReportLine → String
  | ReportLine.title => "📊 *自动检测报告*\n"
  | ReportLine.time text => "🕒 时间: `" ++ text ++ "`\n\n"
  | ReportLine.switchedHeader => "✅ *DNS 自动切换成功*\n"
  | ReportLine.switched sw =>
    "  • `" ++ sw.Domain ++ ":" ++ toString sw.Port ++ "`\n" ++
    "    类型: `" ++ sw.RecordType ++ "` | 运营商: `" ++ sw.ISP ++ "`\n" ++
    "    转发: `" ++ sw.ForwardDomain ++ "` | 权重: `" ++ toString sw.Weight ++ "`\n"
  | ReportLine.failedHeader => "⚠️ *接口调用失败*\n"
  | ReportLine.failed domain count =>
    "  • `" ++ domain ++ "` (接口调用失败 " ++ toString count ++ " 次)\n"
  | ReportLine.disconnectedHeader => "🚨 *主域名连通性故障*\n"
  | ReportLine.disconnected f =>
    "  • `" ++ f.Domain ++ ":" ++ toString f.Port ++ "` - " ++ f.Reason ++ "\n"
  | ReportLine.bannedHeader => "🚫 *转发域名已封禁 24小时*\n"
  | ReportLine.banned forward => "  • `" ++ forward ++ "`\n"
  | ReportLine.noForwardHeader => "🆘 *无可用转发域名*\n"
  | ReportLine.noForward domain => "  • `" ++ domain ++ "` (请尽快处理！)\n"
  | ReportLine.blank => "\n"
  | ReportLine.footerRule => "──────────\n"
  | ReportLine.footer => "🔍 检测完成"

/-- Lines 514-528 of `sendReport`: whether a digest is sent. -/
def shouldSend (env : Env) (st : State) : Bool :=
  (decide (st.report.DisconnectedDomains.length > 0) ||
    decide (st.report.BannedForwards.length > 0) ||
    decide (st.report.SwitchedDomains.length > 0) ||
    decide (st.report.NoForwardDomains.length > 0)) ||
  (decide (st.report.FailedDomains.length > 0) && shouldSendApiFailureNotification env st)

/-- Lines 536-591 of `sendReport`: the writes that build the digest, in order;
`timeText` is the formatted clock reading. -/
def reportLines (env : Env) (timeText : String) (st : State) : List ReportLine :=
  [ReportLine.title, ReportLine.time timeText] ++
  (if st.report.SwitchedDomains.length > 0 then
    [ReportLine.switchedHeader] ++ st.report.SwitchedDomains.map ReportLine.switched ++
      [ReportLine.blank]
   else []) ++
  (if st.report.FailedDomains.length > 0 ∧ shouldSendApiFailureNotification env st = true then
    [ReportLine.failedHeader] ++
      st.report.FailedDomains.map (fun d => ReportLine.failed d st.apiFailureCount) ++
      [ReportLine.blank]
   else []) ++
  (if st.report.DisconnectedDomains.length > 0 then
    [ReportLine.disconnectedHeader] ++
      st.report.DisconnectedDomains.map ReportLine.disconnected ++ [ReportLine.blank]
   else []) ++
  (if st.report.BannedForwards.length > 0 then
    [ReportLine.bannedHeader] ++ st.report.BannedForwards.map ReportLine.banned ++
      [ReportLine.blank]
   else []) ++
  (if st.report.NoForwardDomains.length > 0 then
    [ReportLine.noForwardHeader] ++ st.report.NoForwardDomains.map ReportLine.noForward ++
      [ReportLine.blank]
   else []) ++
  [ReportLine.footerRule, ReportLine.footer]

/-- The function `sendReport` (lines 512-595): the digest it hands to
`notifyAdmins`, or `none` when it returns without sending. -/
def sendReport (env : Env) (timeText : String) (st : State) : Option String :=
  if shouldSend env st then
    some (String.join ((reportLines env timeText st).map ReportLine.render))
  else none

/-- The function `performAutoCheck` (lines 80-127): one scheduled cycle. `domains` is
what the query of lines 101-107 returns, `none` when the database cannot be
opened or the query fails. Returns the state after the cycle, whose report is
the report of the cycle, and the digest handed to `notifyAdmins`, if any. -/
def performAutoCheck (env : Env) (timeText : String) (domains : Option (List DomainRecord))
    (st : State) : State × Option String :=
  match domains with
  | none => ({ st with report := emptyReport }, none)
  | some ds =>
    let st1 := checkDomains env ds { st with report := emptyReport }
    (st1, sendReport env timeText st1)

/-- The loop of `performManualCheck` over the active domains (lines 712-734). The
edits of the progress message are presentation only and are not traced. -/
def checkDomainsWithProgress (env : Env) : List DomainRecord → State → State
  | [], st => st
  | d :: ds, st => checkDomainsWithProgress env ds (checkDomainWithProgress env d st)

/-- Lines 666-734 of `performManualCheck`: a fresh report, the filter of the
check-enabled domains and the loop over them. -/
def manualCheckDomains (env : Env) (domains : List DomainRecord) (st : State) : State :=
  checkDomainsWithProgress env (domains.filter (fun d => !d.IsDisableCheck))
    { st with report := emptyReport }

/-! ## Probe backend (`CheckBackend/check_api.go`, lines 60-177) -/

/-- The data of the final answer of the backend (`TCPCheckResponse`). -/
structure TCPCheckResponse where
  Result : Bool
  Target : String
  TargetIp : String
  Message : String
  BackendPublicIP : String
  deriving DecidableEq, Repr

/-- What `net.LookupIP` returns: the addresses, as `IP.String()` renders them, and
the text of the error (`none` is a nil error). -/
structure LookupAnswer where
  ips : List String
  err : Option String
  deriving DecidableEq, Repr

/-- Go `fmt.Sprintf("%v", err)` for an error value. -/
def sprintfError (err : Option String) : String :=
  match err with
  | some text => text
  | none => "<nil>"

/-- The connection loop of `tcpCheckHandler` (lines 113-138) from attempt `i` on:
what it sends on `doneChan` and on `errorChan`. `dial i` is the error text of
`net.DialTimeout` at attempt `i`, `none` when the connection is made; the
first argument bounds the attempts left. -/
def dialAttempts (dial : Nat → Option String) (maxTry : Nat) : Nat → Nat → Bool × Option String
  | 0, _ => (false, none)
  | fuel + 1, i =>
    match dial i with
    | none => (true, none)
    | some e => if i = maxTry then (false, some e) else dialAttempts dial maxTry fuel (i + 1)

/-- The function `tcpCheckHandler` after the request is bound and the key is
validated: the data of its final answer, which it sends with code 0. The
progress lines that precede it are not part of the model. -/
def tcpCheckHandler (lookup : LookupAnswer) (dial : Nat → Option String) (publicIP : String)
    (target : String) (port : Int) : TCPCheckResponse :=
  match lookup.err, lookup.ips with
  | none, targetIP :: _ =>
    let addr := sprintfHostPort targetIP port
    let done := dialAttempts dial 5 5 1
    { Result := done.1, Target := target, TargetIp := targetIP,
      Message := if done.1 then ""
        else "检测结束,目标 " ++ addr ++ "无法连接: " ++ sprintfError done.2,
      BackendPublicIP := publicIP }
  | _, _ =>
    { Result := false, Target := target, TargetIp := "",
      Message := "无法解析目标 " ++ target ++ "的IP, 错误消息: " ++ sprintfError lookup.err,
      BackendPublicIP := publicIP }

/-- The data of a final answer as the bot decodes it: `TCPCheckResponse` and
`tcpCheckResponseData` carry the same JSON field names. -/
def decodeResponse (r : TCPCheckResponse) : tcpCheckResponseData :=
  { Result := r.Result, Target := r.Target, TargetIp := r.TargetIp, Message := r.Message,
    BackendPublicIP := r.BackendPublicIP }

/-! ## Reading the answer of the backend (`check.go`, lines 37-139) -/

/-- One decoded response line (`apiResponse`). `Data` is left untyped by the
first `json.Unmarshal`; the model keeps it as the JSON text that
`json.Marshal(apiResp.Data)` gives back (which cannot fail on a value that
`json.Unmarshal` produced). -/
structure apiResponse where
  Code : Int
  Message : String
  Data : String
  deriving DecidableEq, Repr

/-- The part of `encoding/json` that the function uses.

* `unmarshalResponse line` is `json.Unmarshal([]byte(line), &apiResp)`, `none`
  when it returns an error.
* `unmarshalData data` is `json.Unmarshal(dataBytes, &result)` into a
  `tcpCheckResponseData`, `none` when it returns an error.
* `progressOf data` is the pair `data["current"]`, `data["total"]` when the data
  is an object that holds both as numbers. -/
structure JsonCodec where
  unmarshalResponse : String → Option apiResponse
  unmarshalData : String → Option tcpCheckResponseData
  progressOf : String → Option (Int × Int)

/-- The errors that `checkConnectivityWithProgress` returns, without the text of
the underlying error. -/
inductive CheckError where
  | createRequest
  | sendRequest
  | unmarshalData
  | backendError (message : String)
  | unexpectedResponseFormat
  deriving DecidableEq, Repr

/-- What happens to the HTTP request: it cannot be built, it cannot be sent, or
it is answered with a body, given as the lines that the scanner yields. -/
inductive HttpExchange where
  | notCreated
  | notSent
  | body (lines : List String)
  deriving DecidableEq, Repr

/-- The zero value `tcpCheckResponseData{}`. -/
def zeroResponseData : tcpCheckResponseData :=
  { Result := false, Target := "", TargetIp := "", Message := "", BackendPublicIP := "" }

/-- The loop over the response lines (lines 71-136) and the return after it
(line 138): the returned pair and the calls of the progress callback made so
far. `hasCallback` is `progressCallback != nil`. -/
def scanResponse (codec : JsonCodec) (hasCallback : Bool) :
    List String → List (Int × Int) →
      (tcpCheckResponseData × Option CheckError) × List (Int × Int)
  | [], calls => ((zeroResponseData, some CheckError.unexpectedResponseFormat), calls)
  | line :: rest, calls =>
    if line = "" then scanResponse codec hasCallback rest calls
    else
      match codec.unmarshalResponse line with
      | none => scanResponse codec hasCallback rest calls
      | some apiResp =>
        if apiResp.Code = 1 ∧ apiResp.Message = "progress" ∧ hasCallback = true then
          match codec.progressOf apiResp.Data with
          | some call => scanResponse codec hasCallback rest (calls ++ [call])
          | none => scanResponse codec hasCallback rest calls
        else if apiResp.Code = 0 then
          match codec.unmarshalData apiResp.Data with
          | none => ((zeroResponseData, some CheckError.unmarshalData), calls)
          | some result => ((result, none), calls)
        else if apiResp.Message = "progress" then scanResponse codec hasCallback rest calls
        else
          match codec.unmarshalData apiResp.Data with
          | none => ((zeroResponseData, some (CheckError.backendError apiResp.Message)), calls)
          | some result => ((result, some (CheckError.backendError apiResp.Message)), calls)

/-- The function `checkConnectivityWithProgress` (lines 43-139): the returned pair
(data and error, `none` for a nil error) and the calls of the progress
callback. -/
def checkConnectivityWithProgress (codec : JsonCodec) (hasCallback : Bool) :
    HttpExchange → (tcpCheckResponseData × Option CheckError) × List (Int × Int)
  | HttpExchange.notCreated => ((zeroResponseData, some CheckError.createRequest), [])
  | HttpExchange.notSent => ((zeroResponseData, some CheckError.sendRequest), [])
  | HttpExchange.body lines => scanResponse codec hasCallback lines []

/-! ## Check and resolve of one forward (`admin_handlers.go`, lines 980-1157) -/

/-- The store effect of `editForwardInfo` (check.go, lines 247-332): it reads the
forward and its domain again and runs the ban branch on the forward. -/
def editForwardInfo (env : Env) (domains : List DomainRecord) (forwardID : Nat)
    (store : List ForwardRecord) : List ForwardRecord :=
  match store.find? (fun r => decide (r.ID = forwardID)) with
  | none => store
  | some f =>
    match domains.find? (fun d => decide (d.ID = f.DomainRecordID)) with
    | none => store
    | some _ => (editForwardInfoBan env f store).2

/-- The result message that `handleForwardCheckAndResolve` shows before it returns
to the detail page. -/
inductive ResolveNotice where
  | forwardNotFound
  | domainNotFound
  | checkFailed
  | unreachable (message : String)
  | unsupportedType
  | cloudflareFailed
  | dnsFailed
  | success (domain recordType target : String)
  deriving DecidableEq, Repr

/-- Lines 1073-1155 of `handleForwardCheckAndResolve`: the Cloudflare client for the
root domain (`cloudflare.NewClientByDomain`), the record update by record
type (`UpdateARecord`, `UpdateCNAMERecord`) and the bookkeeping of the resolve
status. In the source these lines stand inside the `CNAME` branch. -/
def resolveToCloudflare (env : Env) (domains : List DomainRecord) (d : DomainRecord)
    (f : ForwardRecord) (targetIP : String) (st : State) : State × Option ResolveNotice :=
  let rootDomain := extractRootDomain d.Domain
  if env.clientOk = false then
    ({ st with store := editForwardInfo env domains f.ID st.store },
      some ResolveNotice.cloudflareFailed)
  else
    let st1 := { st with trace := st.trace ++ [Effect.zoneIDByName rootDomain] }
    match env.zoneIDByName rootDomain with
    | none =>
      ({ st1 with store := editForwardInfo env domains f.ID st1.store },
        some ResolveNotice.cloudflareFailed)
    | some zoneID =>
      let record : Option UpdateDNSRecordParams :=
        if f.RecordType = "A" then
          some { ID := d.RecordId, Type_ := "A", Name := d.Domain, Content := targetIP,
                 TTL := env.ttl, Proxied := false }
        else if f.RecordType = "CNAME" then
          some { ID := d.RecordId, Type_ := "CNAME", Name := d.Domain, Content := targetIP,
                 TTL := env.ttl, Proxied := false }
        else none
      let st2 := match record with
        | some r => { st1 with trace := st1.trace ++ [Effect.apiUpdateDNSRecord zoneID r] }
        | none => st1
      let dnsOk := match record with
        | some r => env.apiUpdateDNSRecord zoneID r
        | none => true
      if dnsOk = false then
        let f1 := { f with ResolveStatus := "failed", LastResolvedAt := env.now }
        let saved := (operate.UpdateForwardRecord env f1 st2.store).2
        ({ st2 with store := editForwardInfo env domains f.ID saved },
          some ResolveNotice.dnsFailed)
      else
        let f1 := { f with ResolveStatus := "success", LastResolvedAt := env.now }
        let cleared := (operate.ClearOtherForwardStatus env f1.DomainRecordID f1.ID st2.store).2
        let saved := (operate.UpdateForwardRecord env f1 cleared).2
        ({ st2 with store := editForwardInfo env domains f.ID saved },
          some (ResolveNotice.success d.Domain f.RecordType targetIP))

/-- The function `handleForwardCheckAndResolve` (lines 980-1157) with the database
open: the state after it and the result message it shows, `none` when it
ends without one. `domains` is the table of the domains. The progress edits
of the chat message are not modelled. -/
def handleForwardCheckAndResolve (env : Env) (domains : List DomainRecord) (forwardID : Nat)
    (st : State) : State × Option ResolveNotice :=
  match st.store.find? (fun r => decide (r.ID = forwardID)) with
  | none => (st, some ResolveNotice.forwardNotFound)
  | some f =>
    match domains.find? (fun d => decide (d.ID = f.DomainRecordID)) with
    | none => (st, some ResolveNotice.domainNotFound)
    | some d =>
      let st1 := { st with trace := st.trace ++ [Effect.probe f.ForwardDomain d.Port] }
      match env.checkConnectivity f.ForwardDomain d.Port with
      | none =>
        ({ st1 with store := editForwardInfo env domains forwardID st1.store },
          some ResolveNotice.checkFailed)
      | some checkResult =>
        if !checkResult.Result then
          ({ st1 with store := editForwardInfo env domains forwardID st1.store },
            some (ResolveNotice.unreachable checkResult.Message))
        else if f.RecordType = "A" then
          let f1 := { f with IP := checkResult.TargetIp }
          ({ st1 with store := (operate.UpdateForwardRecord env f1 st1.store).2 }, none)
        else if f.RecordType = "CNAME" then
          if checkResult.TargetIp ≠ "" then
            let f1 := { f with IP := checkResult.TargetIp }
            let st2 := { st1 with store := (operate.UpdateForwardRecord env f1 st1.store).2 }
            resolveToCloudflare env domains d f1 f.ForwardDomain st2
          else
            ({ st1 with store := editForwardInfo env domains forwardID st1.store },
              some ResolveNotice.unsupportedType)
        else (st1, none)

/-! ## Text functions of the Go library (`strings`, `strconv`, `fmt`) -/

/-- Go `unicode.IsSpace`: the white space characters that `strings.TrimSpace`
removes. -/
def isSpace (c : Char) : Bool :=
  let n := c.toNat
  (decide (9 ≤ n) && decide (n ≤ 13)) || n == 32 || n == 0x85 || n == 0xA0 || n == 0x1680 ||
    (decide (0x2000 ≤ n) && decide (n ≤ 0x200A)) || n == 0x2028 || n == 0x2029 ||
    n == 0x202F || n == 0x205F || n == 0x3000

/-- Go `strings.TrimSpace` on the characters of a text. -/
def trimSpaceChars (s : List Char) : List Char :=
  ((s.dropWhile isSpace).reverse.dropWhile isSpace).reverse

/-- Go `strings.TrimSpace`. -/
def TrimSpace (s : String) : String := String.mk (trimSpaceChars s.data)

/-- Go `strings.Split(s, sep)` for a separator of one character, on the
characters of `s`. -/
def splitChars (sep : Char) : List Char → List (List Char)
  | [] => [[]]
  | c :: cs =>
    let rest := splitChars sep cs
    if c = sep then [] :: rest else (c :: rest.headD []) :: rest.tail

/-- The value of a run of decimal digits that follows the digits of value `acc`,
`none` when a character is not a digit. -/
def parseDigits : List Char → Nat → Option Nat
  | [], acc => some acc
  | c :: cs, acc => if c.isDigit then parseDigits cs (acc * 10 + (c.toNat - 48)) else none

/-- The digits of `strconv.Atoi` after the sign: at least one digit. -/
def parseMagnitude (ds : List Char) : Option Nat :=
  if ds = [] then none else parseDigits ds 0

/-- Go `strconv.Atoi` on a 64-bit platform: an optional sign and at least one
decimal digit, with a value that fits `int`; `none` is an error. -/
def Atoi (s : String) : Option Int :=
  match s.data with
  | '-' :: ds =>
    match parseMagnitude ds with
    | some n => if n ≤ 2 ^ 63 then some (-(n : Int)) else none
    | none => none
  | '+' :: ds =>
    match parseMagnitude ds with
    | some n => if n < 2 ^ 63 then some (n : Int) else none
    | none => none
  | ds =>
    match parseMagnitude ds with
    | some n => if n < 2 ^ 63 then some (n : Int) else none
    | none => none

/-! ## Edit sessions (`admin_handlers.go`, lines 34-50, 783-978, 1208-1330) -/

/-- The type `DomainEditSession`, without the chat and message it belongs to. -/
structure DomainEditSession where
  DomainID : Nat
  Field : String
  deriving DecidableEq, Repr

/-- The type `ForwardEditSession`, without the chat and message it belongs to. For a
session of field `add_forward` the `ForwardID` holds the ID of the domain. -/
structure ForwardEditSession where
  ForwardID : Nat
  Field : String
  deriving DecidableEq, Repr

/-- The outside world of the edit handlers, besides `Env`.

* `dbReady` tells whether the database is open or `db.InitDB` opens it.
* `dnsRecordByName name` is the ID of the record that `GetDNSRecordByName` finds,
  `none` when it returns an error.
* `saveDomainOk` and `createForwardOk` tell whether the database accepts the
  `Save` of a domain row and the `Create` of a forward row. -/
structure AdminWorld where
  dbReady : Bool
  dnsRecordByName : String → Option String
  saveDomainOk : Bool
  createForwardOk : Bool

/-- What the edit handlers of one user work on: the two tables, the sessions of
the user (`domainEditSessions[ctx.UserID]`, `forwardEditSessions[ctx.UserID]`)
and the formats of the messages sent to the user by `SendMessage`, oldest
first. -/
structure AdminState where
  domains : List DomainRecord
  forwards : List ForwardRecord
  domainEditSession : Option DomainEditSession
  forwardEditSession : Option ForwardEditSession
  sent : List String
  deriving DecidableEq, Repr

/-- The function `SendMessage`: the message is recorded by its format; the
arguments of the format are left out. -/
def SendMessage (format : String) (st : AdminState) : AdminState :=
  { st with sent := st.sent ++ [format] }

namespace operate

/-- The function `operate.UpdateDomainRecord`, a gorm `DB.Save(&domain)`. -/
def UpdateDomainRecord (env : Env) (w : AdminWorld) (domain : DomainRecord)
    (domains : List DomainRecord) : Bool × List DomainRecord :=
  if w.saveDomainOk = false then (false, domains)
  else if domain.ID = 0 then
    (true, domains ++ [{ domain with ID := (domains.map (fun r => r.ID)).foldl max 0 + 1,
                                     CreatedAt := env.now, UpdatedAt := env.now }])
  else if domains.any (fun r => decide (r.ID = domain.ID)) then
    (true, domains.map (fun r => if r.ID = domain.ID then { domain with UpdatedAt := env.now }
      else r))
  else (true, domains ++ [domain])

/-- The function `operate.AddForwardRecord`: the domain must exist; time stamps and
defaults are set and the row is created under the next key. -/
def AddForwardRecord (env : Env) (w : AdminWorld) (forward : ForwardRecord)
    (domains : List DomainRecord) (forwards : List ForwardRecord) :
    Bool × List ForwardRecord :=
  match domains.find? (fun d => decide (d.ID = forward.DomainRecordID)) with
  | none => (false, forwards)
  | some _ =>
    let f1 := { forward with CreatedAt := env.now, UpdatedAt := env.now }
    let f2 := if f1.RecordType = "" then { f1 with RecordType := "A" } else f1
    let f3 := if f2.ResolveStatus = "" then { f2 with ResolveStatus := "never" } else f2
    if w.createForwardOk = false then (false, forwards)
    else (true, forwards ++ [{ f3 with ID := (forwards.map (fun r => r.ID)).foldl max 0 + 1 }])

end operate

/-- Lines 836-896 of `handleDomainEditInput`: for the field `name` the zone and the
record of the new name are looked up at Cloudflare (`NewClientByDomain`,
`GetZoneIDByDomain`, `GetDNSRecordByName`); then the row is saved and the
session is closed. The lookups are reads and are not traced; the second
zone lookup gets the answer of the first; the detail page shown at the end
is presentation only. -/
def saveDomainEdit (env : Env) (w : AdminWorld) (session : DomainEditSession) (text : String)
    (d : DomainRecord) (st : AdminState) : Bool × AdminState :=
  let looked : Except String DomainRecord :=
    if session.Field = "name" then
      let rootDomain := extractRootDomain text
      if env.clientOk = false then Except.error "❌ 无法连接 Cloudflare (根域名: %s): %v"
      else
        match env.zoneIDByName rootDomain with
        | none => Except.error "❌ 无法连接 Cloudflare (根域名: %s): %v"
        | some zoneID =>
          match w.dnsRecordByName text with
          | none =>
            Except.error
              "❌ 域名 %s 在 Cloudflare 中不存在对应的 DNS 记录，请先在 Cloudflare 中创建该域名的 DNS 记录: %v"
          | some recordID => Except.ok { d with RecordId := recordID, ZoneId := zoneID }
    else Except.ok d
  match looked with
  | Except.error format => (true, { SendMessage format st with domainEditSession := none })
  | Except.ok d1 =>
    let saved := operate.UpdateDomainRecord env w d1 st.domains
    if saved.1 = false then
      (true, { SendMessage "❌ 更新主域名失败：%v" st with domainEditSession := none })
    else (true, { st with domains := saved.2, domainEditSession := none })

/-- The function `handleDomainEditInput` (lines 783-897) on a message with text
`messageText`: whether the message was taken as edit input, and the state
after it. -/
def handleDomainEditInput (env : Env) (w : AdminWorld) (messageText : String)
    (st : AdminState) : Bool × AdminState :=
  match st.domainEditSession with
  | none => (false, st)
  | some session =>
    let text := TrimSpace messageText
    if text = "" then (true, SendMessage "❌ 输入不能为空，请重新输入。" st)
    else if w.dbReady = false then (true, SendMessage "❌ 数据库初始化失败：%v" st)
    else
      match st.domains.find? (fun r => decide (r.ID = session.DomainID)) with
      | none => (true, { SendMessage "❌ 未找到该主域名" st with domainEditSession := none })
      | some d =>
        if session.Field = "name" then
          saveDomainEdit env w session text { d with Domain := text } st
        else if session.Field = "port" then
          match Atoi text with
          | none => (true, SendMessage "❌ 端口必须是数字，请重新输入。" st)
          | some port => saveDomainEdit env w session text { d with Port := port } st
        else if session.Field = "sort" then
          match Atoi text with
          | none => (true, SendMessage "❌ 排序值必须是数字，请重新输入。" st)
          | some sortVal => saveDomainEdit env w session text { d with SortOrder := sortVal } st
        else
          (true, { SendMessage "❌ 未知字段，编辑失败。" st with domainEditSession := none })

/-- The function `showAddForwardForm`, as far as the session goes: it stores the
session of field `add_forward` for the domain again. -/
def showAddForwardForm (domainID : Nat) (st : AdminState) : AdminState :=
  { st with forwardEditSession := some { ForwardID := domainID, Field := "add_forward" } }

/-- The function `handleAddForwardInput` (lines 1208-1301) on the trimmed text
`text`. -/
def handleAddForwardInput (env : Env) (w : AdminWorld) (session : ForwardEditSession)
    (text : String) (st : AdminState) : Bool × AdminState :=
  let parts := (splitChars '|' text.data).map String.mk
  if parts.length < 6 then
    (true, showAddForwardForm session.ForwardID
      (SendMessage "❌ 输入格式错误，请按照格式输入：转发域名|IP|ISP|权重|排序|记录类型" st))
  else
    let forwardDomain := TrimSpace (parts.getD 0 "")
    let ip := TrimSpace (parts.getD 1 "")
    let isp := TrimSpace (parts.getD 2 "")
    match Atoi (TrimSpace (parts.getD 3 "")) with
    | none =>
      (true, showAddForwardForm session.ForwardID
        (SendMessage "❌ 权重必须是数字，请重新输入。" st))
    | some weight =>
      match Atoi (TrimSpace (parts.getD 4 "")) with
      | none =>
        (true, showAddForwardForm session.ForwardID
          (SendMessage "❌ 排序值必须是数字，请重新输入。" st))
      | some sortOrder =>
        let recordType0 := TrimSpace (parts.getD 5 "")
        let recordType := if recordType0 = "" then "A" else recordType0
        if forwardDomain = "" then
          (true, showAddForwardForm session.ForwardID
            (SendMessage "❌ 转发域名不能为空，请重新输入。" st))
        else if w.dbReady = false then
          (true, { SendMessage "❌ 数据库初始化失败：%v" st with forwardEditSession := none })
        else if st.forwards.any (fun r =>
            decide (r.DomainRecordID = session.ForwardID ∧ r.ForwardDomain = forwardDomain)) then
          (true, { SendMessage "❌ 转发域名 `%s` 已存在于当前主域名下，请勿重复添加。" st with
            forwardEditSession := none })
        else
          let forward : ForwardRecord :=
            { ID := 0, DomainRecordID := session.ForwardID, ForwardDomain := forwardDomain,
              IP := ip, ISP := isp, IsBan := false, BanTime := 0, Weight := weight,
              SortOrder := sortOrder, RecordType := recordType, LastResolvedAt := 0,
              ResolveStatus := "never", CreatedAt := 0, UpdatedAt := 0 }
          let added := operate.AddForwardRecord env w forward st.domains st.forwards
          if added.1 = false then
            (true, { SendMessage "❌ 添加转发记录失败：%v" st with forwardEditSession := none })
          else
            (true, { SendMessage "✅ 转发记录添加成功！" st with
              forwards := added.2, forwardEditSession := none })

/-- Lines 957-977 of `handleForwardEditInput`: the row is saved, the session is
closed and the detail page is shown, which lifts an expired ban. -/
def saveForwardEdit (env : Env) (f : ForwardRecord) (st : AdminState) : Bool × AdminState :=
  let saved := operate.UpdateForwardRecord env f st.forwards
  if saved.1 = false then
    (true, { SendMessage "❌ 更新转发记录失败：%v" st with
      forwards := editForwardInfo env st.domains f.ID st.forwards, forwardEditSession := none })
  else
    (true, { st with
      forwards := editForwardInfo env st.domains f.ID saved.2, forwardEditSession := none })

/-- The function `handleForwardEditInput` (lines 900-978) on a message with text
`messageText`. -/
def handleForwardEditInput (env : Env) (w : AdminWorld) (messageText : String)
    (st : AdminState) : Bool × AdminState :=
  match st.forwardEditSession with
  | none => (false, st)
  | some session =>
    let text := TrimSpace messageText
    if text = "" then (true, SendMessage "❌ 输入不能为空，请重新输入。" st)
    else if w.dbReady = false then (true, SendMessage "❌ 数据库初始化失败：%v" st)
    else if session.Field = "add_forward" then handleAddForwardInput env w session text st
    else
      match st.forwards.find? (fun r => decide (r.ID = session.ForwardID)) with
      | none => (true, { SendMessage "❌ 未找到该转发记录" st with forwardEditSession := none })
      | some f =>
        if session.Field = "domain" then saveForwardEdit env { f with ForwardDomain := text } st
        else if session.Field = "ip" then saveForwardEdit env { f with IP := text } st
        else if session.Field = "isp" then saveForwardEdit env { f with ISP := text } st
        else if session.Field = "weight" then
          match Atoi text with
          | none => (true, SendMessage "❌ 权重必须是数字，请重新输入。" st)
          | some weight => saveForwardEdit env { f with Weight := weight } st
        else if session.Field = "sort" then
          match Atoi text with
          | none => (true, SendMessage "❌ 排序值必须是数字，请重新输入。" st)
          | some sortVal => saveForwardEdit env { f with SortOrder := sortVal } st
        else if session.Field = "type" then saveForwardEdit env { f with RecordType := text } st
        else
          (true, { SendMessage "❌ 未知字段，编辑失败。" st with forwardEditSession := none })

/-! ## Bulk import and export (`tool.go`, lines 86-180; `handlers.go`, lines 177-213) -/

deriving instance DecidableEq for Except

/-- Go `strings.HasPrefix`. -/
def HasPrefix (s pre : String) : Bool := startsWith s.data pre.data

/-- Go `strings.EqualFold(s, "true")`: no character outside ASCII folds to a
letter of `true`. -/
def equalFoldTrue (s : String) : Bool :=
  match s.data with
  | [a, b, c, d] =>
    (a == 't' || a == 'T') && (b == 'r' || b == 'R') && (c == 'u' || c == 'U') &&
      (d == 'e' || d == 'E')
  | _ => false

/-- Which check of `parseBatchUploadContent` rejects a line. -/
inductive UploadErrorKind where
  | fieldCount
  | port
  | sortOrder
  | weight
  | forwardSort
  deriving DecidableEq, Repr

/-- The error of `parseBatchUploadContent`: the line number it prints (`lineNum+1`)
and the check that failed. -/
structure UploadError where
  line : Nat
  kind : UploadErrorKind
  deriving DecidableEq, Repr

/-- The values that lines 103-145 read from one data line. -/
structure UploadLine where
  domain : String
  port : Int
  isDisable : Bool
  sortOrder : Int
  forward : ForwardRecord
  deriving DecidableEq, Repr

/-- Lines 97-145 of `parseBatchUploadContent` on a trimmed line that is neither
empty nor a comment. -/
def parseUploadLine (line : String) : Except UploadErrorKind UploadLine :=
  let parts := (splitChars '|' line.data).map String.mk
  if parts.length < 11 then Except.error UploadErrorKind.fieldCount
  else
    let domain := TrimSpace (parts.getD 0 "")
    let portStr := TrimSpace (parts.getD 1 "")
    let isDisableStr := TrimSpace (parts.getD 2 "")
    let sortOrderStr := TrimSpace (parts.getD 3 "")
    let forwardDomain := TrimSpace (parts.getD 4 "")
    let ip := TrimSpace (parts.getD 5 "")
    let isp := TrimSpace (parts.getD 6 "")
    let isBanStr := TrimSpace (parts.getD 7 "")
    let weightStr := TrimSpace (parts.getD 8 "")
    let forwardSortStr := TrimSpace (parts.getD 9 "")
    let recordType0 := TrimSpace (parts.getD 10 "")
    match Atoi portStr with
    | none => Except.error UploadErrorKind.port
    | some port =>
      let isDisable := equalFoldTrue isDisableStr
      match Atoi sortOrderStr with
      | none => Except.error UploadErrorKind.sortOrder
      | some sortOrder =>
        let isBan := equalFoldTrue isBanStr
        match Atoi weightStr with
        | none => Except.error UploadErrorKind.weight
        | some weight =>
          match Atoi forwardSortStr with
          | none => Except.error UploadErrorKind.forwardSort
          | some forwardSort =>
            let recordType := if recordType0 = "" then "A" else recordType0
            Except.ok
              { domain := domain, port := port, isDisable := isDisable, sortOrder := sortOrder,
                forward :=
                  { ID := 0, DomainRecordID := 0, ForwardDomain := forwardDomain, IP := ip,
                    ISP := isp, IsBan := isBan, BanTime := 0, Weight := weight,
                    SortOrder := forwardSort, RecordType := recordType, LastResolvedAt := 0,
                    ResolveStatus := "", CreatedAt := 0, UpdatedAt := 0 } }

/-- Lines 147-163: the line is merged into `domainMap`, kept as the list of its
entries in the order in which the keys were first inserted. -/
def mergeUploadLine (l : UploadLine) (domainMap : List (String × DomainRecord)) :
    List (String × DomainRecord) :=
  let key := sprintfHostPort l.domain l.port
  if domainMap.any (fun e => e.1 == key) then
    domainMap.map (fun e =>
      if e.1 = key then (e.1, { e.2 with Forwards := e.2.Forwards ++ [l.forward] }) else e)
  else
    domainMap ++
      [(key, { ID := 0, Domain := l.domain, Port := l.port, RecordId := "", ZoneId := "",
               Forwards := [l.forward], IsDisableCheck := l.isDisable,
               SortOrder := l.sortOrder, CreatedAt := 0, UpdatedAt := 0 })]

/-- The loop of `parseBatchUploadContent` (lines 90-164) over the remaining lines;
`lineNum` is the index of the first of them. -/
def parseUploadLines : List String → Nat → List (String × DomainRecord) →
    Except UploadError (List (String × DomainRecord))
  | [], _, domainMap => Except.ok domainMap
  | raw :: rest, lineNum, domainMap =>
    let line := TrimSpace raw
    if line = "" ∨ HasPrefix line "#" = true then parseUploadLines rest (lineNum + 1) domainMap
    else
      match parseUploadLine line with
      | Except.error kind => Except.error { line := lineNum + 1, kind := kind }
      | Except.ok l => parseUploadLines rest (lineNum + 1) (mergeUploadLine l domainMap)

/-- Go `strings.Split(content, "\n")`. -/
def splitLines (content : String) : List String :=
  (splitChars '\n' content.data).map String.mk

/-- The function `parseBatchUploadContent` (lines 86-180). The Go function returns
the values of its map in the unspecified order of a map iteration; the model
returns them in the order in which their keys were first inserted, and the
statements about it do not depend on the order. -/
def parseBatchUploadContent (content : String) : Except UploadError (List DomainRecord) :=
  match parseUploadLines (splitLines content) 0 [] with
  | Except.error e => Except.error e
  | Except.ok domainMap => Except.ok (domainMap.map (fun e => e.2))

/-- Go `fmt.Sprintf("%t", b)`. -/
def sprintfBool (b : Bool) : String := if b then "true" else "false"

/-- The line that `ExportDomainData` writes for one forward of a domain (lines
196-209), without the line break at its end. -/
def exportRow (domain : DomainRecord) (forward : ForwardRecord) : String :=
  domain.Domain ++ "|" ++ toString domain.Port ++ "|" ++ sprintfBool domain.IsDisableCheck ++
    "|" ++ toString domain.SortOrder ++ "|" ++ forward.ForwardDomain ++ "|" ++ forward.IP ++
    "|" ++ forward.ISP ++ "|" ++ sprintfBool forward.IsBan ++ "|" ++ toString forward.Weight ++
    "|" ++ toString forward.SortOrder ++ "|" ++ forward.RecordType

/-- The errors of `ExportDomainData`. -/
inductive ExportError where
  | query
  | noRecords
  deriving DecidableEq, Repr

/-- The function `ExportDomainData` (lines 177-213). `domains` is what the query of
line 181 returns, the domains with their forwards preloaded, `none` when
the query fails. Each `WriteString` appends one line to the result. -/
def ExportDomainData (domains : Option (List DomainRecord)) : Except ExportError String :=
  match domains with
  | none => Except.error ExportError.query
  | some ds =>
    if ds.length = 0 then Except.error ExportError.noRecords
    else
      Except.ok (ds.foldl (fun result domain =>
        domain.Forwards.foldl (fun result forward =>
          result ++ (exportRow domain forward ++ "\n")) result) "")

/-! ## Vocabulary of the statements -/

/-- The probe of forward `f` on `port` returns without error and with result
reachable. -/
def answersReachable (env : Env) (port : Int) (f : ForwardRecord) : Bool :=
  match env.checkConnectivity f.ForwardDomain port with
  | some result => result.Result
  | none => false

/-- Forward `f` is not banned and its probe answers reachable. -/
def selectable (env : Env) (port : Int) (f : ForwardRecord) : Bool :=
  !f.IsBan && answersReachable env port f

/-- The forwards that the loop over `fs` probes, in probe order: it skips the
banned ones and stops after the first one that answers reachable. -/
def probedForwards (env : Env) (port : Int) : List ForwardRecord → List ForwardRecord
  | [] => []
  | f :: rest =>
    if f.IsBan then probedForwards env port rest
    else if answersReachable env port f then [f]
    else f :: probedForwards env port rest

/-- The probe calls of a trace, as (target, port), in call order. -/
def probeCalls (tr : List Effect) : List (String × Int) :=
  tr.filterMap (fun e => match e with
    | Effect.probe target port => some (target, port)
    | _ => none)

/-- The `UpdateDNSRecordByID` calls of a trace, in call order. -/
def dnsUpdateCalls (tr : List Effect) : List DnsUpdateCall :=
  tr.filterMap (fun e => match e with
    | Effect.updateDNSRecordByID call => some call
    | _ => none)

/-- The IP that the probe of forward `f` reports (`result.TargetIp`), empty when
the probe returns an error. -/
def probedIP (env : Env) (port : Int) (f : ForwardRecord) : String :=
  match env.checkConnectivity f.ForwardDomain port with
  | some result => result.TargetIp
  | none => ""

/-- The gateway calls that `updateToCloudflare` issues for forward `f`: none, or
the one call of lines 436-445. -/
def gatewayCalls (env : Env) (d : DomainRecord) (f : ForwardRecord) (resolvedIP : String) :
    List DnsUpdateCall :=
  if d.RecordId = "" then []
  else if env.clientOk = false then []
  else
    match recordContent f resolvedIP with
    | none => []
    | some content =>
      [DnsUpdateCall.mk d.Domain d.ZoneId d.RecordId f.RecordType d.Domain content env.ttl false]

/-- The gateway calls that one evaluation of domain `d` issues. -/
def domainGatewayCalls (env : Env) (d : DomainRecord) : List DnsUpdateCall :=
  match env.checkConnectivity d.Domain d.Port with
  | none => []
  | some result =>
    if result.Result then []
    else
      match (sortSlice d.Forwards).find? (selectable env d.Port) with
      | none => []
      | some g => gatewayCalls env d g (probedIP env d.Port g)

/-- A rewriting of rows that keeps every column that ordering, selection and the
DNS update read, except the ban flag. -/
def KeepsKeys (φ : ForwardRecord → ForwardRecord) : Prop :=
  ∀ r, (φ r).ID = r.ID ∧ (φ r).DomainRecordID = r.DomainRecordID ∧
    (φ r).ForwardDomain = r.ForwardDomain ∧ (φ r).Weight = r.Weight ∧
    (φ r).SortOrder = r.SortOrder ∧ (φ r).RecordType = r.RecordType

/-- A rewriting of rows that lifts no ban and sets the ban flag only on rows that
carry the key of a forward of `fs` whose probe does not answer reachable. -/
def BansOnlyFailed (env : Env) (port : Int) (fs : List ForwardRecord)
    (φ : ForwardRecord → ForwardRecord) : Prop :=
  ∀ r, (r.IsBan = true → (φ r).IsBan = true) ∧
    ((φ r).IsBan = true → r.IsBan = true ∨
      ∃ h ∈ fs, answersReachable env port h = false ∧ h.ID = r.ID)

/-- Fieldwise concatenation of two reports. -/
def appendReport (a b : CheckReport) : CheckReport :=
  { FailedDomains := a.FailedDomains ++ b.FailedDomains
    DisconnectedDomains := a.DisconnectedDomains ++ b.DisconnectedDomains
    BannedForwards := a.BannedForwards ++ b.BannedForwards
    SwitchedDomains := a.SwitchedDomains ++ b.SwitchedDomains
    NoForwardDomains := a.NoForwardDomains ++ b.NoForwardDomains }

/-- Fieldwise concatenation of a list of reports, in list order. -/
def concatReports : List CheckReport → CheckReport
  | [] => emptyReport
  | r :: rs => appendReport r (concatReports rs)

/-- A state with an empty store, counter zero, an empty report and an empty
trace. -/
def blankState : State :=
  { store := [], apiFailureCount := 0, report := emptyReport, trace := [] }

/-- The hosts that the loop over `fs` bans, in loop order: the unbanned forwards
probed before the selection whose probe returns an error or the
exhausted-all-attempts message. -/
def bannedHosts (env : Env) (port : Int) : List ForwardRecord → List String
  | [] => []
  | f :: rest =>
    if f.IsBan then bannedHosts env port rest
    else
      match env.checkConnectivity f.ForwardDomain port with
      | none => f.ForwardDomain :: bannedHosts env port rest
      | some result =>
        if result.Result then []
        else if isExhaustedMessage result.Message then f.ForwardDomain :: bannedHosts env port rest
        else bannedHosts env port rest

/-- The entries that `updateToCloudflare` appends to `SwitchedDomains`: one when
the gateway call is made and returns nil, none otherwise. -/
def switchEntries (env : Env) (d : DomainRecord) (f : ForwardRecord) (resolvedIP : String) :
    List DomainSwitch :=
  if d.RecordId = "" then []
  else if env.clientOk = false then []
  else
    match recordContent f resolvedIP with
    | none => []
    | some content =>
      if (UpdateDNSRecordByID env (DnsUpdateCall.mk d.Domain d.ZoneId d.RecordId f.RecordType
          d.Domain content env.ttl false)).2 = false then []
      else [{ Domain := d.Domain, Port := d.Port, RecordType := f.RecordType,
              NewRecord := content, ForwardDomain := f.ForwardDomain, ISP := f.ISP,
              Weight := f.Weight }]

/-- The report entries of one `checkForwardPool` of domain `d`. -/
def poolReport (env : Env) (d : DomainRecord) : CheckReport :=
  if d.Forwards.length = 0 then
    { emptyReport with NoForwardDomains := [sprintfHostPort d.Domain d.Port] }
  else
    match (sortSlice d.Forwards).find? (selectable env d.Port) with
    | some g =>
      { emptyReport with
        BannedForwards := bannedHosts env d.Port (sortSlice d.Forwards)
        SwitchedDomains := switchEntries env d g (probedIP env d.Port g) }
    | none =>
      { emptyReport with
        BannedForwards := bannedHosts env d.Port (sortSlice d.Forwards)
        NoForwardDomains := [sprintfHostPort d.Domain d.Port] }

/-- The report entries of one evaluation of domain `d`. -/
def domainReport (env : Env) (d : DomainRecord) : CheckReport :=
  match env.checkConnectivity d.Domain d.Port with
  | none => { emptyReport with FailedDomains := [sprintfHostPort d.Domain d.Port] }
  | some result =>
    if result.Result then emptyReport
    else
      appendReport
        { emptyReport with
          DisconnectedDomains :=
            [{ Domain := d.Domain, Port := d.Port, Reason := failReason result.Message }] }
        (poolReport env d)

/-- A trace without its progress callbacks. -/
def withoutProgress (tr : List Effect) : List Effect :=
  tr.filter (fun e => match e with
    | Effect.progress _ _ _ => false
    | _ => true)

/-- Two states with the same store and report and, progress callbacks apart, the
same trace. -/
def Agree (st st' : State) : Prop :=
  st'.store = st.store ∧ st'.report = st.report ∧
    withoutProgress st'.trace = withoutProgress st.trace

/-- Whether the probe call `(target, port)` returns without error. -/
def probeOk (env : Env) (call : String × Int) : Bool :=
  (env.checkConnectivity call.1 call.2).isSome

/-- The counter as the claim describes it: zero after a probe that returns without
error, one more after a probe that returns an error, over the outcomes of
the probes in order (`true` is a probe without error). -/
def counterAfter (count : Int) (outcomes : List Bool) : Int :=
  outcomes.foldl (fun c ok => if ok then 0 else c + 1) count

/-- The probe calls of one evaluation of domain `d`: the primary and, when it
answers unreachable, the probed forwards of the sorted pool. -/
def domainProbeCalls (env : Env) (d : DomainRecord) : List (String × Int) :=
  (d.Domain, d.Port) ::
    match env.checkConnectivity d.Domain d.Port with
    | none => []
    | some result =>
      if result.Result then []
      else (probedForwards env d.Port (sortSlice d.Forwards)).map
        (fun f => (f.ForwardDomain, d.Port))

/-- The invariant of a report: every entry of `NoForwardDomains` and every entry
of `SwitchedDomains` names a domain and port that has an entry in
`DisconnectedDomains`, and there are banned forwards only if there is a
disconnected domain. -/
def ReportCoherent (r : CheckReport) : Prop :=
  (∀ e ∈ r.NoForwardDomains,
    ∃ f ∈ r.DisconnectedDomains, sprintfHostPort f.Domain f.Port = e) ∧
  (∀ sw ∈ r.SwitchedDomains,
    ∃ f ∈ r.DisconnectedDomains, f.Domain = sw.Domain ∧ f.Port = sw.Port) ∧
  (r.BannedForwards ≠ [] → r.DisconnectedDomains ≠ [])

/-- A response line that the loop passes over: an empty line, a line that does
not parse, or a progress line (non-zero code and message `progress`). -/
def isSkippedLine (codec : JsonCodec) (line : String) : Bool :=
  decide (line = "") ||
    match codec.unmarshalResponse line with
    | none => true
    | some apiResp => decide (apiResp.Code ≠ 0) && decide (apiResp.Message = "progress")

/-- A line of the upload that is read as data: after trimming it is not empty
and does not start with `#`. -/
def isDataLine (raw : String) : Bool :=
  !(decide (TrimSpace raw = "") || HasPrefix (TrimSpace raw) "#")

/-- The fields of a line as the claim counts them: the trimmed line cut at each
`|`, each field trimmed. -/
def uploadFields (raw : String) : List String :=
  ((splitChars '|' (TrimSpace raw).data).map String.mk).map TrimSpace

/-- A data line that the claim calls malformed: fewer than 11 fields, or a port
(field 2), sort order (field 4), weight (field 9) or forward sort (field 10)
that `strconv.Atoi` does not read as an integer. -/
def isMalformedLine (raw : String) : Bool :=
  isDataLine raw &&
    (decide ((uploadFields raw).length < 11) ||
      (Atoi ((uploadFields raw).getD 1 "")).isNone ||
      (Atoi ((uploadFields raw).getD 3 "")).isNone ||
      (Atoi ((uploadFields raw).getD 8 "")).isNone ||
      (Atoi ((uploadFields raw).getD 9 "")).isNone)

/-- The data lines of an upload as lines 97-145 read them, in input order; the
lines that are skipped or rejected are left out. -/
def uploadDataLines (lines : List String) : List UploadLine :=
  lines.filterMap (fun raw =>
    if isDataLine raw then
      match parseUploadLine (TrimSpace raw) with
      | Except.ok l => some l
      | Except.error _ => none
    else none)

/-- Whether a data line belongs to the pair `(domain, port)`. -/
def hasPair (domain : String) (port : Int) (l : UploadLine) : Bool :=
  decide (l.domain = domain ∧ l.port = port)

/-- The invariant of the loop of `parseBatchUploadContent`: the entries of
`domainMap` have distinct pairs of domain and port and carry the key of
their pair, each entry holds the forwards of the lines of its pair read so
far, in input order, with the flags of the first of them, and every line
read so far has its entry. -/
def GroupsLines (domainMap : List (String × DomainRecord)) (seen : List UploadLine) : Prop :=
  (domainMap.map (fun e => (e.2.Domain, e.2.Port))).Nodup ∧
  (∀ e ∈ domainMap, e.1 = sprintfHostPort e.2.Domain e.2.Port) ∧
  (∀ e ∈ domainMap,
    e.2.Forwards = (seen.filter (hasPair e.2.Domain e.2.Port)).map (fun l => l.forward) ∧
    ∃ first, seen.find? (hasPair e.2.Domain e.2.Port) = some first ∧
      e.2.IsDisableCheck = first.isDisable ∧ e.2.SortOrder = first.sortOrder) ∧
  (∀ l ∈ seen, ∃ e ∈ domainMap, e.2.Domain = l.domain ∧ e.2.Port = l.port)

/-- A value in the range of a 64-bit Go `int`. -/
def fitsInt (i : Int) : Bool := decide (-(2 : Int) ^ 63 ≤ i) && decide (i < (2 : Int) ^ 63)

/-- A text that survives the line format: no `|`, no line break, and no white
space at its start or at its end. -/
def cleanField (s : String) : Bool :=
  !(s.data.contains '|') && !(s.data.contains '\n') &&
    !(s.data.head?.any isSpace) && !(s.data.getLast?.any isSpace)

/-- A stored forward whose exported fields survive the line format. -/
def exportableForward (f : ForwardRecord) : Bool :=
  cleanField f.ForwardDomain && cleanField f.IP && cleanField f.ISP &&
    cleanField f.RecordType && decide (f.RecordType ≠ "") && fitsInt f.Weight &&
    fitsInt f.SortOrder

/-- A stored domain that the export writes and the import reads back: it has a
forward, its name does not start with `#`, and its fields and those of its
forwards survive the line format. -/
def exportableDomain (d : DomainRecord) : Bool :=
  cleanField d.Domain && !(HasPrefix d.Domain "#") && fitsInt d.Port && fitsInt d.SortOrder &&
    decide (d.Forwards ≠ []) && d.Forwards.all exportableForward

/-- What the line format keeps of a forward: forward domain, IP, ISP, ban flag,
weight, sort order and record type. -/
def importedForward (f : ForwardRecord) : ForwardRecord :=
  { ID := 0, DomainRecordID := 0, ForwardDomain := f.ForwardDomain, IP := f.IP, ISP := f.ISP,
    IsBan := f.IsBan, BanTime := 0, Weight := f.Weight, SortOrder := f.SortOrder,
    RecordType := f.RecordType, LastResolvedAt := 0, ResolveStatus := "", CreatedAt := 0,
    UpdatedAt := 0 }

/-- What the line format keeps of a domain: domain, port, check-disabled flag,
sort order and what it keeps of each forward, in order. -/
def importedDomain (d : DomainRecord) : DomainRecord :=
  { ID := 0, Domain := d.Domain, Port := d.Port, RecordId := "", ZoneId := "",
    Forwards := d.Forwards.map importedForward, IsDisableCheck := d.IsDisableCheck,
    SortOrder := d.SortOrder, CreatedAt := 0, UpdatedAt := 0 }

/-- The lines that `ExportDomainData` writes for the domains, in the order of
the writes, without their line breaks. -/
def exportRows (ds : List DomainRecord) : List String :=
  ds.flatMap (fun d => d.Forwards.map (exportRow d))

/-- The data line that the import reads from the line exported for forward `f`
of domain `d`. -/
def importedLine (d : DomainRecord) (f : ForwardRecord) : UploadLine :=
  { domain := d.Domain, port := d.Port, isDisable := d.IsDisableCheck,
    sortOrder := d.SortOrder, forward := importedForward f }

/-! ## Concrete inputs -/

/-- A forward of domain 1 with the given identity, host, ban state, weight and
stored status. -/
def exForward (id : Nat) (host : String) (isBan : Bool) (banTime weight : Int)
    (status : String) : ForwardRecord :=
  { ID := id, DomainRecordID := 1, ForwardDomain := host, IP := "", ISP := "",
    IsBan := isBan, BanTime := banTime, Weight := weight, SortOrder := 0, RecordType := "A",
    LastResolvedAt := 0, ResolveStatus := status, CreatedAt := 0, UpdatedAt := 0 }

/-- A final backend answer with the given result and message. -/
def exAnswer (result : Bool) (ip message : String) : tcpCheckResponseData :=
  { Result := result, Target := "", TargetIp := ip, Message := message, BackendPublicIP := "" }

/-- A world at clock reading 1000 in which the primary `api.example.com` is
down with a time-out, `err.example` makes the prober fail, `up.example` and
`up2.example` are reachable, `dead.example` exhausts all attempts and every
other host fails to resolve; Cloudflare and the database accept every call. -/
def exEnv : Env :=
  { now := 1000
    checkConnectivity := fun target _ =>
      if target = "api.example.com" then some (exAnswer false "" "dial tcp: i/o timeout")
      else if target = "err.example" then none
      else if target = "up.example" then some (exAnswer true "192.0.2.7" "")
      else if target = "up2.example" then some (exAnswer true "192.0.2.8" "")
      else if target = "dead.example" then
        some (exAnswer false "192.0.2.9" "检测结束,目标 192.0.2.9:443无法连接: timeout")
      else some (exAnswer false "" "无法解析目标")
    clientOk := true
    zoneIDByName := fun _ => some "zone-1"
    apiUpdateDNSRecord := fun _ _ => true
    dbOk := fun _ => true
    ttl := 60
    apiFail := 3 }

/-- The pool of the example domain: a dead forward of weight 30, a reachable one
of weight 20 and a reachable one of weight 10, stored in the opposite order. -/
def exPool : List ForwardRecord :=
  [exForward 1 "up2.example" false 0 10 "never",
   exForward 2 "up.example" false 0 20 "never",
   exForward 3 "dead.example" false 0 30 "never"]

/-- The example domain `api.example.com:443` with the given pool. -/
def exDomain (pool : List ForwardRecord) : DomainRecord :=
  { ID := 1, Domain := "api.example.com", Port := 443, RecordId := "rec-1", ZoneId := "zone-1",
    Forwards := pool, IsDisableCheck := false, SortOrder := 0, CreatedAt := 0, UpdatedAt := 0 }

/-- A state whose store holds `pool`, with an empty report and an empty trace. -/
def exState (pool : List ForwardRecord) : State :=
  { store := pool, apiFailureCount := 0, report := ⟨[], [], [], [], []⟩, trace := [] }

/-- A reachable forward whose ban expired at 900, before the clock reading 1000
of `exEnv`. -/
def exExpired : ForwardRecord := exForward 4 "up.example" true 900 20 "failed"

/-- An unbanned forward whose probe makes the prober fail. -/
def exErr : ForwardRecord := exForward 5 "err.example" false 0 10 "never"

/-- An unbanned forward whose probe exhausts all connection attempts. -/
def exDead : ForwardRecord := exForward 3 "dead.example" false 0 30 "never"

/-- An unbanned forward whose host does not resolve. -/
def exUnresolved : ForwardRecord := exForward 6 "nx.example" false 0 5 "never"

/-- The pool `exPool` after the dead forward was banned and marked failed. -/
def exPoolBanned : List ForwardRecord :=
  [exForward 1 "up2.example" false 0 10 "never",
   exForward 2 "up.example" false 0 20 "never",
   exForward 3 "dead.example" true 87400 30 "failed"]

/-- The world `exEnv` without a Cloudflare client. -/
def exEnvNoClient : Env := { exEnv with clientOk := false }

/-- A domain whose primary is reachable. -/
def exDomainUp : DomainRecord :=
  { ID := 2, Domain := "up.example", Port := 443, RecordId := "rec-2", ZoneId := "zone-1",
    Forwards := exPool, IsDisableCheck := false, SortOrder := 0, CreatedAt := 0, UpdatedAt := 0 }

/-- A domain whose primary probe makes the prober fail. -/
def exDomainErr : DomainRecord :=
  { ID := 3, Domain := "err.example", Port := 443, RecordId := "rec-3", ZoneId := "zone-1",
    Forwards := exPool, IsDisableCheck := false, SortOrder := 0, CreatedAt := 0, UpdatedAt := 0 }

/-- The world `exEnv` with a Cloudflare API that refuses every record update. -/
def exEnvDnsFail : Env := { exEnv with apiUpdateDNSRecord := fun _ _ => false }

/-- The example domain without a persisted zone ID. -/
def exDomainNoZone : DomainRecord := { exDomain exPool with ZoneId := "" }

/-- The example domain without a persisted record ID. -/
def exDomainNoRecord : DomainRecord := { exDomain exPool with RecordId := "" }

/-- A pool whose forwards are banned, dead or make the prober fail. -/
def exPoolDown : List ForwardRecord :=
  [exForward 7 "up.example" true 0 40 "never", exDead, exErr]

/-- The example domain with a CNAME forward as its only forward. -/
def exForwardCname : ForwardRecord :=
  { exForward 8 "up.example" false 0 20 "never" with RecordType := "CNAME" }

/-- The forward `up.example` of the example pool with the record type `AAAA`, for
which `updateToCloudflare` has no record content (lines 430-433). -/
def exForwardAAAA : ForwardRecord :=
  { exForward 2 "up.example" false 0 20 "never" with RecordType := "AAAA" }

/-- A state whose counter stands at two, as after two prober errors. -/
def exStateTwoFailures : State := { exState exPool with apiFailureCount := 2 }

/-- A forward of the display path whose ban ends at 1000, the clock reading of
`exEnv`. -/
def exBanEndsNow : ForwardRecord := exForward 9 "up.example" true 1000 20 "failed"

/-- A store in which forwards 11 and 12 of domain 1 have the same weight and the
same sort order and are stored in the order 12, 11, before a heavier
forward 13. -/
def exStoreTies : List ForwardRecord :=
  [exForward 12 "up2.example" false 0 10 "never",
   exForward 11 "nx.example" false 0 10 "never",
   exForward 13 "dead.example" false 0 30 "never"]

/-- A lookup that fails with the resolver's "no such host". -/
def exLookupFails : LookupAnswer :=
  { ips := [], err := some "lookup nx.example: no such host" }

/-- A lookup that finds one address. -/
def exLookupOk : LookupAnswer := { ips := ["192.0.2.9"], err := none }

/-- A target on which every connection attempt times out. -/
def exDialFails : Nat → Option String :=
  fun _ => some "dial tcp 192.0.2.9:443: i/o timeout"

/-- The world `exEnv` in which the probe of `nx.example` returns the answer of
the backend for a failed lookup. -/
def exEnvBackend : Env :=
  { exEnv with
    checkConnectivity := fun target port =>
      if target = "nx.example" then
        some (decodeResponse (tcpCheckHandler exLookupFails exDialFails "198.51.100.1" target port))
      else exEnv.checkConnectivity target port }

/-- A progress line of the backend. -/
def exProgressLine : String :=
  "\x7b\"code\":1,\"message\":\"progress\",\"data\":\x7b\"current\":1,\"total\":5\x7d\x7d"

/-- A final line of the backend for a reachable target. -/
def exFinalLine : String :=
  "\x7b\"code\":0,\"message\":\"success\",\"data\":\x7b\"result\":true,\"target_ip\":\"192.0.2.7\"\x7d\x7d"

/-- A line with code 0 whose data is a JSON string, not an object. -/
def exBadDataLine : String := "\x7b\"code\":0,\"message\":\"success\",\"data\":\"oops\"\x7d"

/-- The line of the backend for a wrong key. -/
def exErrorLine : String := "\x7b\"code\":401,\"message\":\"invalid key\"\x7d"

/-- The codec on the example lines; any other line does not parse. -/
def exCodec : JsonCodec :=
  { unmarshalResponse := fun line =>
      if line = exProgressLine then
        some ⟨1, "progress", "\x7b\"current\":1,\"total\":5\x7d"⟩
      else if line = exFinalLine then
        some ⟨0, "success", "\x7b\"result\":true,\"target_ip\":\"192.0.2.7\"\x7d"⟩
      else if line = exBadDataLine then some ⟨0, "success", "\"oops\""⟩
      else if line = exErrorLine then some ⟨401, "invalid key", "null"⟩
      else none
    unmarshalData := fun data =>
      if data = "\x7b\"result\":true,\"target_ip\":\"192.0.2.7\"\x7d" then
        some { zeroResponseData with Result := true, TargetIp := "192.0.2.7" }
      else if data = "null" then some zeroResponseData
      else none
    progressOf := fun data =>
      if data = "\x7b\"current\":1,\"total\":5\x7d" then some (1, 5) else none }

/-- A world of the edit handlers in which the database is open and accepts
every write. -/
def exAdminWorld : AdminWorld :=
  { dbReady := true, dnsRecordByName := fun _ => some "rec-9", saveDomainOk := true,
    createForwardOk := true }

/-- A state with the example domain and pool and open sessions on the port of
domain `domainID` and on the weight of forward `forwardID`. -/
def exAdminState (domainID forwardID : Nat) : AdminState :=
  { domains := [exDomain []], forwards := exPool,
    domainEditSession := some { DomainID := domainID, Field := "port" },
    forwardEditSession := some { ForwardID := forwardID, Field := "weight" },
    sent := [] }

/-- An upload of three data lines for two domains, with a comment and a blank
line. -/
def exUpload : String :=
  "# domains\nmain.example.com|80|false|1|f1.example.com|192.0.2.1|电信|false|10|1|A\n\n" ++
  "other.example.com|443|TRUE|2|g.example.com||联通|false|5|1|\n" ++
  "main.example.com|80|true|9|f2.example.com|192.0.2.2||true|20|2|CNAME"

/-- An upload whose line 3 has a port that is not a number and whose line 4 has
too few fields. -/
def exUploadBad : String :=
  "# domains\nmain.example.com|80|false|1|f1.example.com|192.0.2.1|电信|false|10|1|A\n" ++
  "main.example.com|http|false|1|f2.example.com|192.0.2.2||false|20|2|A\nmain.example.com|80"

/-- A forward as an upload line gives it: no key, no ban time, no status. -/
def exUploadForward (host ip isp : String) (isBan : Bool) (weight sortOrder : Int)
    (recordType : String) : ForwardRecord :=
  { ID := 0, DomainRecordID := 0, ForwardDomain := host, IP := ip, ISP := isp, IsBan := isBan,
    BanTime := 0, Weight := weight, SortOrder := sortOrder, RecordType := recordType,
    LastResolvedAt := 0, ResolveStatus := "", CreatedAt := 0, UpdatedAt := 0 }

/-- The records of the upload `exUpload`. -/
def exUploadRecords : List DomainRecord :=
  [{ ID := 0, Domain := "main.example.com", Port := 80, RecordId := "", ZoneId := "",
     Forwards := [exUploadForward "f1.example.com" "192.0.2.1" "电信" false 10 1 "A",
                  exUploadForward "f2.example.com" "192.0.2.2" "" true 20 2 "CNAME"],
     IsDisableCheck := false, SortOrder := 1, CreatedAt := 0, UpdatedAt := 0 },
   { ID := 0, Domain := "other.example.com", Port := 443, RecordId := "", ZoneId := "",
     Forwards := [exUploadForward "g.example.com" "" "联通" false 5 1 "A"],
     IsDisableCheck := true, SortOrder := 2, CreatedAt := 0, UpdatedAt := 0 }]

/-- Two stored domains with distinct names: the example domain with the example
pool, and a domain that has no forward. -/
def exStored : List DomainRecord :=
  [exDomain exPool,
   { ID := 2, Domain := "bare.example.com", Port := 80, RecordId := "rec-2", ZoneId := "zone-1",
     Forwards := [], IsDisableCheck := false, SortOrder := 1, CreatedAt := 0, UpdatedAt := 0 }]

/-- Two stored domains on the same host with different ports: the example
domain with the example pool, and a check-disabled one with a banned CNAME
forward. -/
def exStoredFull : List DomainRecord :=
  [exDomain exPool,
   { ID := 2, Domain := "api.example.com", Port := 8443, RecordId := "rec-2",
     ZoneId := "zone-1",
     Forwards := [{ exForwardCname with IP := "192.0.2.7", ISP := "电信", IsBan := true,
                                        BanTime := 90000, ResolveStatus := "failed" }],
     IsDisableCheck := true, SortOrder := -1, CreatedAt := 0, UpdatedAt := 0 }]

/-! ## Order of the sorted pool -/

theorem less_total (a b : ForwardRecord) : less b a = false ∨ less a b = false := by
  unfold less
  by_cases h : a.Weight = b.Weight
  · have h2 : b.Weight = a.Weight := h.symm
    simp only [h, ne_eq, not_true_eq_false, if_false, decide_eq_false_iff_not]
    omega
  · have h2 : ¬ b.Weight = a.Weight := fun e => h e.symm
    simp only [h, h2, ne_eq, not_false_eq_true, if_true, decide_eq_false_iff_not]
    omega

theorem less_trans (a b c : ForwardRecord) (hab : less b a = false) (hbc : less c b = false) :
    less c a = false := by
  unfold less at *
  split_ifs at * <;> simp only [decide_eq_false_iff_not, ne_eq, not_not] at * <;> omega

theorem sortSlice_sorted (fs : List ForwardRecord) :
    (sortSlice fs).Sorted (fun a b => less b a = false) :=
  @List.sorted_insertionSort _ (fun a b => less b a = false) _
    ⟨fun a b => less_total a b⟩ ⟨fun a b c hab hbc => less_trans a b c hab hbc⟩ fs

theorem mem_sortSlice (fs : List ForwardRecord) (x : ForwardRecord) :
    x ∈ sortSlice fs ↔ x ∈ fs :=
  List.mem_insertionSort _

/-! ## The loop of `checkForwardPool` -/

theorem forwardLoop_availableForward (env : Env) (port : Int) (fs : List ForwardRecord) :
    ∀ (banned : List String) (st : State),
      (forwardLoop env port fs banned st).availableForward = fs.find? (selectable env port) := by
  induction fs with
  | nil => intro banned st; rfl
  | cons f rest ih =>
    intro banned st
    unfold forwardLoop
    by_cases hb : f.IsBan = true
    · simp [hb, selectable, ih]
    · have hb2 : f.IsBan = false := by simpa using hb
      cases hc : env.checkConnectivity f.ForwardDomain port with
      | none => simp [hb2, hc, selectable, answersReachable, ih]
      | some result =>
        by_cases hr : result.Result = true
        · simp [hb2, hc, hr, selectable, answersReachable]
        · have hr2 : result.Result = false := by simpa using hr
          by_cases hm : isExhaustedMessage result.Message = true
          · simp [hb2, hc, hr2, hm, selectable, answersReachable, ih]
          · simp [hb2, hc, hr2, hm, selectable, answersReachable, ih]

/-! ## Frame lemmas of the state transformers -/

@[simp] theorem incrementApiFailureCount_trace (st : State) :
    (incrementApiFailureCount st).trace = st.trace := rfl

@[simp] theorem incrementApiFailureCount_store (st : State) :
    (incrementApiFailureCount st).store = st.store := rfl

@[simp] theorem incrementApiFailureCount_report (st : State) :
    (incrementApiFailureCount st).report = st.report := rfl

@[simp] theorem resetApiFailureCount_trace (st : State) :
    (resetApiFailureCount st).trace = st.trace := by
  unfold resetApiFailureCount; split <;> rfl

@[simp] theorem resetApiFailureCount_store (st : State) :
    (resetApiFailureCount st).store = st.store := by
  unfold resetApiFailureCount; split <;> rfl

@[simp] theorem resetApiFailureCount_report (st : State) :
    (resetApiFailureCount st).report = st.report := by
  unfold resetApiFailureCount; split <;> rfl

@[simp] theorem banForward24Hours_trace (env : Env) (f : ForwardRecord) (st : State) :
    (banForward24Hours env f st).2.trace = st.trace := rfl

@[simp] theorem banForward24Hours_report (env : Env) (f : ForwardRecord) (st : State) :
    (banForward24Hours env f st).2.report = st.report := rfl

@[simp] theorem banForward24Hours_apiFailureCount (env : Env) (f : ForwardRecord) (st : State) :
    (banForward24Hours env f st).2.apiFailureCount = st.apiFailureCount := rfl

@[simp] theorem banForward24Hours_ForwardDomain (env : Env) (f : ForwardRecord) (st : State) :
    (banForward24Hours env f st).1.ForwardDomain = f.ForwardDomain := rfl

@[simp] theorem appendNoForward_trace (entry : String) (st : State) :
    (appendNoForward entry st).trace = st.trace := rfl

@[simp] theorem appendNoForward_store (entry : String) (st : State) :
    (appendNoForward entry st).store = st.store := rfl

@[simp] theorem appendDisconnected_trace (d : DomainRecord) (m : String) (st : State) :
    (appendDisconnected d m st).trace = st.trace := rfl

@[simp] theorem appendDisconnected_store (d : DomainRecord) (m : String) (st : State) :
    (appendDisconnected d m st).store = st.store := rfl

@[simp] theorem reportBanned_trace (r : LoopResult) : (reportBanned r).trace = r.st.trace := by
  unfold reportBanned; split <;> rfl

@[simp] theorem reportBanned_store (r : LoopResult) : (reportBanned r).store = r.st.store := by
  unfold reportBanned; split <;> rfl

@[simp] theorem probeCalls_append (a b : List Effect) :
    probeCalls (a ++ b) = probeCalls a ++ probeCalls b := by
  simp [probeCalls]

@[simp] theorem dnsUpdateCalls_append (a b : List Effect) :
    dnsUpdateCalls (a ++ b) = dnsUpdateCalls a ++ dnsUpdateCalls b := by
  simp [dnsUpdateCalls]

theorem probeCalls_UpdateDNSRecordByID (env : Env) (c : DnsUpdateCall) :
    probeCalls (UpdateDNSRecordByID env c).1 = [] := by
  unfold UpdateDNSRecordByID
  by_cases hz : c.zoneId = ""
  · cases hl : env.zoneIDByName (extractRootDomain c.domain) <;> simp [hz, hl, probeCalls]
  · simp [hz, probeCalls]

theorem dnsUpdateCalls_UpdateDNSRecordByID (env : Env) (c : DnsUpdateCall) :
    dnsUpdateCalls (UpdateDNSRecordByID env c).1 = [] := by
  unfold UpdateDNSRecordByID
  by_cases hz : c.zoneId = ""
  · cases hl : env.zoneIDByName (extractRootDomain c.domain) <;> simp [hz, hl, dnsUpdateCalls]
  · simp [hz, dnsUpdateCalls]

/-! ## What the loops probe -/

theorem probedForwards_sublist (env : Env) (port : Int) (fs : List ForwardRecord) :
    (probedForwards env port fs).Sublist fs := by
  induction fs with
  | nil => exact List.Sublist.slnil
  | cons f rest ih =>
    unfold probedForwards
    by_cases hb : f.IsBan = true
    · simp only [hb, if_true]; exact ih.cons f
    · by_cases hr : answersReachable env port f = true
      · simp only [hb, hr, if_true, if_false]
        simp
      · simp only [hb, hr, if_false]
        exact ih.cons₂ f

theorem probedForwards_not_banned (env : Env) (port : Int) (fs : List ForwardRecord) :
    ∀ f ∈ probedForwards env port fs, f.IsBan = false := by
  induction fs with
  | nil => intro f hf; simp [probedForwards] at hf
  | cons g rest ih =>
    intro f hf
    unfold probedForwards at hf
    by_cases hb : g.IsBan = true
    · simp only [hb, if_true] at hf; exact ih f hf
    · have hb2 : g.IsBan = false := by simpa using hb
      by_cases hr : answersReachable env port g = true
      · simp [hb2, hr] at hf
        rw [hf]; exact hb2
      · simp [hb2, hr] at hf
        rcases hf with hf | hf
        · rw [hf]; exact hb2
        · exact ih f hf

theorem forwardLoop_trace (env : Env) (port : Int) (fs : List ForwardRecord) :
    ∀ (banned : List String) (st : State),
      (forwardLoop env port fs banned st).st.trace =
        st.trace ++ (probedForwards env port fs).map (fun f => Effect.probe f.ForwardDomain port) := by
  induction fs with
  | nil => intro banned st; simp [forwardLoop, probedForwards]
  | cons f rest ih =>
    intro banned st
    unfold forwardLoop probedForwards
    by_cases hb : f.IsBan = true
    · simp [hb, ih]
    · have hb2 : f.IsBan = false := by simpa using hb
      cases hc : env.checkConnectivity f.ForwardDomain port with
      | none => simp [hb2, hc, answersReachable, ih]
      | some result =>
        by_cases hr : result.Result = true
        · simp [hb2, hc, hr, answersReachable]
        · have hr2 : result.Result = false := by simpa using hr
          by_cases hm : isExhaustedMessage result.Message = true
          · simp [hb2, hc, hr2, hm, answersReachable, ih]
          · simp [hb2, hc, hr2, hm, answersReachable, ih]

theorem forwardLoopWithProgress_probeCalls (env : Env) (port total : Int)
    (fs : List ForwardRecord) :
    ∀ (i : Int) (banned : List String) (st : State),
      probeCalls (forwardLoopWithProgress env port total i fs banned st).st.trace =
        probeCalls st.trace ++ (probedForwards env port fs).map (fun f => (f.ForwardDomain, port)) := by
  induction fs with
  | nil => intro i banned st; simp [forwardLoopWithProgress, probedForwards]
  | cons f rest ih =>
    intro i banned st
    unfold forwardLoopWithProgress probedForwards
    by_cases hb : f.IsBan = true
    · simp only [hb, if_true]
      rw [ih]; simp [probeCalls]
    · have hb2 : f.IsBan = false := by simpa using hb
      cases hc : env.checkConnectivity f.ForwardDomain port with
      | none =>
        simp only [hb2, answersReachable, hc, Bool.false_eq_true, if_false]
        rw [ih]; simp [probeCalls]
      | some result =>
        by_cases hr : result.Result = true
        · simp [hb2, hc, hr, answersReachable, probeCalls]
        · have hr2 : result.Result = false := by simpa using hr
          by_cases hm : isExhaustedMessage result.Message = true
          · simp only [hb2, answersReachable, hc, hr2, hm, Bool.false_eq_true, if_false,
              Bool.not_false, if_true]
            rw [ih]; simp [probeCalls]
          · simp only [hb2, answersReachable, hc, hr2, hm, Bool.false_eq_true, if_false,
              Bool.not_false, if_true]
            rw [ih]; simp [probeCalls]

/-- The trace that `updateToCloudflare` appends: nothing, or one gateway call
followed by the API calls the gateway makes. -/
theorem updateToCloudflare_trace (env : Env) (d : DomainRecord) (f : ForwardRecord)
    (ip : String) (st : State) :
    (updateToCloudflare env d f ip st).trace = st.trace ∨
    ∃ call, (updateToCloudflare env d f ip st).trace =
      st.trace ++ Effect.updateDNSRecordByID call :: (UpdateDNSRecordByID env call).1 := by
  unfold updateToCloudflare
  by_cases h1 : d.RecordId = ""
  · left; simp [h1]
  · by_cases h2 : env.clientOk = false
    · left; simp [h1, h2]
    · cases h3 : recordContent f ip with
      | none => left; simp [h1, h2, h3]
      | some content =>
        right
        refine ⟨DnsUpdateCall.mk d.Domain d.ZoneId d.RecordId f.RecordType d.Domain content
          env.ttl false, ?_⟩
        by_cases h4 : (UpdateDNSRecordByID env (DnsUpdateCall.mk d.Domain d.ZoneId d.RecordId
            f.RecordType d.Domain content env.ttl false)).2 = false
        · simp [h1, h2, h3, h4]
        · simp [h1, h2, h3, h4]

theorem updateToCloudflare_probeCalls (env : Env) (d : DomainRecord) (f : ForwardRecord)
    (ip : String) (st : State) :
    probeCalls (updateToCloudflare env d f ip st).trace = probeCalls st.trace := by
  rcases updateToCloudflare_trace env d f ip st with h | ⟨call, h⟩
  · rw [h]
  · rw [h, probeCalls_append]
    have : probeCalls (Effect.updateDNSRecordByID call :: (UpdateDNSRecordByID env call).1) = [] := by
      have h2 := probeCalls_UpdateDNSRecordByID env call
      simpa [probeCalls] using h2
    rw [this, List.append_nil]

theorem finishPool_probeCalls (env : Env) (d : DomainRecord) (r : LoopResult) :
    probeCalls (finishPool env d r).trace = probeCalls r.st.trace := by
  unfold finishPool
  split <;> simp [updateToCloudflare_probeCalls]

/-! ## Selection by priority -/

/-- C1: when the pool of a domain holds a forward that is not banned and whose
probe answers reachable, the forward that `checkForwardPool` hands to
`updateToCloudflare` is the first such forward of the pool sorted by weight
descending, then sort order ascending; no forward of the pool that is not
banned and answers reachable has a higher weight, or the same weight and a
lower sort order. -/
theorem checkForwardPool_selects_first_by_priority (env : Env) (d : DomainRecord) (st : State)
    (h : ∃ f ∈ d.Forwards, f.IsBan = false ∧ answersReachable env d.Port f = true) :
    ∃ g, (forwardLoop env d.Port (sortSlice d.Forwards) [] st).availableForward = some g ∧
      checkForwardPool env d st =
        updateToCloudflare env d g
          (forwardLoop env d.Port (sortSlice d.Forwards) [] st).resolvedIP
          (reportBanned (forwardLoop env d.Port (sortSlice d.Forwards) [] st)) ∧
      g ∈ d.Forwards ∧ g.IsBan = false ∧ answersReachable env d.Port g = true ∧
      (sortSlice d.Forwards).Sorted (fun a b => less b a = false) ∧
      (∃ pre post, sortSlice d.Forwards = pre ++ g :: post ∧
        ∀ x ∈ pre, x.IsBan = true ∨ answersReachable env d.Port x = false) ∧
      (∀ x ∈ d.Forwards, x.IsBan = false → answersReachable env d.Port x = true →
        x.Weight ≤ g.Weight ∧ (x.Weight = g.Weight → g.SortOrder ≤ x.SortOrder)) := by
  obtain ⟨f, hf, hfb, hfr⟩ := h
  have hsel : selectable env d.Port f = true := by simp [selectable, hfb, hfr]
  have hfs : f ∈ sortSlice d.Forwards := (mem_sortSlice _ _).2 hf
  have hsome : ((sortSlice d.Forwards).find? (selectable env d.Port)).isSome = true := by
    rw [List.find?_isSome]; exact ⟨f, hfs, hsel⟩
  obtain ⟨g, hg⟩ := Option.isSome_iff_exists.1 hsome
  have havail := forwardLoop_availableForward env d.Port (sortSlice d.Forwards) [] st
  rw [hg] at havail
  obtain ⟨hgsel, pre, post, hsplit, hpre⟩ := List.find?_eq_some.1 hg
  have hgb : g.IsBan = false := by
    simp only [selectable, Bool.and_eq_true, Bool.not_eq_true'] at hgsel; exact hgsel.1
  have hgr : answersReachable env d.Port g = true := by
    simp only [selectable, Bool.and_eq_true] at hgsel; exact hgsel.2
  have hgmem : g ∈ d.Forwards := by
    rw [← mem_sortSlice, hsplit]; simp
  have hne : d.Forwards.length ≠ 0 := by
    intro h0
    have : d.Forwards = [] := List.length_eq_zero.1 h0
    rw [this] at hf; simp at hf
  have hpre2 : ∀ x ∈ pre, x.IsBan = true ∨ answersReachable env d.Port x = false := by
    intro x hx
    have hx2 := hpre x hx
    by_cases hxb : x.IsBan = true
    · exact Or.inl hxb
    · have hxb2 : x.IsBan = false := by simpa using hxb
      right
      simpa [selectable, hxb2] using hx2
  have hsorted := sortSlice_sorted d.Forwards
  refine ⟨g, havail, ?_, hgmem, hgb, hgr, hsorted, ⟨pre, post, hsplit, hpre2⟩, ?_⟩
  · unfold checkForwardPool finishPool
    simp only [hne, if_false, havail]
  · intro x hx hxb hxr
    have hxs : x ∈ sortSlice d.Forwards := (mem_sortSlice _ _).2 hx
    have hless : less x g = false := by
      rw [hsplit] at hxs hsorted
      rcases List.mem_append.1 hxs with hxp | hxp
      · rcases hpre2 x hxp with hp | hp
        · rw [hxb] at hp; cases hp
        · rw [hxr] at hp; cases hp
      · rcases List.mem_cons.1 hxp with hxg | hxpost
        · rw [hxg]; simp [less]
        · have hs2 : List.Sorted (fun a b => less b a = false) (g :: post) :=
            (List.pairwise_append.1 hsorted).2.1
          exact List.rel_of_sorted_cons hs2 x hxpost
    unfold less at hless
    split_ifs at hless with hw <;> simp only [decide_eq_false_iff_not, ne_eq, not_not] at * <;>
      constructor <;> omega

theorem checkForwardPool_selects_first_by_priority_witness :
    (∃ f ∈ (exDomain exPool).Forwards,
      f.IsBan = false ∧ answersReachable exEnv (exDomain exPool).Port f = true) ∧
    ∃ g, (forwardLoop exEnv (exDomain exPool).Port (sortSlice (exDomain exPool).Forwards) []
        (exState exPool)).availableForward = some g ∧
      checkForwardPool exEnv (exDomain exPool) (exState exPool) =
        updateToCloudflare exEnv (exDomain exPool) g
          (forwardLoop exEnv (exDomain exPool).Port (sortSlice (exDomain exPool).Forwards) []
            (exState exPool)).resolvedIP
          (reportBanned (forwardLoop exEnv (exDomain exPool).Port
            (sortSlice (exDomain exPool).Forwards) [] (exState exPool))) ∧
      g ∈ (exDomain exPool).Forwards ∧ g.IsBan = false ∧
      answersReachable exEnv (exDomain exPool).Port g = true ∧
      (sortSlice (exDomain exPool).Forwards).Sorted (fun a b => less b a = false) ∧
      (∃ pre post, sortSlice (exDomain exPool).Forwards = pre ++ g :: post ∧
        ∀ x ∈ pre, x.IsBan = true ∨ answersReachable exEnv (exDomain exPool).Port x = false) ∧
      (∀ x ∈ (exDomain exPool).Forwards, x.IsBan = false →
        answersReachable exEnv (exDomain exPool).Port x = true →
        x.Weight ≤ g.Weight ∧ (x.Weight = g.Weight → g.SortOrder ≤ x.SortOrder)) :=
  have h : ∃ f ∈ (exDomain exPool).Forwards,
      f.IsBan = false ∧ answersReachable exEnv (exDomain exPool).Port f = true :=
    ⟨exForward 2 "up.example" false 0 20 "never", by decide, by decide, by decide⟩
  ⟨h, checkForwardPool_selects_first_by_priority exEnv (exDomain exPool) (exState exPool) h⟩

/-! ## Banned forwards are not probed -/

theorem checkForwardPool_probeCalls (env : Env) (d : DomainRecord) (st : State) :
    probeCalls (checkForwardPool env d st).trace =
      probeCalls st.trace ++
        (probedForwards env d.Port (sortSlice d.Forwards)).map (fun f => (f.ForwardDomain, d.Port)) := by
  unfold checkForwardPool
  by_cases h0 : d.Forwards.length = 0
  · have hnil : d.Forwards = [] := List.length_eq_zero.1 h0
    simp [h0, hnil, sortSlice, probedForwards]
  · simp only [h0, if_false]
    rw [finishPool_probeCalls, forwardLoop_trace, probeCalls_append]
    congr 1
    simp only [probeCalls, List.filterMap_map, Function.comp_def]
    exact congrFun (List.filterMap_eq_map (fun f : ForwardRecord => (f.ForwardDomain, d.Port))) _

theorem checkForwardPoolWithProgress_probeCalls (env : Env) (d : DomainRecord) (st : State) :
    probeCalls (checkForwardPoolWithProgress env d st).trace =
      probeCalls st.trace ++
        (probedForwards env d.Port (sortSlice d.Forwards)).map (fun f => (f.ForwardDomain, d.Port)) := by
  unfold checkForwardPoolWithProgress
  by_cases h0 : d.Forwards.length = 0
  · have hnil : d.Forwards = [] := List.length_eq_zero.1 h0
    simp [h0, hnil, sortSlice, probedForwards]
  · simp only [h0, if_false]
    rw [finishPool_probeCalls, forwardLoopWithProgress_probeCalls]

/-- C2: the probe calls that `checkForwardPool` and
`checkForwardPoolWithProgress` make are, in order, the probes of a sublist of
the sorted pool none of whose forwards has its ban flag set; in particular no
forward with `IsBan` true and `BanTime` later than now is probed. -/
theorem pool_checks_never_probe_banned (env : Env) (d : DomainRecord) (st : State) :
    (∃ ps : List ForwardRecord, ps.Sublist (sortSlice d.Forwards) ∧
      (∀ f ∈ ps, f.IsBan = false ∧ ¬ (f.IsBan = true ∧ f.BanTime > env.now)) ∧
      probeCalls (checkForwardPool env d st).trace =
        probeCalls st.trace ++ ps.map (fun f => (f.ForwardDomain, d.Port))) ∧
    (∃ ps : List ForwardRecord, ps.Sublist (sortSlice d.Forwards) ∧
      (∀ f ∈ ps, f.IsBan = false ∧ ¬ (f.IsBan = true ∧ f.BanTime > env.now)) ∧
      probeCalls (checkForwardPoolWithProgress env d st).trace =
        probeCalls st.trace ++ ps.map (fun f => (f.ForwardDomain, d.Port))) := by
  have hnb : ∀ f ∈ probedForwards env d.Port (sortSlice d.Forwards),
      f.IsBan = false ∧ ¬ (f.IsBan = true ∧ f.BanTime > env.now) := by
    intro f hf
    have hb := probedForwards_not_banned env d.Port (sortSlice d.Forwards) f hf
    refine ⟨hb, ?_⟩
    rintro ⟨hb2, _⟩
    rw [hb] at hb2; cases hb2
  exact ⟨⟨_, probedForwards_sublist env d.Port _, hnb, checkForwardPool_probeCalls env d st⟩,
    ⟨_, probedForwards_sublist env d.Port _, hnb, checkForwardPoolWithProgress_probeCalls env d st⟩⟩

/-! ## Expired bans -/

/-- C3: at clock reading 1000 a reachable forward whose 24-hour ban expired at 900
is still skipped by `checkForwardPool`: it is not probed, its ban flag stays
set in the store and the domain is reported as having no available forward;
the display path `editForwardInfo` lifts the same ban. -/
theorem selector_skips_expired_ban :
    exExpired.IsBan = true ∧ exExpired.BanTime ≤ exEnv.now ∧
    answersReachable exEnv 443 exExpired = true ∧
    (checkForwardPool exEnv (exDomain [exExpired]) (exState [exExpired])).trace = [] ∧
    (checkForwardPool exEnv (exDomain [exExpired]) (exState [exExpired])).store = [exExpired] ∧
    (checkForwardPool exEnv (exDomain [exExpired]) (exState [exExpired])).report.NoForwardDomains
      = ["api.example.com:443"] ∧
    (editForwardInfoBan exEnv exExpired [exExpired]).2.map (fun r => (r.ID, r.IsBan)) =
      [(4, false)] := by
  decide

/-! ## Primary probe outcomes -/

/-- C7: when the primary probe returns without error and with result reachable,
`checkDomain` leaves the report (all five lists) and the store unchanged and
appends to the trace the primary probe only: no forward is probed and no DNS
update call is made. -/
theorem checkDomain_primary_reachable (env : Env) (d : DomainRecord) (st : State)
    (result : tcpCheckResponseData)
    (hprobe : env.checkConnectivity d.Domain d.Port = some result)
    (hres : result.Result = true) :
    (checkDomain env d st).report = st.report ∧
    (checkDomain env d st).store = st.store ∧
    (checkDomain env d st).trace = st.trace ++ [Effect.probe d.Domain d.Port] := by
  unfold checkDomain
  simp [hprobe, hres]

theorem checkDomain_primary_reachable_witness :
    exEnv.checkConnectivity exDomainUp.Domain exDomainUp.Port
      = some (exAnswer true "192.0.2.7" "") ∧
    (exAnswer true "192.0.2.7" "").Result = true ∧
    (checkDomain exEnv exDomainUp (exState exPool)).report = (exState exPool).report ∧
    (checkDomain exEnv exDomainUp (exState exPool)).store = (exState exPool).store ∧
    (checkDomain exEnv exDomainUp (exState exPool)).trace =
      (exState exPool).trace ++ [Effect.probe exDomainUp.Domain exDomainUp.Port] :=
  ⟨by decide, by decide,
    checkDomain_primary_reachable exEnv exDomainUp (exState exPool)
      (exAnswer true "192.0.2.7" "") (by decide) (by decide)⟩

/-- C8: when the primary probe returns an error, `checkDomain` appends the one
entry `domain:port` to `FailedDomains`, adds one to the API failure counter
and stops: the store and the other four report lists are unchanged and the
trace gains the primary probe only. -/
theorem checkDomain_primary_probe_error (env : Env) (d : DomainRecord) (st : State)
    (hprobe : env.checkConnectivity d.Domain d.Port = none) :
    checkDomain env d st =
      { store := st.store
        apiFailureCount := st.apiFailureCount + 1
        report :=
          { FailedDomains := st.report.FailedDomains ++ [d.Domain ++ ":" ++ toString d.Port]
            DisconnectedDomains := st.report.DisconnectedDomains
            BannedForwards := st.report.BannedForwards
            SwitchedDomains := st.report.SwitchedDomains
            NoForwardDomains := st.report.NoForwardDomains }
        trace := st.trace ++ [Effect.probe d.Domain d.Port] } := by
  unfold checkDomain
  simp [hprobe, appendFailed, incrementApiFailureCount, sprintfHostPort]

theorem checkDomain_primary_probe_error_witness :
    exEnv.checkConnectivity exDomainErr.Domain exDomainErr.Port = none ∧
    checkDomain exEnv exDomainErr (exState exPool) =
      { store := (exState exPool).store
        apiFailureCount := (exState exPool).apiFailureCount + 1
        report :=
          { FailedDomains := (exState exPool).report.FailedDomains ++
              [exDomainErr.Domain ++ ":" ++ toString exDomainErr.Port]
            DisconnectedDomains := (exState exPool).report.DisconnectedDomains
            BannedForwards := (exState exPool).report.BannedForwards
            SwitchedDomains := (exState exPool).report.SwitchedDomains
            NoForwardDomains := (exState exPool).report.NoForwardDomains }
        trace := (exState exPool).trace ++ [Effect.probe exDomainErr.Domain exDomainErr.Port] } :=
  ⟨by decide, checkDomain_primary_probe_error exEnv exDomainErr (exState exPool) (by decide)⟩

/-! ## Store writes -/

theorem modelUpdates_accepted (env : Env) (op : DbOp) (id : Nat)
    (set : ForwardRecord → ForwardRecord) (store : List ForwardRecord)
    (hdb : env.dbOk op = true) (hid : id ≠ 0) :
    (modelUpdates env op id set store).2 =
      store.map (fun r => if r.ID = id then { set r with UpdatedAt := env.now } else r) := by
  unfold modelUpdates
  simp [hdb, hid]

/-- After an accepted ban write every row with the key of `f` is banned until one
day after now and marked failed; the other rows are the rows of before. -/
theorem BanForward24Hours_rows (env : Env) (f : ForwardRecord) (store : List ForwardRecord)
    (hdb : env.dbOk DbOp.banForward24Hours = true) (hid : f.ID ≠ 0) :
    (operate.BanForward24Hours env f store).2.2 =
      store.map (fun r => if r.ID = f.ID then
        { r with IsBan := true, BanTime := env.now + 24 * 3600, ResolveStatus := "failed",
                 UpdatedAt := env.now } else r) := by
  unfold operate.BanForward24Hours
  simp only
  rw [modelUpdates_accepted env _ _ _ _ hdb hid]

theorem banForward24Hours_store (env : Env) (f : ForwardRecord) (st : State) :
    (banForward24Hours env f st).2.store = (operate.BanForward24Hours env f st.store).2.2 := by
  unfold banForward24Hours operate.BanForward24Hours
  rfl

/-! ## Successful switch -/

/-- C4: after `updateToCloudflare` completed a successful DNS update for forward
`f` of domain `d`, with both store writes accepted, the rows of `d` whose
resolve status is `success` are exactly those with the key of `f`, and every
other row of `d` has resolve status `never`, whatever its status was before
(also `failed`); the row of `f` exists if it existed before. -/
theorem updateToCloudflare_success_single_active (env : Env) (d : DomainRecord)
    (f : ForwardRecord) (resolvedIP content : String) (st : State)
    (hrec : d.RecordId ≠ "") (hclient : env.clientOk = true)
    (hcontent : recordContent f resolvedIP = some content)
    (hdns : (UpdateDNSRecordByID env
      (DnsUpdateCall.mk d.Domain d.ZoneId d.RecordId f.RecordType d.Domain content env.ttl
        false)).2 = true)
    (hclear : env.dbOk DbOp.clearOtherForwardStatus = true)
    (hupdate : env.dbOk DbOp.updateForwardResolveStatus = true)
    (hid : f.ID ≠ 0) (hdom : f.DomainRecordID = d.ID) :
    (∀ r ∈ (updateToCloudflare env d f resolvedIP st).store, r.DomainRecordID = d.ID →
      (r.ResolveStatus = "success" ↔ r.ID = f.ID) ∧
      (r.ID ≠ f.ID → r.ResolveStatus = "never")) ∧
    (updateToCloudflare env d f resolvedIP st).store.map (fun r => r.ID) =
      st.store.map (fun r => r.ID) ∧
    (∀ r0 ∈ st.store, r0.ID = f.ID →
      ∃ r ∈ (updateToCloudflare env d f resolvedIP st).store,
        r.ID = f.ID ∧ r.ResolveStatus = "success" ∧ r.IP = resolvedIP) := by
  have hstore : (updateToCloudflare env d f resolvedIP st).store =
      st.store.map (fun r =>
        if r.ID = f.ID then
          { r with ResolveStatus := "success", LastResolvedAt := env.now, IP := resolvedIP,
                   UpdatedAt := env.now }
        else if r.DomainRecordID = f.DomainRecordID then
          { r with ResolveStatus := "never", UpdatedAt := env.now }
        else r) := by
    unfold updateToCloudflare
    simp only [hrec, hclient, hcontent, hdns, if_false, Bool.true_eq_false]
    unfold operate.UpdateForwardResolveStatus operate.ClearOtherForwardStatus
    simp only [hclear, Bool.true_eq_false, if_false]
    rw [modelUpdates_accepted env _ _ _ _ hupdate hid, List.map_map]
    apply List.map_congr_left
    intro r _
    by_cases h1 : r.ID = f.ID <;> by_cases h2 : r.DomainRecordID = f.DomainRecordID <;>
      simp [h1, h2]
  rw [hstore]
  refine ⟨?_, ?_, ?_⟩
  · intro r hr hrd
    simp only [List.mem_map] at hr
    obtain ⟨r0, _, hr0⟩ := hr
    by_cases h1 : r0.ID = f.ID
    · simp only [h1, if_true] at hr0
      have e1 : r.ID = f.ID := by rw [← hr0]
      have e2 : r.ResolveStatus = "success" := by rw [← hr0]
      exact ⟨⟨fun _ => e1, fun _ => e2⟩, fun hne => absurd e1 hne⟩
    · by_cases h2 : r0.DomainRecordID = f.DomainRecordID
      · simp only [h1, h2, if_true, if_false] at hr0
        have e1 : r.ID = r0.ID := by rw [← hr0]
        have e2 : r.ResolveStatus = "never" := by rw [← hr0]
        refine ⟨⟨fun hs => ?_, fun hi => ?_⟩, fun _ => e2⟩
        · rw [e2] at hs; exact absurd hs (by decide)
        · rw [e1] at hi; exact absurd hi h1
      · simp only [h1, h2, if_false] at hr0
        rw [← hr0, ← hdom] at hrd
        exact absurd hrd h2
  · simp only [List.map_map]
    apply List.map_congr_left
    intro r _
    simp only [Function.comp_apply]
    split_ifs <;> rfl
  · intro r0 hr0 hr0id
    refine ⟨_, List.mem_map.2 ⟨r0, hr0, rfl⟩, ?_, ?_, ?_⟩ <;> simp [hr0id]

theorem updateToCloudflare_success_single_active_witness :
    (UpdateDNSRecordByID exEnv
      (DnsUpdateCall.mk (exDomain exPoolBanned).Domain (exDomain exPoolBanned).ZoneId
        (exDomain exPoolBanned).RecordId (exForward 2 "up.example" false 0 20 "never").RecordType
        (exDomain exPoolBanned).Domain "192.0.2.7" exEnv.ttl false)).2 = true ∧
    (∀ r ∈ (updateToCloudflare exEnv (exDomain exPoolBanned)
        (exForward 2 "up.example" false 0 20 "never") "192.0.2.7" (exState exPoolBanned)).store,
      r.DomainRecordID = (exDomain exPoolBanned).ID →
      (r.ResolveStatus = "success" ↔ r.ID = (exForward 2 "up.example" false 0 20 "never").ID) ∧
      (r.ID ≠ (exForward 2 "up.example" false 0 20 "never").ID → r.ResolveStatus = "never")) ∧
    (updateToCloudflare exEnv (exDomain exPoolBanned)
        (exForward 2 "up.example" false 0 20 "never") "192.0.2.7"
        (exState exPoolBanned)).store.map (fun r => r.ID) =
      (exState exPoolBanned).store.map (fun r => r.ID) ∧
    (∀ r0 ∈ (exState exPoolBanned).store,
      r0.ID = (exForward 2 "up.example" false 0 20 "never").ID →
      ∃ r ∈ (updateToCloudflare exEnv (exDomain exPoolBanned)
          (exForward 2 "up.example" false 0 20 "never") "192.0.2.7" (exState exPoolBanned)).store,
        r.ID = (exForward 2 "up.example" false 0 20 "never").ID ∧
        r.ResolveStatus = "success" ∧ r.IP = "192.0.2.7") :=
  ⟨by decide,
    updateToCloudflare_success_single_active exEnv (exDomain exPoolBanned)
      (exForward 2 "up.example" false 0 20 "never") "192.0.2.7" "192.0.2.7"
      (exState exPoolBanned) (by decide) (by decide) (by decide) (by decide) (by decide)
      (by decide) (by decide) (by decide)⟩

/-! ## Outcomes of a forward probe -/

theorem forwardLoop_bannedForwards (env : Env) (port : Int) (fs : List ForwardRecord) :
    ∀ (banned : List String) (st : State),
      ∃ extra, (forwardLoop env port fs banned st).bannedForwards = banned ++ extra := by
  induction fs with
  | nil => intro banned st; exact ⟨[], by simp [forwardLoop]⟩
  | cons f rest ih =>
    intro banned st
    unfold forwardLoop
    by_cases hb : f.IsBan = true
    · simp only [hb, if_true]; exact ih _ _
    · have hb2 : f.IsBan = false := by simpa using hb
      simp only [hb2, Bool.false_eq_true, if_false]
      cases hc : env.checkConnectivity f.ForwardDomain port with
      | none =>
        obtain ⟨extra, he⟩ := ih (banned ++ [f.ForwardDomain])
          (banForward24Hours env f (incrementApiFailureCount
            { st with trace := st.trace ++ [Effect.probe f.ForwardDomain port] })).2
        exact ⟨f.ForwardDomain :: extra, by simp [he]⟩
      | some result =>
        by_cases hr : result.Result = true
        · exact ⟨[], by simp [hr]⟩
        · have hr2 : result.Result = false := by simpa using hr
          by_cases hm : isExhaustedMessage result.Message = true
          · obtain ⟨extra, he⟩ := ih (banned ++ [f.ForwardDomain])
              (banForward24Hours env f (resetApiFailureCount
                { st with trace := st.trace ++ [Effect.probe f.ForwardDomain port] })).2
            exact ⟨f.ForwardDomain :: extra, by simp [hr2, hm, he]⟩
          · simp only [hr2, hm, Bool.not_false, if_true, Bool.false_eq_true, if_false]
            exact ih _ _

theorem forwardLoopWithProgress_bannedForwards (env : Env) (port total : Int)
    (fs : List ForwardRecord) :
    ∀ (i : Int) (banned : List String) (st : State),
      ∃ extra, (forwardLoopWithProgress env port total i fs banned st).bannedForwards =
        banned ++ extra := by
  induction fs with
  | nil => intro i banned st; exact ⟨[], by simp [forwardLoopWithProgress]⟩
  | cons f rest ih =>
    intro i banned st
    unfold forwardLoopWithProgress
    by_cases hb : f.IsBan = true
    · simp only [hb, if_true]; exact ih _ _ _
    · have hb2 : f.IsBan = false := by simpa using hb
      simp only [hb2, Bool.false_eq_true, if_false]
      cases hc : env.checkConnectivity f.ForwardDomain port with
      | none =>
        obtain ⟨extra, he⟩ := ih (i + 1) (banned ++ [f.ForwardDomain])
          (banForward24Hours env f
            { st with trace := st.trace ++ [Effect.progress (i + 1) total f.ForwardDomain] ++
                [Effect.probe f.ForwardDomain port] }).2
        exact ⟨f.ForwardDomain :: extra, by simpa using he⟩
      | some result =>
        by_cases hr : result.Result = true
        · exact ⟨[], by simp [hr]⟩
        · have hr2 : result.Result = false := by simpa using hr
          by_cases hm : isExhaustedMessage result.Message = true
          · obtain ⟨extra, he⟩ := ih (i + 1) (banned ++ [f.ForwardDomain])
              (banForward24Hours env f
                { st with trace := st.trace ++ [Effect.progress (i + 1) total f.ForwardDomain] ++
                    [Effect.probe f.ForwardDomain port] }).2
            exact ⟨f.ForwardDomain :: extra, by simpa [hr2, hm] using he⟩
          · simp only [hr2, hm, Bool.not_false, if_true, Bool.false_eq_true, if_false]
            exact ih _ _ _

theorem mem_reportBanned (r : LoopResult) (x : String) (hx : x ∈ r.bannedForwards) :
    x ∈ (reportBanned r).report.BannedForwards := by
  unfold reportBanned
  have hpos : r.bannedForwards.length > 0 := List.length_pos_of_mem hx
  simp only [hpos, if_true]
  exact List.mem_append_right _ hx

/-- C9 (as contradicted by the code): the probe of the unbanned forward
`err.example` returns an error, and both pool checks ban it: its row gets the
ban flag, a ban time of now plus one day and the status `failed`, and it is
listed in `BannedForwards`; `checkForwardPool` raises the API failure counter
and `checkForwardPoolWithProgress` does not. -/
theorem probe_error_bans_forward :
    exErr.IsBan = false ∧ exEnv.checkConnectivity exErr.ForwardDomain 443 = none ∧
    (checkForwardPool exEnv (exDomain [exErr]) (exState [exErr])).store.map
        (fun r => (r.ID, r.IsBan, r.BanTime, r.ResolveStatus)) =
      [(5, true, 87400, "failed")] ∧
    (checkForwardPool exEnv (exDomain [exErr]) (exState [exErr])).report.BannedForwards =
      ["err.example"] ∧
    (checkForwardPool exEnv (exDomain [exErr]) (exState [exErr])).apiFailureCount = 1 ∧
    (checkForwardPoolWithProgress exEnv (exDomain [exErr]) (exState [exErr])).store.map
        (fun r => (r.ID, r.IsBan, r.BanTime, r.ResolveStatus)) =
      [(5, true, 87400, "failed")] ∧
    (checkForwardPoolWithProgress exEnv (exDomain [exErr]) (exState [exErr])).report.BannedForwards =
      ["err.example"] ∧
    (checkForwardPoolWithProgress exEnv (exDomain [exErr]) (exState [exErr])).apiFailureCount = 0 := by
  decide

/-- C9 (amended): when the probe of an unbanned forward returns an error,
`checkForwardPool` adds one to the API failure counter and
`checkForwardPoolWithProgress` leaves the counter unchanged; both ban the
forward for one day (the ban write is issued at once and, when the store
accepts it, sets the ban flag, the ban time now plus one day and the status
`failed` on the row of the forward), list the forward in `BannedForwards`,
and go on with the next forward. -/
theorem probe_error_bans_and_continues (env : Env) (port total i : Int) (f : ForwardRecord)
    (rest : List ForwardRecord) (banned : List String) (st : State)
    (hban : f.IsBan = false) (herr : env.checkConnectivity f.ForwardDomain port = none) :
    forwardLoop env port (f :: rest) banned st =
      forwardLoop env port rest (banned ++ [f.ForwardDomain])
        { store := (operate.BanForward24Hours env f st.store).2.2
          apiFailureCount := st.apiFailureCount + 1
          report := st.report
          trace := st.trace ++ [Effect.probe f.ForwardDomain port] } ∧
    forwardLoopWithProgress env port total i (f :: rest) banned st =
      forwardLoopWithProgress env port total (i + 1) rest (banned ++ [f.ForwardDomain])
        { store := (operate.BanForward24Hours env f st.store).2.2
          apiFailureCount := st.apiFailureCount
          report := st.report
          trace := st.trace ++ [Effect.progress (i + 1) total f.ForwardDomain] ++
            [Effect.probe f.ForwardDomain port] } ∧
    (env.dbOk DbOp.banForward24Hours = true → f.ID ≠ 0 →
      (operate.BanForward24Hours env f st.store).2.2 =
        st.store.map (fun r => if r.ID = f.ID then
          { r with IsBan := true, BanTime := env.now + 24 * 3600, ResolveStatus := "failed",
                   UpdatedAt := env.now } else r)) ∧
    f.ForwardDomain ∈
      (reportBanned (forwardLoop env port (f :: rest) banned st)).report.BannedForwards ∧
    f.ForwardDomain ∈
      (reportBanned (forwardLoopWithProgress env port total i (f :: rest) banned
        st)).report.BannedForwards := by
  have h1 : forwardLoop env port (f :: rest) banned st =
      forwardLoop env port rest (banned ++ [f.ForwardDomain])
        { store := (operate.BanForward24Hours env f st.store).2.2
          apiFailureCount := st.apiFailureCount + 1
          report := st.report
          trace := st.trace ++ [Effect.probe f.ForwardDomain port] } := by
    rw [forwardLoop]
    simp only [hban, herr, Bool.false_eq_true, if_false]
    rfl
  have h2 : forwardLoopWithProgress env port total i (f :: rest) banned st =
      forwardLoopWithProgress env port total (i + 1) rest (banned ++ [f.ForwardDomain])
        { store := (operate.BanForward24Hours env f st.store).2.2
          apiFailureCount := st.apiFailureCount
          report := st.report
          trace := st.trace ++ [Effect.progress (i + 1) total f.ForwardDomain] ++
            [Effect.probe f.ForwardDomain port] } := by
    rw [forwardLoopWithProgress]
    simp only [hban, herr, Bool.false_eq_true, if_false]
    rfl
  refine ⟨h1, h2, fun hdb hid => BanForward24Hours_rows env f st.store hdb hid, ?_, ?_⟩
  · apply mem_reportBanned
    rw [h1]
    obtain ⟨extra, he⟩ := forwardLoop_bannedForwards env port rest (banned ++ [f.ForwardDomain])
      { store := (operate.BanForward24Hours env f st.store).2.2
        apiFailureCount := st.apiFailureCount + 1
        report := st.report
        trace := st.trace ++ [Effect.probe f.ForwardDomain port] }
    rw [he]; simp
  · apply mem_reportBanned
    rw [h2]
    obtain ⟨extra, he⟩ := forwardLoopWithProgress_bannedForwards env port total rest (i + 1)
      (banned ++ [f.ForwardDomain])
      { store := (operate.BanForward24Hours env f st.store).2.2
        apiFailureCount := st.apiFailureCount
        report := st.report
        trace := st.trace ++ [Effect.progress (i + 1) total f.ForwardDomain] ++
          [Effect.probe f.ForwardDomain port] }
    rw [he]; simp

theorem probe_error_bans_and_continues_witness :
    exErr.IsBan = false ∧ exEnv.checkConnectivity exErr.ForwardDomain 443 = none ∧
    (forwardLoop exEnv 443 (exErr :: exPool) [] (exState (exErr :: exPool)) =
      forwardLoop exEnv 443 exPool ([] ++ [exErr.ForwardDomain])
        { store := (operate.BanForward24Hours exEnv exErr (exState (exErr :: exPool)).store).2.2
          apiFailureCount := (exState (exErr :: exPool)).apiFailureCount + 1
          report := (exState (exErr :: exPool)).report
          trace := (exState (exErr :: exPool)).trace ++ [Effect.probe exErr.ForwardDomain 443] } ∧
    forwardLoopWithProgress exEnv 443 4 0 (exErr :: exPool) [] (exState (exErr :: exPool)) =
      forwardLoopWithProgress exEnv 443 4 (0 + 1) exPool ([] ++ [exErr.ForwardDomain])
        { store := (operate.BanForward24Hours exEnv exErr (exState (exErr :: exPool)).store).2.2
          apiFailureCount := (exState (exErr :: exPool)).apiFailureCount
          report := (exState (exErr :: exPool)).report
          trace := (exState (exErr :: exPool)).trace ++
            [Effect.progress (0 + 1) 4 exErr.ForwardDomain] ++
            [Effect.probe exErr.ForwardDomain 443] } ∧
    (exEnv.dbOk DbOp.banForward24Hours = true → exErr.ID ≠ 0 →
      (operate.BanForward24Hours exEnv exErr (exState (exErr :: exPool)).store).2.2 =
        (exState (exErr :: exPool)).store.map (fun r => if r.ID = exErr.ID then
          { r with IsBan := true, BanTime := exEnv.now + 24 * 3600, ResolveStatus := "failed",
                   UpdatedAt := exEnv.now } else r)) ∧
    exErr.ForwardDomain ∈
      (reportBanned (forwardLoop exEnv 443 (exErr :: exPool) []
        (exState (exErr :: exPool)))).report.BannedForwards ∧
    exErr.ForwardDomain ∈
      (reportBanned (forwardLoopWithProgress exEnv 443 4 0 (exErr :: exPool) []
        (exState (exErr :: exPool)))).report.BannedForwards) :=
  ⟨by decide, by decide,
    probe_error_bans_and_continues exEnv 443 4 0 exErr exPool [] (exState (exErr :: exPool))
      (by decide) (by decide)⟩

/-- C10: when the probe of an unbanned forward returns without error and with
result unreachable, `checkForwardPool` bans the forward exactly when the
message carries the exhausted-all-attempts signal. With the signal the
forward gets the ban flag, the ban time now plus one day and the status
`failed`, the ban write is issued before the next forward is looked at (and
sets these columns on the row of the forward when the store accepts it), and
the forward joins the banned list. Without the signal the store and the
banned list are unchanged. In both cases the loop goes on with the next
forward. -/
theorem unreachable_forward_banned_iff_exhausted (env : Env) (port : Int) (f : ForwardRecord)
    (rest : List ForwardRecord) (banned : List String) (st : State)
    (result : tcpCheckResponseData)
    (hban : f.IsBan = false)
    (hprobe : env.checkConnectivity f.ForwardDomain port = some result)
    (hres : result.Result = false) :
    (isExhaustedMessage result.Message = true →
      forwardLoop env port (f :: rest) banned st =
        forwardLoop env port rest (banned ++ [f.ForwardDomain])
          { store := (operate.BanForward24Hours env f st.store).2.2
            apiFailureCount := if st.apiFailureCount > 0 then 0 else st.apiFailureCount
            report := st.report
            trace := st.trace ++ [Effect.probe f.ForwardDomain port] } ∧
      (banForward24Hours env f st).1 =
        { f with IsBan := true, BanTime := env.now + 24 * 3600, ResolveStatus := "failed" } ∧
      (env.dbOk DbOp.banForward24Hours = true → f.ID ≠ 0 →
        (operate.BanForward24Hours env f st.store).2.2 =
          st.store.map (fun r => if r.ID = f.ID then
            { r with IsBan := true, BanTime := env.now + 24 * 3600, ResolveStatus := "failed",
                     UpdatedAt := env.now } else r))) ∧
    (isExhaustedMessage result.Message = false →
      forwardLoop env port (f :: rest) banned st =
        forwardLoop env port rest banned
          { store := st.store
            apiFailureCount := if st.apiFailureCount > 0 then 0 else st.apiFailureCount
            report := st.report
            trace := st.trace ++ [Effect.probe f.ForwardDomain port] }) := by
  constructor
  · intro hm
    refine ⟨?_, rfl, fun hdb hid => BanForward24Hours_rows env f st.store hdb hid⟩
    rw [forwardLoop]
    simp only [hban, hprobe, hres, hm, Bool.false_eq_true, if_false, Bool.not_false, if_true]
    unfold resetApiFailureCount
    split <;> rfl
  · intro hm
    rw [forwardLoop]
    simp only [hban, hprobe, hres, hm, Bool.false_eq_true, if_false, Bool.not_false, if_true]
    unfold resetApiFailureCount
    split <;> rfl

theorem unreachable_forward_banned_iff_exhausted_witness :
    exDead.IsBan = false ∧
    exEnv.checkConnectivity exDead.ForwardDomain 443 =
      some (exAnswer false "192.0.2.9" "检测结束,目标 192.0.2.9:443无法连接: timeout") ∧
    isExhaustedMessage "检测结束,目标 192.0.2.9:443无法连接: timeout" = true ∧
    forwardLoop exEnv 443 (exDead :: exPool) [] (exState (exDead :: exPool)) =
      forwardLoop exEnv 443 exPool ([] ++ [exDead.ForwardDomain])
        { store := (operate.BanForward24Hours exEnv exDead (exState (exDead :: exPool)).store).2.2
          apiFailureCount := if (exState (exDead :: exPool)).apiFailureCount > 0 then 0
            else (exState (exDead :: exPool)).apiFailureCount
          report := (exState (exDead :: exPool)).report
          trace := (exState (exDead :: exPool)).trace ++
            [Effect.probe exDead.ForwardDomain 443] } ∧
    (exUnresolved.IsBan = false ∧
      isExhaustedMessage (exAnswer false "" "无法解析目标").Message = false ∧
      forwardLoop exEnv 443 (exUnresolved :: exPool) [] (exState (exUnresolved :: exPool)) =
        forwardLoop exEnv 443 exPool []
          { store := (exState (exUnresolved :: exPool)).store
            apiFailureCount := if (exState (exUnresolved :: exPool)).apiFailureCount > 0 then 0
              else (exState (exUnresolved :: exPool)).apiFailureCount
            report := (exState (exUnresolved :: exPool)).report
            trace := (exState (exUnresolved :: exPool)).trace ++
              [Effect.probe exUnresolved.ForwardDomain 443] }) :=
  ⟨by decide, by decide, by decide,
    ((unreachable_forward_banned_iff_exhausted exEnv 443 exDead exPool []
      (exState (exDead :: exPool))
      (exAnswer false "192.0.2.9" "检测结束,目标 192.0.2.9:443无法连接: timeout")
      (by decide) (by decide) (by decide)).1 (by decide)).1,
    by decide, by decide,
    (unreachable_forward_banned_iff_exhausted exEnv 443 exUnresolved exPool []
      (exState (exUnresolved :: exPool)) (exAnswer false "" "无法解析目标")
      (by decide) (by decide) (by decide)).2 (by decide)⟩

/-! ## DNS update calls of an evaluation -/

theorem forwardLoop_resolvedIP (env : Env) (port : Int) (fs : List ForwardRecord) :
    ∀ (banned : List String) (st : State),
      (forwardLoop env port fs banned st).resolvedIP =
        match fs.find? (selectable env port) with
        | some g => probedIP env port g
        | none => "" := by
  induction fs with
  | nil => intro banned st; rfl
  | cons f rest ih =>
    intro banned st
    unfold forwardLoop
    by_cases hb : f.IsBan = true
    · simp [hb, selectable, ih]
    · have hb2 : f.IsBan = false := by simpa using hb
      cases hc : env.checkConnectivity f.ForwardDomain port with
      | none => simp [hb2, hc, selectable, answersReachable, ih]
      | some result =>
        by_cases hr : result.Result = true
        · simp [hb2, hc, hr, selectable, answersReachable, probedIP]
        · have hr2 : result.Result = false := by simpa using hr
          by_cases hm : isExhaustedMessage result.Message = true
          · simp [hb2, hc, hr2, hm, selectable, answersReachable, ih]
          · simp [hb2, hc, hr2, hm, selectable, answersReachable, ih]

theorem updateToCloudflare_dnsUpdateCalls (env : Env) (d : DomainRecord) (f : ForwardRecord)
    (ip : String) (st : State) :
    dnsUpdateCalls (updateToCloudflare env d f ip st).trace =
      dnsUpdateCalls st.trace ++ gatewayCalls env d f ip := by
  unfold updateToCloudflare gatewayCalls
  by_cases h1 : d.RecordId = ""
  · simp [h1]
  · by_cases h2 : env.clientOk = false
    · simp [h1, h2]
    · cases h3 : recordContent f ip with
      | none => simp [h1, h2, h3]
      | some content =>
        have hg := dnsUpdateCalls_UpdateDNSRecordByID env
          (DnsUpdateCall.mk d.Domain d.ZoneId d.RecordId f.RecordType d.Domain content env.ttl
            false)
        by_cases h4 : (UpdateDNSRecordByID env (DnsUpdateCall.mk d.Domain d.ZoneId d.RecordId
            f.RecordType d.Domain content env.ttl false)).2 = false
        · simp only [h1, h2, h3, h4, if_false, if_true, dnsUpdateCalls_append]
          simpa [dnsUpdateCalls] using hg
        · simp only [h1, h2, h3, h4, if_false, dnsUpdateCalls_append]
          simpa [dnsUpdateCalls] using hg

theorem gatewayCalls_length (env : Env) (d : DomainRecord) (f : ForwardRecord) (ip : String) :
    (gatewayCalls env d f ip).length ≤ 1 := by
  unfold gatewayCalls
  split
  · simp
  · split
    · simp
    · split <;> simp

theorem domainGatewayCalls_length (env : Env) (d : DomainRecord) :
    (domainGatewayCalls env d).length ≤ 1 := by
  unfold domainGatewayCalls
  split
  · simp
  · split
    · simp
    · split
      · simp
      · exact gatewayCalls_length _ _ _ _

theorem checkForwardPool_dnsUpdateCalls (env : Env) (d : DomainRecord) (st : State) :
    dnsUpdateCalls (checkForwardPool env d st).trace =
      dnsUpdateCalls st.trace ++
        match (sortSlice d.Forwards).find? (selectable env d.Port) with
        | none => []
        | some g => gatewayCalls env d g (probedIP env d.Port g) := by
  unfold checkForwardPool
  by_cases h0 : d.Forwards.length = 0
  · have hnil : d.Forwards = [] := List.length_eq_zero.1 h0
    simp [h0, hnil, sortSlice]
  · simp only [h0, if_false]
    unfold finishPool
    have ha := forwardLoop_availableForward env d.Port (sortSlice d.Forwards) [] st
    have hi := forwardLoop_resolvedIP env d.Port (sortSlice d.Forwards) [] st
    have ht := forwardLoop_trace env d.Port (sortSlice d.Forwards) [] st
    have hp : dnsUpdateCalls ((probedForwards env d.Port (sortSlice d.Forwards)).map
        (fun f => Effect.probe f.ForwardDomain d.Port)) = [] := by
      simp [dnsUpdateCalls, List.filterMap_map, Function.comp_def]
    cases hf : (sortSlice d.Forwards).find? (selectable env d.Port) with
    | none =>
      rw [hf] at ha
      simp only [ha, appendNoForward_trace, reportBanned_trace, ht, dnsUpdateCalls_append, hp]
    | some g =>
      rw [hf] at ha hi
      simp only [ha, hi, updateToCloudflare_dnsUpdateCalls, reportBanned_trace, ht,
        dnsUpdateCalls_append, hp, List.append_nil]

theorem checkDomain_dnsUpdateCalls (env : Env) (d : DomainRecord) (st : State) :
    dnsUpdateCalls (checkDomain env d st).trace =
      dnsUpdateCalls st.trace ++ domainGatewayCalls env d := by
  unfold checkDomain domainGatewayCalls
  cases hc : env.checkConnectivity d.Domain d.Port with
  | none => simp [appendFailed, dnsUpdateCalls]
  | some result =>
    by_cases hr : result.Result = true
    · simp [hr, dnsUpdateCalls]
    · have hr2 : result.Result = false := by simpa using hr
      simp only [hr2, Bool.false_eq_true, if_false, checkForwardPool_dnsUpdateCalls,
        appendDisconnected_trace, resetApiFailureCount_trace, dnsUpdateCalls_append]
      simp [dnsUpdateCalls]

theorem checkDomains_dnsUpdateCalls (env : Env) (ds : List DomainRecord) :
    ∀ st : State, dnsUpdateCalls (checkDomains env ds st).trace =
      dnsUpdateCalls st.trace ++
        (ds.map (fun d => if d.IsDisableCheck then [] else domainGatewayCalls env d)).flatten := by
  induction ds with
  | nil => intro st; simp [checkDomains]
  | cons d ds ih =>
    intro st
    unfold checkDomains
    by_cases hd : d.IsDisableCheck = true
    · simp [hd, ih]
    · have hd2 : d.IsDisableCheck = false := by simpa using hd
      simp [hd2, ih, checkDomain_dnsUpdateCalls, List.append_assoc]

/-- C6 (as contradicted by the code): without a Cloudflare client
(`GetGlobalClient` fails) a cycle over the example domain selects the forward
`up.example`, with record ID present and record type A, and issues no DNS
update call. -/
theorem no_dns_update_without_client :
    (exDomain exPool).RecordId = "rec-1" ∧
    (forwardLoop exEnvNoClient 443 (sortSlice exPool) [] (exState exPool)).availableForward =
      some (exForward 2 "up.example" false 0 20 "never") ∧
    (exForward 2 "up.example" false 0 20 "never").RecordType = "A" ∧
    dnsUpdateCalls (checkDomains exEnvNoClient [exDomain exPool] (exState exPool)).trace = [] := by
  decide

/-- C6 (amended): the DNS update calls of one cycle are, domain by domain in list
order, the calls of the evaluation of each check-enabled domain, and each
domain has at most one; a domain has exactly one, with its persisted record
ID and the record type of the selected forward, when its primary answers
unreachable, a forward is selected for it, its record ID is present, the
Cloudflare client is available and the record type of the forward is A or
CNAME. -/
theorem dns_update_at_most_once_per_domain (env : Env) (ds : List DomainRecord) (st : State) :
    ∃ css : List (List DnsUpdateCall),
      dnsUpdateCalls (checkDomains env ds st).trace = dnsUpdateCalls st.trace ++ css.flatten ∧
      List.Forall₂ (fun (d : DomainRecord) (cs : List DnsUpdateCall) =>
        cs.length ≤ 1 ∧
        (d.IsDisableCheck = true → cs = []) ∧
        (d.IsDisableCheck = false →
          (∀ st0 : State, dnsUpdateCalls (checkDomain env d st0).trace =
            dnsUpdateCalls st0.trace ++ cs) ∧
          (∀ (result : tcpCheckResponseData) (g : ForwardRecord) (st0 : State),
            env.checkConnectivity d.Domain d.Port = some result → result.Result = false →
            (forwardLoop env d.Port (sortSlice d.Forwards) [] st0).availableForward = some g →
            d.RecordId ≠ "" → env.clientOk = true →
            (g.RecordType = "A" ∨ g.RecordType = "CNAME") →
            ∃ content, cs = [DnsUpdateCall.mk d.Domain d.ZoneId d.RecordId g.RecordType
              d.Domain content env.ttl false]))) ds css := by
  refine ⟨ds.map (fun d => if d.IsDisableCheck then [] else domainGatewayCalls env d),
    checkDomains_dnsUpdateCalls env ds st, ?_⟩
  rw [List.forall₂_map_right_iff]
  apply List.forall₂_same.2
  intro d _
  by_cases hd : d.IsDisableCheck = true
  · simp [hd]
  · have hd2 : d.IsDisableCheck = false := by simpa using hd
    simp only [hd2, Bool.false_eq_true, if_false, false_implies, true_implies, true_and]
    refine ⟨domainGatewayCalls_length env d, fun st0 => checkDomain_dnsUpdateCalls env d st0, ?_⟩
    intro result g st0 hprobe hres hsel hrec hclient htype
    rw [forwardLoop_availableForward] at hsel
    unfold domainGatewayCalls gatewayCalls
    simp only [hprobe, hres, hsel, hrec, hclient, Bool.false_eq_true, if_false]
    rcases htype with hA | hC
    · exact ⟨probedIP env d.Port g, by simp [recordContent, hA]⟩
    · by_cases hA : g.RecordType = "A"
      · exact ⟨probedIP env d.Port g, by simp [recordContent, hA]⟩
      · exact ⟨g.ForwardDomain, by simp [recordContent, hA, hC]⟩

theorem dns_update_at_most_once_per_domain_witness :
    ∃ content, dnsUpdateCalls (checkDomains exEnv [exDomain exPool] (exState exPool)).trace =
      [DnsUpdateCall.mk "api.example.com" "zone-1" "rec-1" "A" "api.example.com" content 60
        false] := by
  obtain ⟨css, htrace, hall⟩ :=
    dns_update_at_most_once_per_domain exEnv [exDomain exPool] (exState exPool)
  cases hall with
  | cons h hrest =>
    cases hrest
    obtain ⟨_, hcall⟩ := h.2.2 (by decide)
    obtain ⟨content, hc⟩ := hcall (exAnswer false "" "dial tcp: i/o timeout")
      (exForward 2 "up.example" false 0 20 "never") (exState exPool)
      (by decide) (by decide) (by decide) (by decide) (by decide) (Or.inl (by decide))
    refine ⟨content, ?_⟩
    rw [htrace, hc]
    rfl

/-! ## How an evaluation rewrites the store -/

theorem keepsKeys_id : KeepsKeys (fun r => r) := by
  intro r; simp

theorem keepsKeys_comp {φ ψ : ForwardRecord → ForwardRecord} (hφ : KeepsKeys φ)
    (hψ : KeepsKeys ψ) : KeepsKeys (fun r => ψ (φ r)) := by
  intro r
  obtain ⟨a1, a2, a3, a4, a5, a6⟩ := hφ r
  obtain ⟨b1, b2, b3, b4, b5, b6⟩ := hψ (φ r)
  exact ⟨b1.trans a1, b2.trans a2, b3.trans a3, b4.trans a4, b5.trans a5, b6.trans a6⟩

theorem modelUpdates_map (env : Env) (op : DbOp) (id : Nat)
    (set : ForwardRecord → ForwardRecord) (store : List ForwardRecord) :
    (modelUpdates env op id set store).2 =
      store.map (fun r => if env.dbOk op = true ∧ id ≠ 0 ∧ r.ID = id then
        { set r with UpdatedAt := env.now } else r) := by
  unfold modelUpdates
  by_cases hdb : env.dbOk op = true
  · by_cases hid : id = 0
    · simp [hdb, hid]
    · simp [hdb, hid]
  · have hdb2 : env.dbOk op = false := by simpa using hdb
    simp [hdb2]

/-- The ban write as a rewriting of rows. -/
theorem BanForward24Hours_map (env : Env) (port : Int) (f : ForwardRecord)
    (store : List ForwardRecord) (hf : answersReachable env port f = false) :
    ∃ β, (operate.BanForward24Hours env f store).2.2 = store.map β ∧ KeepsKeys β ∧
      BansOnlyFailed env port [f] β := by
  refine ⟨fun r => if env.dbOk DbOp.banForward24Hours = true ∧ f.ID ≠ 0 ∧ r.ID = f.ID then
      { r with IsBan := true, BanTime := env.now + 24 * 3600, ResolveStatus := "failed",
               UpdatedAt := env.now } else r, ?_, ?_, ?_⟩
  · unfold operate.BanForward24Hours
    simp only
    rw [modelUpdates_map]
  · intro r
    by_cases h : env.dbOk DbOp.banForward24Hours = true ∧ f.ID ≠ 0 ∧ r.ID = f.ID
    · simp [h]
    · simp [h]
  · intro r
    dsimp only
    by_cases h : env.dbOk DbOp.banForward24Hours = true ∧ f.ID ≠ 0 ∧ r.ID = f.ID
    · rw [if_pos h]
      exact ⟨fun _ => rfl, fun _ => Or.inr ⟨f, by simp, hf, h.2.2.symm⟩⟩
    · rw [if_neg h]
      exact ⟨fun hb => hb, fun hb => Or.inl hb⟩

theorem bansOnlyFailed_comp {env : Env} {port : Int} {f : ForwardRecord}
    {rest : List ForwardRecord} {β φ : ForwardRecord → ForwardRecord}
    (hβk : KeepsKeys β) (hβ : BansOnlyFailed env port [f] β)
    (hφ : BansOnlyFailed env port rest φ) :
    BansOnlyFailed env port (f :: rest) (fun r => φ (β r)) := by
  intro r
  refine ⟨fun hb => (hφ (β r)).1 ((hβ r).1 hb), fun hb => ?_⟩
  rcases (hφ (β r)).2 hb with h1 | ⟨h, hh, hr, hid⟩
  · rcases (hβ r).2 h1 with h2 | ⟨h, hh, hr, hid⟩
    · exact Or.inl h2
    · simp only [List.mem_singleton] at hh
      exact Or.inr ⟨h, by simp [hh], hr, hid⟩
  · exact Or.inr ⟨h, List.mem_cons_of_mem _ hh, hr, hid.trans (hβk r).1⟩

theorem bansOnlyFailed_tail {env : Env} {port : Int} {f : ForwardRecord}
    {rest : List ForwardRecord} {φ : ForwardRecord → ForwardRecord}
    (hφ : BansOnlyFailed env port rest φ) : BansOnlyFailed env port (f :: rest) φ := by
  intro r
  refine ⟨(hφ r).1, fun hb => ?_⟩
  rcases (hφ r).2 hb with h1 | ⟨h, hh, hr, hid⟩
  · exact Or.inl h1
  · exact Or.inr ⟨h, List.mem_cons_of_mem _ hh, hr, hid⟩

theorem bansOnlyFailed_id (env : Env) (port : Int) (fs : List ForwardRecord) :
    BansOnlyFailed env port fs (fun r => r) := by
  intro r
  exact ⟨fun h => h, fun h => Or.inl h⟩

theorem forwardLoop_store (env : Env) (port : Int) (fs : List ForwardRecord) :
    ∀ (banned : List String) (st : State),
      ∃ φ, (forwardLoop env port fs banned st).st.store = st.store.map φ ∧ KeepsKeys φ ∧
        BansOnlyFailed env port fs φ := by
  induction fs with
  | nil =>
    intro banned st
    exact ⟨fun r => r, by simp [forwardLoop], keepsKeys_id, bansOnlyFailed_id _ _ _⟩
  | cons f rest ih =>
    intro banned st
    unfold forwardLoop
    by_cases hb : f.IsBan = true
    · simp only [hb, if_true]
      obtain ⟨φ, h1, h2, h3⟩ := ih banned st
      exact ⟨φ, h1, h2, bansOnlyFailed_tail h3⟩
    · have hb2 : f.IsBan = false := by simpa using hb
      simp only [hb2, Bool.false_eq_true, if_false]
      cases hc : env.checkConnectivity f.ForwardDomain port with
      | none =>
        have hf : answersReachable env port f = false := by simp [answersReachable, hc]
        obtain ⟨β, hβ1, hβ2, hβ3⟩ := BanForward24Hours_map env port f st.store hf
        obtain ⟨φ, h1, h2, h3⟩ := ih (banned ++ [f.ForwardDomain])
          (banForward24Hours env f (incrementApiFailureCount
            { st with trace := st.trace ++ [Effect.probe f.ForwardDomain port] })).2
        refine ⟨fun r => φ (β r), ?_, keepsKeys_comp hβ2 h2, bansOnlyFailed_comp hβ2 hβ3 h3⟩
        simp only [banForward24Hours_ForwardDomain] at h1 ⊢
        rw [h1, banForward24Hours_store, incrementApiFailureCount_store, hβ1, List.map_map]
        rfl
      | some result =>
        by_cases hr : result.Result = true
        · simp only [hr, Bool.not_true, Bool.false_eq_true, if_false]
          exact ⟨fun r => r, by simp, keepsKeys_id, bansOnlyFailed_id _ _ _⟩
        · have hr2 : result.Result = false := by simpa using hr
          have hf : answersReachable env port f = false := by simp [answersReachable, hc, hr2]
          by_cases hm : isExhaustedMessage result.Message = true
          · simp only [hr2, hm, Bool.not_false, if_true]
            obtain ⟨β, hβ1, hβ2, hβ3⟩ := BanForward24Hours_map env port f st.store hf
            obtain ⟨φ, h1, h2, h3⟩ := ih (banned ++ [f.ForwardDomain])
              (banForward24Hours env f (resetApiFailureCount
                { st with trace := st.trace ++ [Effect.probe f.ForwardDomain port] })).2
            refine ⟨fun r => φ (β r), ?_, keepsKeys_comp hβ2 h2, bansOnlyFailed_comp hβ2 hβ3 h3⟩
            simp only [banForward24Hours_ForwardDomain] at h1 ⊢
            rw [h1, banForward24Hours_store, resetApiFailureCount_store, hβ1, List.map_map]
            rfl
          · simp only [hr2, hm, Bool.not_false, if_true, Bool.false_eq_true, if_false]
            obtain ⟨φ, h1, h2, h3⟩ := ih banned (resetApiFailureCount
              { st with trace := st.trace ++ [Effect.probe f.ForwardDomain port] })
            refine ⟨φ, ?_, h2, bansOnlyFailed_tail h3⟩
            rw [h1, resetApiFailureCount_store]

theorem ClearOtherForwardStatus_map (env : Env) (domainRecordID currentForwardID : Nat)
    (store : List ForwardRecord) :
    (operate.ClearOtherForwardStatus env domainRecordID currentForwardID store).2 =
      store.map (fun r =>
        if env.dbOk DbOp.clearOtherForwardStatus = true ∧
            r.DomainRecordID = domainRecordID ∧ r.ID ≠ currentForwardID then
          { r with ResolveStatus := "never", UpdatedAt := env.now }
        else r) := by
  unfold operate.ClearOtherForwardStatus
  by_cases hdb : env.dbOk DbOp.clearOtherForwardStatus = true
  · simp [hdb]
  · have hdb2 : env.dbOk DbOp.clearOtherForwardStatus = false := by simpa using hdb
    simp [hdb2]

theorem updateToCloudflare_store (env : Env) (d : DomainRecord) (f : ForwardRecord)
    (ip : String) (st : State) :
    ∃ ψ, (updateToCloudflare env d f ip st).store = st.store.map ψ ∧ KeepsKeys ψ ∧
      ∀ r, (ψ r).IsBan = r.IsBan := by
  have hid : ∃ ψ, st.store = st.store.map ψ ∧ KeepsKeys ψ ∧ ∀ r, (ψ r).IsBan = r.IsBan :=
    ⟨fun r => r, by simp, keepsKeys_id, fun _ => rfl⟩
  unfold updateToCloudflare
  by_cases h1 : d.RecordId = ""
  · simpa [h1] using hid
  · by_cases h2 : env.clientOk = false
    · simpa [h1, h2] using hid
    · cases h3 : recordContent f ip with
      | none => simpa [h1, h2, h3] using hid
      | some content =>
        by_cases h4 : (UpdateDNSRecordByID env (DnsUpdateCall.mk d.Domain d.ZoneId d.RecordId
            f.RecordType d.Domain content env.ttl false)).2 = false
        · simpa [h1, h2, h3, h4] using hid
        · simp only [h1, h2, h3, h4, if_false]
          unfold operate.UpdateForwardResolveStatus
          simp only
          rw [modelUpdates_map, ClearOtherForwardStatus_map, List.map_map]
          refine ⟨_, rfl, ?_, ?_⟩
          · intro r
            simp only [Function.comp_apply]
            split_ifs <;> simp
          · intro r
            simp only [Function.comp_apply]
            split_ifs <;> rfl

theorem checkForwardPool_store (env : Env) (d : DomainRecord) (st : State) :
    ∃ φ, (checkForwardPool env d st).store = st.store.map φ ∧ KeepsKeys φ ∧
      BansOnlyFailed env d.Port (sortSlice d.Forwards) φ := by
  unfold checkForwardPool
  by_cases h0 : d.Forwards.length = 0
  · simp only [h0, if_true, appendNoForward_store]
    exact ⟨fun r => r, by simp, keepsKeys_id, bansOnlyFailed_id _ _ _⟩
  · simp only [h0, if_false]
    obtain ⟨φ, h1, h2, h3⟩ := forwardLoop_store env d.Port (sortSlice d.Forwards) [] st
    unfold finishPool
    cases ha : (forwardLoop env d.Port (sortSlice d.Forwards) [] st).availableForward with
    | none =>
      simp only [appendNoForward_store, reportBanned_store]
      exact ⟨φ, h1, h2, h3⟩
    | some g =>
      simp only
      obtain ⟨ψ, k1, k2, k3⟩ := updateToCloudflare_store env d g
        (forwardLoop env d.Port (sortSlice d.Forwards) [] st).resolvedIP
        (reportBanned (forwardLoop env d.Port (sortSlice d.Forwards) [] st))
      refine ⟨fun r => ψ (φ r), ?_, keepsKeys_comp h2 k2, ?_⟩
      · rw [k1, reportBanned_store, h1, List.map_map]; rfl
      · intro r
        refine ⟨fun hb => ?_, fun hb => ?_⟩
        · rw [k3]; exact (h3 r).1 hb
        · rw [k3] at hb; exact (h3 r).2 hb

theorem checkDomain_store (env : Env) (d : DomainRecord) (st : State) :
    ∃ φ, (checkDomain env d st).store = st.store.map φ ∧ KeepsKeys φ ∧
      BansOnlyFailed env d.Port (sortSlice d.Forwards) φ := by
  have hid : ∃ φ, st.store = st.store.map φ ∧ KeepsKeys φ ∧
      BansOnlyFailed env d.Port (sortSlice d.Forwards) φ :=
    ⟨fun r => r, by simp, keepsKeys_id, bansOnlyFailed_id _ _ _⟩
  unfold checkDomain
  cases hc : env.checkConnectivity d.Domain d.Port with
  | none => simpa [appendFailed] using hid
  | some result =>
    by_cases hr : result.Result = true
    · simpa [hr] using hid
    · have hr2 : result.Result = false := by simpa using hr
      simp only [hr2, Bool.false_eq_true, if_false]
      obtain ⟨φ, h1, h2, h3⟩ := checkForwardPool_store env d
        (appendDisconnected d result.Message (resetApiFailureCount
          { st with trace := st.trace ++ [Effect.probe d.Domain d.Port] }))
      refine ⟨φ, ?_, h2, h3⟩
      rw [h1, appendDisconnected_store, resetApiFailureCount_store]

/-! ## Reloading the pool from a rewritten store -/

theorem preloadLess_keys {φ : ForwardRecord → ForwardRecord} (hφ : KeepsKeys φ)
    (a b : ForwardRecord) : preloadLess (φ a) (φ b) = preloadLess a b := by
  obtain ⟨a1, _, _, a4, a5, _⟩ := hφ a
  obtain ⟨b1, _, _, b4, b5, _⟩ := hφ b
  unfold preloadLess
  rw [a1, a4, a5, b1, b4, b5]

theorem less_keys {φ : ForwardRecord → ForwardRecord} (hφ : KeepsKeys φ)
    (a b : ForwardRecord) : less (φ a) (φ b) = less a b := by
  obtain ⟨_, _, _, a4, a5, _⟩ := hφ a
  obtain ⟨_, _, _, b4, b5, _⟩ := hφ b
  unfold less
  rw [a4, a5, b4, b5]

theorem preloadForwards_map {φ : ForwardRecord → ForwardRecord} (hφ : KeepsKeys φ)
    (store : List ForwardRecord) (domainID : Nat) :
    preloadForwards (store.map φ) domainID = (preloadForwards store domainID).map φ := by
  unfold preloadForwards
  have hfilter : (store.map φ).filter (fun r => decide (r.DomainRecordID = domainID)) =
      (store.filter (fun r => decide (r.DomainRecordID = domainID))).map φ := by
    rw [List.filter_map]
    congr 1
    apply List.filter_congr
    intro r _
    simp [(hφ r).2.1]
  rw [hfilter]
  symm
  apply List.map_insertionSort
  intro a _ b _
  rw [preloadLess_keys hφ]

theorem sortSlice_map {φ : ForwardRecord → ForwardRecord} (hφ : KeepsKeys φ)
    (fs : List ForwardRecord) : sortSlice (fs.map φ) = (sortSlice fs).map φ := by
  unfold sortSlice
  symm
  apply List.map_insertionSort
  intro a _ b _
  rw [less_keys hφ]

theorem mem_preloadForwards {store : List ForwardRecord} {domainID : Nat} {x : ForwardRecord}
    (hx : x ∈ preloadForwards store domainID) : x ∈ store := by
  unfold preloadForwards at hx
  rw [List.mem_insertionSort] at hx
  exact (List.mem_filter.1 hx).1

theorem eq_of_ID_eq {store : List ForwardRecord} (hkeys : (store.map (fun r => r.ID)).Nodup)
    {a b : ForwardRecord} (ha : a ∈ store) (hb : b ∈ store) (h : a.ID = b.ID) : a = b :=
  List.inj_on_of_nodup_map hkeys ha hb h

theorem find?_map_of_agree {φ : ForwardRecord → ForwardRecord} {p q : ForwardRecord → Bool}
    (l : List ForwardRecord) (h : ∀ x ∈ l, p (φ x) = q x) :
    (l.map φ).find? p = (l.find? q).map φ := by
  induction l with
  | nil => rfl
  | cons a l ih =>
    have ha : p (φ a) = q a := h a (by simp)
    have hl : ∀ x ∈ l, p (φ x) = q x := fun x hx => h x (List.mem_cons_of_mem _ hx)
    simp only [List.map_cons, List.find?_cons, ha]
    cases q a with
    | true => rfl
    | false => exact ih hl

/-- Selection reads a reloaded pool as it read the pool before the evaluation. -/
theorem selectable_after_evaluation {env : Env} {port : Int} (now2 : Int)
    {store fs : List ForwardRecord} {φ : ForwardRecord → ForwardRecord}
    (hkeys : (store.map (fun r => r.ID)).Nodup) (hfs : ∀ x ∈ fs, x ∈ store)
    (hk : KeepsKeys φ) (hb : BansOnlyFailed env port fs φ) :
    ∀ x ∈ fs, selectable { env with now := now2 } port (φ x) = selectable env port x := by
  intro x hx
  have hdom : (φ x).ForwardDomain = x.ForwardDomain := (hk x).2.2.1
  have hreach : answersReachable { env with now := now2 } port (φ x) =
      answersReachable env port x := by
    unfold answersReachable
    rw [hdom]
  unfold selectable
  rw [hreach]
  cases hr : answersReachable env port x with
  | false => simp
  | true =>
    simp only [Bool.and_true]
    cases hx1 : x.IsBan with
    | true => rw [(hb x).1 hx1]
    | false =>
      cases hx2 : (φ x).IsBan with
      | false => rfl
      | true =>
        exfalso
        rcases (hb x).2 hx2 with h1 | ⟨h, hh, hhr, hid⟩
        · rw [hx1] at h1; cases h1
        · have e : h = x := eq_of_ID_eq hkeys (hfs h hh) (hfs x hx) hid
          rw [e, hr] at hhr; cases hhr

/-! ## Idempotence -/

/-- C5: let the primary of domain `d` answer unreachable, let the rows of the store
have pairwise distinct keys, and evaluate `d` twice with `checkDomain`, each
time on the forwards reloaded from the store, the second time on the store
left by the first and at any clock reading, with the same probe answers.
Both evaluations select the same forward (same key, host and record type, or
none both times) and issue the same DNS update call (same record type and
content, at most one, or none both times). -/
theorem checkDomain_twice_same_outcome (env : Env) (now2 : Int) (d : DomainRecord) (st : State)
    (result : tcpCheckResponseData)
    (hkeys : (st.store.map (fun r => r.ID)).Nodup)
    (hprimary : env.checkConnectivity d.Domain d.Port = some result)
    (hdown : result.Result = false) :
    (∀ s1 s2 : State,
      ((forwardLoop { env with now := now2 } d.Port
        (sortSlice (reloadDomain (checkDomain env (reloadDomain st.store d) st).store d).Forwards)
        [] s2).availableForward.map (fun f => (f.ID, f.ForwardDomain, f.RecordType))) =
      ((forwardLoop env d.Port (sortSlice (reloadDomain st.store d).Forwards)
        [] s1).availableForward.map (fun f => (f.ID, f.ForwardDomain, f.RecordType)))) ∧
    ∃ cs : List DnsUpdateCall, cs.length ≤ 1 ∧
      dnsUpdateCalls (checkDomain env (reloadDomain st.store d) st).trace =
        dnsUpdateCalls st.trace ++ cs ∧
      dnsUpdateCalls (checkDomain { env with now := now2 }
          (reloadDomain (checkDomain env (reloadDomain st.store d) st).store d)
          (checkDomain env (reloadDomain st.store d) st)).trace =
        dnsUpdateCalls (checkDomain env (reloadDomain st.store d) st).trace ++ cs := by
  obtain ⟨φ, hstore, hk, hb⟩ := checkDomain_store env (reloadDomain st.store d) st
  have hport : (reloadDomain st.store d).Port = d.Port := rfl
  rw [hport] at hb
  have hfw : (reloadDomain (checkDomain env (reloadDomain st.store d) st).store d).Forwards =
      (reloadDomain st.store d).Forwards.map φ := by
    show preloadForwards _ d.ID = (preloadForwards st.store d.ID).map φ
    rw [hstore, preloadForwards_map hk]
  have hsort : sortSlice (reloadDomain (checkDomain env (reloadDomain st.store d) st).store
      d).Forwards = (sortSlice (reloadDomain st.store d).Forwards).map φ := by
    rw [hfw, sortSlice_map hk]
  have hmem : ∀ x ∈ sortSlice (reloadDomain st.store d).Forwards, x ∈ st.store := by
    intro x hx
    exact mem_preloadForwards ((mem_sortSlice _ _).1 hx)
  have hsel := selectable_after_evaluation now2 hkeys hmem hk hb
  have hfind : (sortSlice (reloadDomain (checkDomain env (reloadDomain st.store d) st).store
      d).Forwards).find? (selectable { env with now := now2 } d.Port) =
      ((sortSlice (reloadDomain st.store d).Forwards).find? (selectable env d.Port)).map φ := by
    rw [hsort]
    exact find?_map_of_agree _ hsel
  constructor
  · intro s1 s2
    rw [forwardLoop_availableForward, forwardLoop_availableForward, hfind, Option.map_map]
    cases (sortSlice (reloadDomain st.store d).Forwards).find? (selectable env d.Port) with
    | none => rfl
    | some g =>
      simp only [Option.map_some', Function.comp_apply, (hk g).1, (hk g).2.2.1, (hk g).2.2.2.2.2]
  · refine ⟨domainGatewayCalls env (reloadDomain st.store d), domainGatewayCalls_length _ _,
      checkDomain_dnsUpdateCalls _ _ _, ?_⟩
    rw [checkDomain_dnsUpdateCalls]
    congr 1
    unfold domainGatewayCalls
    show (match env.checkConnectivity d.Domain d.Port with
      | none => []
      | some result =>
        if result.Result then []
        else
          match (sortSlice (reloadDomain (checkDomain env (reloadDomain st.store d) st).store
              d).Forwards).find? (selectable { env with now := now2 } d.Port) with
          | none => []
          | some g => gatewayCalls { env with now := now2 }
              (reloadDomain (checkDomain env (reloadDomain st.store d) st).store d) g
              (probedIP { env with now := now2 } d.Port g)) =
      (match env.checkConnectivity d.Domain d.Port with
      | none => []
      | some result =>
        if result.Result then []
        else
          match (sortSlice (reloadDomain st.store d).Forwards).find? (selectable env d.Port) with
          | none => []
          | some g => gatewayCalls env (reloadDomain st.store d) g (probedIP env d.Port g))
    rw [hprimary, hfind]
    simp only [hdown, Bool.false_eq_true, if_false]
    cases (sortSlice (reloadDomain st.store d).Forwards).find? (selectable env d.Port) with
    | none => rfl
    | some g =>
      simp only [Option.map_some']
      unfold gatewayCalls probedIP recordContent
      simp only [(hk g).2.2.1, (hk g).2.2.2.2.2]
      rfl

theorem checkDomain_twice_same_outcome_witness :
    ((exState exPool).store.map (fun r => r.ID)).Nodup ∧
    exEnv.checkConnectivity (exDomain exPool).Domain (exDomain exPool).Port =
      some (exAnswer false "" "dial tcp: i/o timeout") ∧
    (exAnswer false "" "dial tcp: i/o timeout").Result = false ∧
    (∀ s1 s2 : State,
      ((forwardLoop { exEnv with now := 2000 } (exDomain exPool).Port
        (sortSlice (reloadDomain (checkDomain exEnv (reloadDomain (exState exPool).store
          (exDomain exPool)) (exState exPool)).store (exDomain exPool)).Forwards)
        [] s2).availableForward.map (fun f => (f.ID, f.ForwardDomain, f.RecordType))) =
      ((forwardLoop exEnv (exDomain exPool).Port
        (sortSlice (reloadDomain (exState exPool).store (exDomain exPool)).Forwards)
        [] s1).availableForward.map (fun f => (f.ID, f.ForwardDomain, f.RecordType)))) ∧
    ∃ cs : List DnsUpdateCall, cs.length ≤ 1 ∧
      dnsUpdateCalls (checkDomain exEnv (reloadDomain (exState exPool).store (exDomain exPool))
          (exState exPool)).trace =
        dnsUpdateCalls (exState exPool).trace ++ cs ∧
      dnsUpdateCalls (checkDomain { exEnv with now := 2000 }
          (reloadDomain (checkDomain exEnv (reloadDomain (exState exPool).store
            (exDomain exPool)) (exState exPool)).store (exDomain exPool))
          (checkDomain exEnv (reloadDomain (exState exPool).store (exDomain exPool))
            (exState exPool))).trace =
        dnsUpdateCalls (checkDomain exEnv (reloadDomain (exState exPool).store
          (exDomain exPool)) (exState exPool)).trace ++ cs :=
  ⟨by decide, by decide, by decide,
    checkDomain_twice_same_outcome exEnv 2000 (exDomain exPool) (exState exPool)
      (exAnswer false "" "dial tcp: i/o timeout") (by decide) (by decide) (by decide)⟩

/-! ## Report entries of an evaluation -/

theorem appendReport_empty_right (a : CheckReport) : appendReport a emptyReport = a := by
  simp [appendReport, emptyReport]

theorem appendReport_empty_left (a : CheckReport) : appendReport emptyReport a = a := by
  simp [appendReport, emptyReport]

theorem appendReport_assoc (a b c : CheckReport) :
    appendReport (appendReport a b) c = appendReport a (appendReport b c) := by
  simp [appendReport, List.append_assoc]

theorem forwardLoop_report (env : Env) (port : Int) (fs : List ForwardRecord) :
    ∀ (banned : List String) (st : State),
      (forwardLoop env port fs banned st).st.report = st.report := by
  induction fs with
  | nil => intro banned st; rfl
  | cons f rest ih =>
    intro banned st
    unfold forwardLoop
    by_cases hb : f.IsBan = true
    · simp [hb, ih]
    · have hb2 : f.IsBan = false := by simpa using hb
      cases hc : env.checkConnectivity f.ForwardDomain port with
      | none => simp [hb2, hc, ih]
      | some result =>
        by_cases hr : result.Result = true
        · simp [hb2, hc, hr]
        · have hr2 : result.Result = false := by simpa using hr
          by_cases hm : isExhaustedMessage result.Message = true
          · simp [hb2, hc, hr2, hm, ih]
          · simp [hb2, hc, hr2, hm, ih]

theorem forwardLoop_bannedHosts (env : Env) (port : Int) (fs : List ForwardRecord) :
    ∀ (banned : List String) (st : State),
      (forwardLoop env port fs banned st).bannedForwards = banned ++ bannedHosts env port fs := by
  induction fs with
  | nil => intro banned st; simp [forwardLoop, bannedHosts]
  | cons f rest ih =>
    intro banned st
    unfold forwardLoop bannedHosts
    by_cases hb : f.IsBan = true
    · simp [hb, ih]
    · have hb2 : f.IsBan = false := by simpa using hb
      cases hc : env.checkConnectivity f.ForwardDomain port with
      | none => simp [hb2, hc, ih]
      | some result =>
        by_cases hr : result.Result = true
        · simp [hb2, hc, hr]
        · have hr2 : result.Result = false := by simpa using hr
          by_cases hm : isExhaustedMessage result.Message = true
          · simp [hb2, hc, hr2, hm, ih]
          · simp [hb2, hc, hr2, hm, ih]

theorem updateToCloudflare_report (env : Env) (d : DomainRecord) (f : ForwardRecord)
    (ip : String) (st : State) :
    (updateToCloudflare env d f ip st).report =
      appendReport st.report { emptyReport with SwitchedDomains := switchEntries env d f ip } := by
  unfold updateToCloudflare switchEntries
  by_cases h1 : d.RecordId = ""
  · simp [h1, appendReport, emptyReport]
  · by_cases h2 : env.clientOk = false
    · simp [h1, h2, appendReport, emptyReport]
    · cases h3 : recordContent f ip with
      | none => simp [h1, h2, h3, appendReport, emptyReport]
      | some content =>
        by_cases h4 : (UpdateDNSRecordByID env (DnsUpdateCall.mk d.Domain d.ZoneId d.RecordId
            f.RecordType d.Domain content env.ttl false)).2 = false
        · simp [h1, h2, h3, h4, appendReport, emptyReport]
        · simp [h1, h2, h3, h4, appendReport, emptyReport, operate.UpdateForwardResolveStatus]

theorem reportBanned_report (r : LoopResult) :
    (reportBanned r).report =
      appendReport r.st.report { emptyReport with BannedForwards := r.bannedForwards } := by
  unfold reportBanned
  by_cases h : r.bannedForwards.length > 0
  · simp [h, appendReport, emptyReport]
  · have hnil : r.bannedForwards = [] := by
      cases hb : r.bannedForwards with
      | nil => rfl
      | cons a l => rw [hb] at h; simp at h
    simp [hnil, appendReport, emptyReport]

theorem checkForwardPool_report (env : Env) (d : DomainRecord) (st : State) :
    (checkForwardPool env d st).report = appendReport st.report (poolReport env d) := by
  unfold checkForwardPool poolReport
  by_cases h0 : d.Forwards.length = 0
  · simp [h0, appendNoForward, appendReport, emptyReport]
  · simp only [h0, if_false]
    unfold finishPool
    have ha := forwardLoop_availableForward env d.Port (sortSlice d.Forwards) [] st
    have hi := forwardLoop_resolvedIP env d.Port (sortSlice d.Forwards) [] st
    have hr := forwardLoop_report env d.Port (sortSlice d.Forwards) [] st
    have hb := forwardLoop_bannedHosts env d.Port (sortSlice d.Forwards) [] st
    cases hf : (sortSlice d.Forwards).find? (selectable env d.Port) with
    | none =>
      rw [hf] at ha
      simp only [ha, appendNoForward, reportBanned_report, hr, hb]
      simp [appendReport, emptyReport]
    | some g =>
      rw [hf] at ha hi
      simp only [ha, hi, updateToCloudflare_report, reportBanned_report, hr, hb]
      simp [appendReport, emptyReport]

theorem checkDomain_report (env : Env) (d : DomainRecord) (st : State) :
    (checkDomain env d st).report = appendReport st.report (domainReport env d) := by
  unfold checkDomain domainReport
  cases hc : env.checkConnectivity d.Domain d.Port with
  | none => simp [appendFailed, appendReport, emptyReport]
  | some result =>
    by_cases hr : result.Result = true
    · simp [hr, appendReport, emptyReport]
    · have hr2 : result.Result = false := by simpa using hr
      simp only [hr2, Bool.false_eq_true, if_false, checkForwardPool_report]
      simp [appendDisconnected, appendReport, emptyReport]

/-! ## No available forward -/

/-- C11: when the primary answers unreachable and every forward of the pool is
banned or its probe does not answer reachable, `checkDomain` appends the one
entry `domain:port` to `NoForwardDomains`, leaves `SwitchedDomains` as it
was and makes no DNS update call. -/
theorem checkDomain_no_available_forward (env : Env) (d : DomainRecord) (st : State)
    (result : tcpCheckResponseData)
    (hprimary : env.checkConnectivity d.Domain d.Port = some result)
    (hdown : result.Result = false)
    (hpool : d.Forwards ≠ [])
    (hall : ∀ f ∈ d.Forwards, f.IsBan = true ∨ answersReachable env d.Port f = false) :
    (checkDomain env d st).report.NoForwardDomains =
      st.report.NoForwardDomains ++ [d.Domain ++ ":" ++ toString d.Port] ∧
    (checkDomain env d st).report.SwitchedDomains = st.report.SwitchedDomains ∧
    dnsUpdateCalls (checkDomain env d st).trace = dnsUpdateCalls st.trace := by
  have hfind : (sortSlice d.Forwards).find? (selectable env d.Port) = none := by
    rw [List.find?_eq_none]
    intro x hx
    rcases hall x ((mem_sortSlice _ _).1 hx) with h | h
    · simp [selectable, h]
    · simp [selectable, h]
  have hlen : ¬ d.Forwards.length = 0 := fun h => hpool (List.length_eq_zero.1 h)
  refine ⟨?_, ?_, ?_⟩
  · rw [checkDomain_report]
    simp [domainReport, hprimary, hdown, poolReport, hlen, hfind, appendReport, emptyReport,
      sprintfHostPort]
  · rw [checkDomain_report]
    simp [domainReport, hprimary, hdown, poolReport, hlen, hfind, appendReport, emptyReport]
  · rw [checkDomain_dnsUpdateCalls]
    simp [domainGatewayCalls, hprimary, hdown, hfind]

theorem checkDomain_no_available_forward_witness :
    exEnv.checkConnectivity (exDomain exPoolDown).Domain (exDomain exPoolDown).Port =
      some (exAnswer false "" "dial tcp: i/o timeout") ∧
    (∀ f ∈ (exDomain exPoolDown).Forwards,
      f.IsBan = true ∨ answersReachable exEnv (exDomain exPoolDown).Port f = false) ∧
    (checkDomain exEnv (exDomain exPoolDown) (exState exPoolDown)).report.NoForwardDomains =
      (exState exPoolDown).report.NoForwardDomains ++
        [(exDomain exPoolDown).Domain ++ ":" ++ toString (exDomain exPoolDown).Port] ∧
    (checkDomain exEnv (exDomain exPoolDown) (exState exPoolDown)).report.SwitchedDomains =
      (exState exPoolDown).report.SwitchedDomains ∧
    dnsUpdateCalls (checkDomain exEnv (exDomain exPoolDown) (exState exPoolDown)).trace =
      dnsUpdateCalls (exState exPoolDown).trace :=
  ⟨by decide, by decide,
    checkDomain_no_available_forward exEnv (exDomain exPoolDown) (exState exPoolDown)
      (exAnswer false "" "dial tcp: i/o timeout") (by decide) (by decide) (by decide)
      (by decide)⟩

/-! ## The DNS commit -/

theorem UpdateDNSRecordByID_record (env : Env) (c : DnsUpdateCall) (zone : String)
    (record : UpdateDNSRecordParams)
    (h : Effect.apiUpdateDNSRecord zone record ∈ (UpdateDNSRecordByID env c).1) :
    record.Content = c.content ∧ record.Type_ = c.recordType ∧ record.ID = c.recordID ∧
      record.Name = c.name := by
  unfold UpdateDNSRecordByID at h
  by_cases hz : c.zoneId = ""
  · cases hl : env.zoneIDByName (extractRootDomain c.domain) with
    | none => simp [hz, hl] at h
    | some z =>
      simp only [hz, hl, ne_eq, not_true_eq_false, if_false, List.mem_cons,
        List.mem_singleton, List.not_mem_nil, or_false] at h
      rcases h with h | h
      · cases h
      · cases h; exact ⟨rfl, rfl, rfl, rfl⟩
  · simp only [hz, ne_eq, not_false_eq_true, if_true, List.mem_singleton] at h
    cases h; exact ⟨rfl, rfl, rfl, rfl⟩

theorem forwardLoop_resolvedIP_of_selected (env : Env) (port : Int) (fs : List ForwardRecord)
    (banned : List String) (st : State) (g : ForwardRecord)
    (h : (forwardLoop env port fs banned st).availableForward = some g) :
    (forwardLoop env port fs banned st).resolvedIP = probedIP env port g := by
  rw [forwardLoop_availableForward] at h
  rw [forwardLoop_resolvedIP, h]

/-- C12: with a record ID and a Cloudflare client, the one DNS update call of
`updateToCloudflare` carries the resolved IP as content when the forward has
record type A and the host name of the forward when it has record type
CNAME, and the gateway passes that content on to the Cloudflare API. The
resolved IP is the IP reported by the probe of the selected forward. When
the call returns nil and the store accepts the status write, the row of the
forward holds the resolved IP, for both record types. -/
theorem updateToCloudflare_content_by_type (env : Env) (d : DomainRecord) (f : ForwardRecord)
    (resolvedIP : String) (st : State)
    (hrec : d.RecordId ≠ "") (hclient : env.clientOk = true) :
    (f.RecordType = "A" →
      dnsUpdateCalls (updateToCloudflare env d f resolvedIP st).trace =
        dnsUpdateCalls st.trace ++
          [DnsUpdateCall.mk d.Domain d.ZoneId d.RecordId "A" d.Domain resolvedIP env.ttl false]) ∧
    (f.RecordType = "CNAME" →
      dnsUpdateCalls (updateToCloudflare env d f resolvedIP st).trace =
        dnsUpdateCalls st.trace ++
          [DnsUpdateCall.mk d.Domain d.ZoneId d.RecordId "CNAME" d.Domain f.ForwardDomain
            env.ttl false]) ∧
    (∀ (c : DnsUpdateCall) (zone : String) (record : UpdateDNSRecordParams),
      Effect.apiUpdateDNSRecord zone record ∈ (UpdateDNSRecordByID env c).1 →
      record.Content = c.content) ∧
    (∀ (fs : List ForwardRecord) (banned : List String) (s : State),
      (forwardLoop env d.Port fs banned s).availableForward = some f →
      (forwardLoop env d.Port fs banned s).resolvedIP = probedIP env d.Port f) ∧
    (∀ content : String, recordContent f resolvedIP = some content →
      (UpdateDNSRecordByID env (DnsUpdateCall.mk d.Domain d.ZoneId d.RecordId f.RecordType
        d.Domain content env.ttl false)).2 = true →
      env.dbOk DbOp.updateForwardResolveStatus = true → f.ID ≠ 0 →
      ∀ r ∈ (updateToCloudflare env d f resolvedIP st).store, r.ID = f.ID →
        r.IP = resolvedIP) := by
  refine ⟨?_, ?_, ?_, ?_, ?_⟩
  · intro hA
    rw [updateToCloudflare_dnsUpdateCalls]
    simp [gatewayCalls, hrec, hclient, recordContent, hA]
  · intro hC
    rw [updateToCloudflare_dnsUpdateCalls]
    have hA : ¬ f.RecordType = "A" := by rw [hC]; decide
    simp [gatewayCalls, hrec, hclient, recordContent, hA, hC]
  · intro c zone record h
    exact (UpdateDNSRecordByID_record env c zone record h).1
  · intro fs banned s h
    exact forwardLoop_resolvedIP_of_selected env d.Port fs banned s f h
  · intro content hcontent hdns hdb hid r hr hrid
    unfold updateToCloudflare at hr
    simp only [hrec, hclient, hcontent, hdns, if_false, Bool.true_eq_false] at hr
    unfold operate.UpdateForwardResolveStatus at hr
    simp only at hr
    rw [modelUpdates_accepted env _ _ _ _ hdb hid] at hr
    obtain ⟨r0, _, hr0⟩ := List.mem_map.1 hr
    by_cases h1 : r0.ID = f.ID
    · simp only [h1, if_true] at hr0
      rw [← hr0]
    · simp only [h1, if_false] at hr0
      rw [← hr0] at hrid
      exact absurd hrid h1

theorem updateToCloudflare_content_by_type_witness :
    exForwardCname.RecordType = "CNAME" ∧
    dnsUpdateCalls (updateToCloudflare exEnv (exDomain [exForwardCname]) exForwardCname
        "192.0.2.7" (exState [exForwardCname])).trace =
      dnsUpdateCalls (exState [exForwardCname]).trace ++
        [DnsUpdateCall.mk "api.example.com" "zone-1" "rec-1" "CNAME" "api.example.com"
          "up.example" 60 false] ∧
    (∀ r ∈ (updateToCloudflare exEnv (exDomain [exForwardCname]) exForwardCname
        "192.0.2.7" (exState [exForwardCname])).store, r.ID = exForwardCname.ID →
      r.IP = "192.0.2.7") :=
  ⟨by decide,
    (updateToCloudflare_content_by_type exEnv (exDomain [exForwardCname]) exForwardCname
      "192.0.2.7" (exState [exForwardCname]) (by decide) (by decide)).2.1 (by decide),
    (updateToCloudflare_content_by_type exEnv (exDomain [exForwardCname]) exForwardCname
      "192.0.2.7" (exState [exForwardCname]) (by decide) (by decide)).2.2.2.2
      "up.example" (by decide) (by decide) (by decide) (by decide)⟩

/-- C13 (as contradicted by the code): for the example domain with a record ID and
an empty zone ID the commit is not skipped: `updateToCloudflare` makes the
DNS update call, the gateway looks the zone up by the root domain
`example.com` and updates the record, and the forward is marked `success`. -/
theorem empty_zone_id_is_looked_up :
    exDomainNoZone.ZoneId = "" ∧
    (updateToCloudflare exEnv exDomainNoZone (exForward 2 "up.example" false 0 20 "never")
        "192.0.2.7" (exState exPool)).trace =
      [Effect.updateDNSRecordByID
         (DnsUpdateCall.mk "api.example.com" "" "rec-1" "A" "api.example.com" "192.0.2.7" 60
           false),
       Effect.zoneIDByName "example.com",
       Effect.apiUpdateDNSRecord "zone-1"
         (UpdateDNSRecordParams.mk "rec-1" "A" "api.example.com" "192.0.2.7" 60 false)] ∧
    (updateToCloudflare exEnv exDomainNoZone (exForward 2 "up.example" false 0 20 "never")
        "192.0.2.7" (exState exPool)).store.map (fun r => (r.ID, r.ResolveStatus)) =
      [(1, "never"), (2, "success"), (3, "never")] := by
  decide

/-- C13 (amended): when the persisted record ID of the domain is empty,
`updateToCloudflare` changes nothing: no DNS update call, no zone lookup, no
resolve status change; the same holds when the Cloudflare client is not
available and when the record type of the forward is neither `A` nor `CNAME`
(the record content exists for these two types only). When the record ID is
present, the client is available and the record type is `A` or `CNAME`, an
empty zone ID does not skip the commit: the DNS update call is issued with
the empty zone ID and the gateway looks the zone up by the root domain of
the host name, then updates the record when the lookup succeeds and makes no
further call when it fails. -/
theorem updateToCloudflare_skips_without_record_id (env : Env) (d : DomainRecord)
    (f : ForwardRecord) (resolvedIP : String) (st : State) :
    (d.RecordId = "" → updateToCloudflare env d f resolvedIP st = st) ∧
    (env.clientOk = false → updateToCloudflare env d f resolvedIP st = st) ∧
    (f.RecordType ≠ "A" → f.RecordType ≠ "CNAME" →
      updateToCloudflare env d f resolvedIP st = st) ∧
    ((∃ content : String, recordContent f resolvedIP = some content) ↔
      (f.RecordType = "A" ∨ f.RecordType = "CNAME")) ∧
    (d.RecordId ≠ "" → d.ZoneId = "" → env.clientOk = true →
      ∀ content : String, recordContent f resolvedIP = some content →
        ∃ rest : List Effect,
          (updateToCloudflare env d f resolvedIP st).trace =
            st.trace ++
              [Effect.updateDNSRecordByID (DnsUpdateCall.mk d.Domain "" d.RecordId f.RecordType
                 d.Domain content env.ttl false),
               Effect.zoneIDByName (extractRootDomain d.Domain)] ++ rest ∧
          ((env.zoneIDByName (extractRootDomain d.Domain) = none ∧ rest = []) ∨
            ∃ zone, env.zoneIDByName (extractRootDomain d.Domain) = some zone ∧
              rest = [Effect.apiUpdateDNSRecord zone
                (UpdateDNSRecordParams.mk d.RecordId f.RecordType d.Domain content env.ttl
                  false)])) := by
  refine ⟨?_, ?_, ?_, ?_, ?_⟩
  · intro h
    unfold updateToCloudflare
    simp [h]
  · intro h
    unfold updateToCloudflare
    simp [h]
  · intro hA hC
    unfold updateToCloudflare recordContent
    simp [hA, hC]
  · unfold recordContent
    by_cases hA : f.RecordType = "A"
    · simp [hA]
    · by_cases hC : f.RecordType = "CNAME"
      · simp [hA, hC]
      · simp [hA, hC]
  · intro hrec hzone hclient content hcontent
    have hu : UpdateDNSRecordByID env (DnsUpdateCall.mk d.Domain "" d.RecordId f.RecordType
        d.Domain content env.ttl false) =
        match env.zoneIDByName (extractRootDomain d.Domain) with
        | none => ([Effect.zoneIDByName (extractRootDomain d.Domain)], false)
        | some zoneID =>
          ([Effect.zoneIDByName (extractRootDomain d.Domain),
            Effect.apiUpdateDNSRecord zoneID
              (UpdateDNSRecordParams.mk d.RecordId f.RecordType d.Domain content env.ttl false)],
            env.apiUpdateDNSRecord zoneID
              (UpdateDNSRecordParams.mk d.RecordId f.RecordType d.Domain content
                env.ttl false)) := by
      unfold UpdateDNSRecordByID
      simp
    rcases updateToCloudflare_trace env d f resolvedIP st with h | ⟨call, h⟩
    · exfalso
      have hd := updateToCloudflare_dnsUpdateCalls env d f resolvedIP st
      rw [h] at hd
      simp [gatewayCalls, hrec, hclient, hcontent] at hd
    · have hd := updateToCloudflare_dnsUpdateCalls env d f resolvedIP st
      rw [h, dnsUpdateCalls_append] at hd
      have hcall : call = DnsUpdateCall.mk d.Domain "" d.RecordId f.RecordType d.Domain content
          env.ttl false := by
        have h2 := dnsUpdateCalls_UpdateDNSRecordByID env call
        simp only [gatewayCalls, hrec, hclient, hcontent, hzone, if_false, Bool.true_eq_false,
          List.append_cancel_left_eq] at hd
        have h3 : dnsUpdateCalls (Effect.updateDNSRecordByID call ::
            (UpdateDNSRecordByID env call).1) = [call] := by
          simpa [dnsUpdateCalls] using h2
        rw [h3] at hd
        exact (List.cons.inj hd).1
      rw [hcall, hu] at h
      cases hl : env.zoneIDByName (extractRootDomain d.Domain) with
      | none =>
        rw [hl] at h
        exact ⟨[], by rw [h]; simp, Or.inl ⟨rfl, rfl⟩⟩
      | some zone =>
        rw [hl] at h
        exact ⟨_, by rw [h]; simp, Or.inr ⟨zone, rfl, rfl⟩⟩

theorem updateToCloudflare_skips_without_record_id_witness :
    exDomainNoRecord.RecordId = "" ∧
    updateToCloudflare exEnv exDomainNoRecord (exForward 2 "up.example" false 0 20 "never")
      "192.0.2.7" (exState exPool) = exState exPool ∧
    exEnvNoClient.clientOk = false ∧
    updateToCloudflare exEnvNoClient exDomainNoZone
      (exForward 2 "up.example" false 0 20 "never") "192.0.2.7" (exState exPool) =
        exState exPool ∧
    exForwardAAAA.RecordType = "AAAA" ∧
    updateToCloudflare exEnv exDomainNoZone exForwardAAAA "192.0.2.7" (exState exPool) =
      exState exPool ∧
    exDomainNoZone.RecordId ≠ "" ∧ exDomainNoZone.ZoneId = "" ∧ exEnv.clientOk = true ∧
    ∃ rest : List Effect,
      (updateToCloudflare exEnv exDomainNoZone (exForward 2 "up.example" false 0 20 "never")
          "192.0.2.7" (exState exPool)).trace =
        (exState exPool).trace ++
          [Effect.updateDNSRecordByID (DnsUpdateCall.mk exDomainNoZone.Domain ""
             exDomainNoZone.RecordId (exForward 2 "up.example" false 0 20 "never").RecordType
             exDomainNoZone.Domain "192.0.2.7" exEnv.ttl false),
           Effect.zoneIDByName (extractRootDomain exDomainNoZone.Domain)] ++ rest ∧
      ((exEnv.zoneIDByName (extractRootDomain exDomainNoZone.Domain) = none ∧ rest = []) ∨
        ∃ zone, exEnv.zoneIDByName (extractRootDomain exDomainNoZone.Domain) = some zone ∧
          rest = [Effect.apiUpdateDNSRecord zone
            (UpdateDNSRecordParams.mk exDomainNoZone.RecordId
              (exForward 2 "up.example" false 0 20 "never").RecordType exDomainNoZone.Domain
              "192.0.2.7" exEnv.ttl false)]) :=
  ⟨by decide,
    (updateToCloudflare_skips_without_record_id exEnv exDomainNoRecord
      (exForward 2 "up.example" false 0 20 "never") "192.0.2.7" (exState exPool)).1 (by decide),
    by decide,
    (updateToCloudflare_skips_without_record_id exEnvNoClient exDomainNoZone
      (exForward 2 "up.example" false 0 20 "never") "192.0.2.7" (exState exPool)).2.1
      (by decide),
    by decide,
    (updateToCloudflare_skips_without_record_id exEnv exDomainNoZone exForwardAAAA
      "192.0.2.7" (exState exPool)).2.2.1 (by decide) (by decide),
    by decide, by decide, by decide,
    (updateToCloudflare_skips_without_record_id exEnv exDomainNoZone
      (exForward 2 "up.example" false 0 20 "never") "192.0.2.7" (exState exPool)).2.2.2.2
      (by decide) (by decide) (by decide) "192.0.2.7" (by decide)⟩

/-- C14 (as contradicted by the code): with a Cloudflare API that refuses the
update, the cycle over the example domain selects `up.example`, the DNS
update call returns an error, and the report of the cycle holds the
disconnected entry and the ban of `dead.example` only: none of its five
lists has an entry for the failed DNS update. -/
theorem dns_failure_not_in_report :
    (UpdateDNSRecordByID exEnvDnsFail
      (DnsUpdateCall.mk "api.example.com" "zone-1" "rec-1" "A" "api.example.com" "192.0.2.7" 60
        false)).2 = false ∧
    dnsUpdateCalls (performAutoCheck exEnvDnsFail "" (some [exDomain exPool])
        (exState exPool)).1.trace =
      [DnsUpdateCall.mk "api.example.com" "zone-1" "rec-1" "A" "api.example.com" "192.0.2.7" 60
        false] ∧
    (performAutoCheck exEnvDnsFail "" (some [exDomain exPool]) (exState exPool)).1.report =
      { FailedDomains := []
        DisconnectedDomains := [DomainFailure.mk "api.example.com" 443 "连接超时"]
        BannedForwards := ["dead.example"]
        SwitchedDomains := []
        NoForwardDomains := [] } := by
  decide

/-- C14 (amended): when the DNS update call for the selected forward returns an
error, `updateToCloudflare` only appends the call to the trace: the report
gains no entry and the store and the counter are unchanged; the cycle goes
on with the next domain. -/
theorem updateToCloudflare_dns_error (env : Env) (d : DomainRecord) (f : ForwardRecord)
    (resolvedIP content : String) (st : State)
    (hrec : d.RecordId ≠ "") (hclient : env.clientOk = true)
    (hcontent : recordContent f resolvedIP = some content)
    (hdns : (UpdateDNSRecordByID env (DnsUpdateCall.mk d.Domain d.ZoneId d.RecordId
      f.RecordType d.Domain content env.ttl false)).2 = false) :
    updateToCloudflare env d f resolvedIP st =
      { store := st.store
        apiFailureCount := st.apiFailureCount
        report := st.report
        trace := st.trace ++
          Effect.updateDNSRecordByID (DnsUpdateCall.mk d.Domain d.ZoneId d.RecordId
            f.RecordType d.Domain content env.ttl false) ::
          (UpdateDNSRecordByID env (DnsUpdateCall.mk d.Domain d.ZoneId d.RecordId
            f.RecordType d.Domain content env.ttl false)).1 } ∧
    (∀ (ds : List DomainRecord) (s : State), d.IsDisableCheck = false →
      checkDomains env (d :: ds) s = checkDomains env ds (checkDomain env d s)) := by
  constructor
  · unfold updateToCloudflare
    simp [hrec, hclient, hcontent, hdns]
  · intro ds s hd
    rw [checkDomains]
    simp [hd]

theorem updateToCloudflare_dns_error_witness :
    (UpdateDNSRecordByID exEnvDnsFail (DnsUpdateCall.mk (exDomain exPool).Domain
      (exDomain exPool).ZoneId (exDomain exPool).RecordId
      (exForward 2 "up.example" false 0 20 "never").RecordType (exDomain exPool).Domain
      "192.0.2.7" exEnvDnsFail.ttl false)).2 = false ∧
    updateToCloudflare exEnvDnsFail (exDomain exPool)
        (exForward 2 "up.example" false 0 20 "never") "192.0.2.7" (exState exPool) =
      { store := (exState exPool).store
        apiFailureCount := (exState exPool).apiFailureCount
        report := (exState exPool).report
        trace := (exState exPool).trace ++
          Effect.updateDNSRecordByID (DnsUpdateCall.mk (exDomain exPool).Domain
            (exDomain exPool).ZoneId (exDomain exPool).RecordId
            (exForward 2 "up.example" false 0 20 "never").RecordType (exDomain exPool).Domain
            "192.0.2.7" exEnvDnsFail.ttl false) ::
          (UpdateDNSRecordByID exEnvDnsFail (DnsUpdateCall.mk (exDomain exPool).Domain
            (exDomain exPool).ZoneId (exDomain exPool).RecordId
            (exForward 2 "up.example" false 0 20 "never").RecordType (exDomain exPool).Domain
            "192.0.2.7" exEnvDnsFail.ttl false)).1 } :=
  ⟨by decide,
    (updateToCloudflare_dns_error exEnvDnsFail (exDomain exPool)
      (exForward 2 "up.example" false 0 20 "never") "192.0.2.7" "192.0.2.7" (exState exPool)
      (by decide) (by decide) (by decide) (by decide)).1⟩

/-! ## The digest -/

theorem domainReport_noForward_le (env : Env) (d : DomainRecord) :
    (domainReport env d).NoForwardDomains.length ≤
      (domainReport env d).DisconnectedDomains.length := by
  unfold domainReport
  cases hc : env.checkConnectivity d.Domain d.Port with
  | none => simp [emptyReport]
  | some result =>
    by_cases hr : result.Result = true
    · simp [hr, emptyReport]
    · have hr2 : result.Result = false := by simpa using hr
      simp only [hr2, Bool.false_eq_true, if_false, appendReport, emptyReport, poolReport,
        List.nil_append, List.length_append, List.length_singleton, List.length_nil]
      by_cases h0 : d.Forwards.length = 0
      · simp [h0]
      · cases hf : (sortSlice d.Forwards).find? (selectable env d.Port) <;> simp [h0]

theorem checkDomains_noForward_le (env : Env) (ds : List DomainRecord) :
    ∀ st : State,
      st.report.NoForwardDomains.length ≤ st.report.DisconnectedDomains.length →
      (checkDomains env ds st).report.NoForwardDomains.length ≤
        (checkDomains env ds st).report.DisconnectedDomains.length := by
  induction ds with
  | nil => intro st h; exact h
  | cons d ds ih =>
    intro st h
    unfold checkDomains
    by_cases hd : d.IsDisableCheck = true
    · simp only [hd, if_true]; exact ih st h
    · have hd2 : d.IsDisableCheck = false := by simpa using hd
      simp only [hd2, Bool.false_eq_true, if_false]
      apply ih
      rw [checkDomain_report]
      have h2 := domainReport_noForward_le env d
      simp only [appendReport, List.length_append]
      omega

/-- C15: when the report of a scheduled cycle has no disconnected domain, no banned
forward and no switch, and the API failure counter is below the configured
threshold when the report is sent, `sendReport` returns without sending: the
cycle hands no digest to `notifyAdmins`. -/
theorem sendReport_suppressed (env : Env) (timeText : String)
    (domains : Option (List DomainRecord)) (st : State)
    (hdisc : (performAutoCheck env timeText domains st).1.report.DisconnectedDomains = [])
    (hban : (performAutoCheck env timeText domains st).1.report.BannedForwards = [])
    (hswitch : (performAutoCheck env timeText domains st).1.report.SwitchedDomains = [])
    (hcount : (performAutoCheck env timeText domains st).1.apiFailureCount < env.apiFail) :
    (performAutoCheck env timeText domains st).2 = none := by
  cases domains with
  | none => rfl
  | some ds =>
    simp only [performAutoCheck] at *
    have hle := checkDomains_noForward_le env ds { st with report := emptyReport }
      (by simp [emptyReport])
    rw [hdisc] at hle
    have hno : (checkDomains env ds { st with report := emptyReport }).report.NoForwardDomains
        = [] := List.length_eq_zero.1 (Nat.le_zero.1 hle)
    unfold sendReport shouldSend shouldSendApiFailureNotification
    have hc : ¬ (checkDomains env ds { st with report := emptyReport }).apiFailureCount
        ≥ env.apiFail := by omega
    simp [hdisc, hban, hswitch, hno, hc]

theorem sendReport_suppressed_witness :
    (performAutoCheck exEnv "" (some [exDomainUp, exDomainErr])
      (exState exPool)).1.report.DisconnectedDomains = [] ∧
    (performAutoCheck exEnv "" (some [exDomainUp, exDomainErr])
      (exState exPool)).1.report.FailedDomains = ["err.example:443"] ∧
    (performAutoCheck exEnv "" (some [exDomainUp, exDomainErr])
      (exState exPool)).1.apiFailureCount < exEnv.apiFail ∧
    (performAutoCheck exEnv "" (some [exDomainUp, exDomainErr]) (exState exPool)).2 = none :=
  ⟨by decide, by decide, by decide,
    sendReport_suppressed exEnv "" (some [exDomainUp, exDomainErr]) (exState exPool)
      (by decide) (by decide) (by decide) (by decide)⟩

theorem failedHeader_mem_reportLines (env : Env) (timeText : String) (st : State) :
    ReportLine.failedHeader ∈ reportLines env timeText st ↔
      st.report.FailedDomains ≠ [] ∧ st.apiFailureCount ≥ env.apiFail := by
  unfold reportLines shouldSendApiFailureNotification
  by_cases h1 : st.report.FailedDomains = []
  · simp [h1]
  · have h2 : st.report.FailedDomains.length > 0 := List.length_pos.2 h1
    by_cases h3 : st.apiFailureCount ≥ env.apiFail
    · simp [h1, h2, h3]
    · simp [h1, h2, h3]

theorem failed_mem_reportLines (env : Env) (timeText : String) (st : State) (x : String)
    (c : Int) :
    ReportLine.failed x c ∈ reportLines env timeText st ↔
      x ∈ st.report.FailedDomains ∧ c = st.apiFailureCount ∧
        st.apiFailureCount ≥ env.apiFail := by
  unfold reportLines shouldSendApiFailureNotification
  by_cases h1 : st.report.FailedDomains = []
  · simp [h1]
  · have h2 : st.report.FailedDomains.length > 0 := List.length_pos.2 h1
    by_cases h3 : st.apiFailureCount ≥ env.apiFail
    · simp [h2, h3]
      constructor
      · rintro ⟨a, ha, hax, hc⟩
        exact ⟨hax ▸ ha, hc.symm⟩
      · rintro ⟨hx, hc⟩
        exact ⟨x, hx, rfl, hc.symm⟩
    · simp [h2, h3]

theorem performAutoCheck_primary_error (env : Env) (timeText : String) (d : DomainRecord)
    (st : State) (herr : env.checkConnectivity d.Domain d.Port = none)
    (henabled : d.IsDisableCheck = false) :
    (performAutoCheck env timeText (some [d]) st).1.apiFailureCount = st.apiFailureCount + 1 ∧
    (performAutoCheck env timeText (some [d]) st).1.report =
      { emptyReport with FailedDomains := [sprintfHostPort d.Domain d.Port] } := by
  simp [performAutoCheck, checkDomains, henabled, checkDomain, herr, appendFailed,
    incrementApiFailureCount, emptyReport]

theorem sendReport_of_failure_gate (env : Env) (timeText : String) (st : State)
    (hfailed : st.report.FailedDomains ≠ []) (hcount : st.apiFailureCount ≥ env.apiFail) :
    sendReport env timeText st =
      some (String.join ((reportLines env timeText st).map ReportLine.render)) := by
  have h2 : st.report.FailedDomains.length > 0 := List.length_pos.2 hfailed
  simp [sendReport, shouldSend, shouldSendApiFailureNotification, h2, hcount]

theorem sendReport_isSome_of_quiet (env : Env) (timeText : String) (st : State)
    (hdisc : st.report.DisconnectedDomains = []) (hban : st.report.BannedForwards = [])
    (hswitch : st.report.SwitchedDomains = []) (hno : st.report.NoForwardDomains = []) :
    (sendReport env timeText st).isSome = true ↔
      st.report.FailedDomains ≠ [] ∧ st.apiFailureCount ≥ env.apiFail := by
  unfold sendReport shouldSend shouldSendApiFailureNotification
  by_cases h1 : st.report.FailedDomains = []
  · simp [hdisc, hban, hswitch, hno, h1]
  · have h2 : st.report.FailedDomains.length > 0 := List.length_pos.2 h1
    by_cases h3 : st.apiFailureCount ≥ env.apiFail
    · simp [hdisc, hban, hswitch, hno, h1, h2, h3]
    · simp [hdisc, hban, hswitch, hno, h1, h2, h3]

/-- C16 (as contradicted by the code): with threshold 3 and the counter at zero,
three successive cycles check `err.example`, whose primary probe returns an
error in every cycle, and after it `up.example`, whose primary probe returns
without error. In each cycle the error adds `err.example:443` to
`FailedDomains` and raises the counter to 1 (line 137), and the probe of
`up.example` puts it back to 0 (line 145), so that at report time the
counter is 0 and `sendReport` hands no digest to `notifyAdmins`: the third
cycle sends nothing either. -/
theorem failure_gate_reset_by_later_probe :
    exEnv.apiFail = 3 ∧ (exState exPool).apiFailureCount = 0 ∧
    exEnv.checkConnectivity exDomainErr.Domain exDomainErr.Port = none ∧
    exDomainErr.IsDisableCheck = false ∧ exDomainUp.IsDisableCheck = false ∧
    (checkDomain exEnv exDomainErr
      { exState exPool with report := emptyReport }).apiFailureCount = 1 ∧
    (performAutoCheck exEnv "t1" (some [exDomainErr, exDomainUp])
      (exState exPool)).1.report.FailedDomains = ["err.example:443"] ∧
    (performAutoCheck exEnv "t1" (some [exDomainErr, exDomainUp])
      (exState exPool)).1.apiFailureCount = 0 ∧
    (performAutoCheck exEnv "t1" (some [exDomainErr, exDomainUp]) (exState exPool)).2 = none ∧
    (performAutoCheck exEnv "t2" (some [exDomainErr, exDomainUp])
      (performAutoCheck exEnv "t1" (some [exDomainErr, exDomainUp])
        (exState exPool)).1).1.report.FailedDomains = ["err.example:443"] ∧
    (performAutoCheck exEnv "t2" (some [exDomainErr, exDomainUp])
      (performAutoCheck exEnv "t1" (some [exDomainErr, exDomainUp])
        (exState exPool)).1).1.apiFailureCount = 0 ∧
    (performAutoCheck exEnv "t2" (some [exDomainErr, exDomainUp])
      (performAutoCheck exEnv "t1" (some [exDomainErr, exDomainUp])
        (exState exPool)).1).2 = none ∧
    (performAutoCheck exEnv "t3" (some [exDomainErr, exDomainUp])
      (performAutoCheck exEnv "t2" (some [exDomainErr, exDomainUp])
        (performAutoCheck exEnv "t1" (some [exDomainErr, exDomainUp])
          (exState exPool)).1).1).1.report.FailedDomains = ["err.example:443"] ∧
    (performAutoCheck exEnv "t3" (some [exDomainErr, exDomainUp])
      (performAutoCheck exEnv "t2" (some [exDomainErr, exDomainUp])
        (performAutoCheck exEnv "t1" (some [exDomainErr, exDomainUp])
          (exState exPool)).1).1).1.apiFailureCount = 0 ∧
    (performAutoCheck exEnv "t3" (some [exDomainErr, exDomainUp])
      (performAutoCheck exEnv "t2" (some [exDomainErr, exDomainUp])
        (performAutoCheck exEnv "t1" (some [exDomainErr, exDomainUp])
          (exState exPool)).1).1).2 = none := by
  refine ⟨by decide, by decide, by decide, by decide, by decide, by decide, by decide,
    by decide, by decide, by decide, by decide, by decide, by decide, by decide, by decide⟩

/-- C16 (amended): the digest of `sendReport` holds the failure header and one
failure entry per failed domain exactly when `FailedDomains` is not empty and
the API failure counter has reached the threshold; in that case the digest
is sent, and when the other four lists are empty it is sent in that case
only. With threshold 3, the counter at zero and cycles that check one
domain only, a check-enabled domain whose primary probe returns an error in
every cycle, the first and the second cycle hand no digest to `notifyAdmins`
and the third does, with the failure header in it. -/
theorem sendReport_failure_gate (env : Env) (timeText t1 t2 t3 : String) (st s0 : State)
    (d : DomainRecord)
    (hthreshold : env.apiFail = 3) (hzero : s0.apiFailureCount = 0)
    (herr : env.checkConnectivity d.Domain d.Port = none)
    (henabled : d.IsDisableCheck = false) :
    (ReportLine.failedHeader ∈ reportLines env timeText st ↔
      st.report.FailedDomains ≠ [] ∧ st.apiFailureCount ≥ env.apiFail) ∧
    (∀ (x : String) (c : Int), ReportLine.failed x c ∈ reportLines env timeText st ↔
      x ∈ st.report.FailedDomains ∧ c = st.apiFailureCount ∧
        st.apiFailureCount ≥ env.apiFail) ∧
    (st.report.FailedDomains ≠ [] → st.apiFailureCount ≥ env.apiFail →
      sendReport env timeText st =
        some (String.join ((reportLines env timeText st).map ReportLine.render))) ∧
    (st.report.DisconnectedDomains = [] → st.report.BannedForwards = [] →
      st.report.SwitchedDomains = [] → st.report.NoForwardDomains = [] →
      ((sendReport env timeText st).isSome = true ↔
        st.report.FailedDomains ≠ [] ∧ st.apiFailureCount ≥ env.apiFail)) ∧
    (performAutoCheck env t1 (some [d]) s0).2 = none ∧
    (performAutoCheck env t2 (some [d]) (performAutoCheck env t1 (some [d]) s0).1).2 = none ∧
    (performAutoCheck env t3 (some [d])
      (performAutoCheck env t2 (some [d])
        (performAutoCheck env t1 (some [d]) s0).1).1).2.isSome = true ∧
    ReportLine.failedHeader ∈ reportLines env t3
      (performAutoCheck env t3 (some [d])
        (performAutoCheck env t2 (some [d]) (performAutoCheck env t1 (some [d]) s0).1).1).1 := by
  obtain ⟨c1, r1⟩ := performAutoCheck_primary_error env t1 d s0 herr henabled
  obtain ⟨c2, r2⟩ := performAutoCheck_primary_error env t2 d
    (performAutoCheck env t1 (some [d]) s0).1 herr henabled
  obtain ⟨c3, r3⟩ := performAutoCheck_primary_error env t3 d
    (performAutoCheck env t2 (some [d]) (performAutoCheck env t1 (some [d]) s0).1).1
    herr henabled
  have quiet : ∀ r : CheckReport,
      r = { emptyReport with FailedDomains := [sprintfHostPort d.Domain d.Port] } →
      r.DisconnectedDomains = [] ∧ r.BannedForwards = [] ∧ r.SwitchedDomains = [] ∧
        r.NoForwardDomains = [] ∧ r.FailedDomains ≠ [] := by
    intro r hr
    rw [hr]
    simp [emptyReport]
  have out : ∀ (t : String) (s : State),
      (performAutoCheck env t (some [d]) s).2 =
        sendReport env t (performAutoCheck env t (some [d]) s).1 := fun _ _ => rfl
  refine ⟨failedHeader_mem_reportLines env timeText st,
    failed_mem_reportLines env timeText st,
    sendReport_of_failure_gate env timeText st,
    sendReport_isSome_of_quiet env timeText st, ?_, ?_, ?_, ?_⟩
  · obtain ⟨q1, q2, q3, q4, q5⟩ := quiet _ r1
    have h := sendReport_isSome_of_quiet env t1 _ q1 q2 q3 q4
    rw [out, ← Option.not_isSome_iff_eq_none, h]
    rintro ⟨_, hge⟩
    omega
  · obtain ⟨q1, q2, q3, q4, q5⟩ := quiet _ r2
    have h := sendReport_isSome_of_quiet env t2 _ q1 q2 q3 q4
    rw [out, ← Option.not_isSome_iff_eq_none, h]
    rintro ⟨_, hge⟩
    omega
  · obtain ⟨q1, q2, q3, q4, q5⟩ := quiet _ r3
    have h := sendReport_isSome_of_quiet env t3 _ q1 q2 q3 q4
    rw [out, h]
    exact ⟨q5, by omega⟩
  · obtain ⟨q1, q2, q3, q4, q5⟩ := quiet _ r3
    rw [failedHeader_mem_reportLines]
    exact ⟨q5, by omega⟩

theorem sendReport_failure_gate_witness :
    exEnv.apiFail = 3 ∧ (exState exPool).apiFailureCount = 0 ∧
    exEnv.checkConnectivity exDomainErr.Domain exDomainErr.Port = none ∧
    (performAutoCheck exEnv "t1" (some [exDomainErr]) (exState exPool)).2 = none ∧
    (performAutoCheck exEnv "t2" (some [exDomainErr])
      (performAutoCheck exEnv "t1" (some [exDomainErr]) (exState exPool)).1).2 = none ∧
    (performAutoCheck exEnv "t3" (some [exDomainErr])
      (performAutoCheck exEnv "t2" (some [exDomainErr])
        (performAutoCheck exEnv "t1" (some [exDomainErr]) (exState exPool)).1).1).2.isSome
      = true :=
  ⟨by decide, by decide, by decide,
    (sendReport_failure_gate exEnv "t" "t1" "t2" "t3" (exState exPool) (exState exPool)
      exDomainErr (by decide) (by decide) (by decide) (by decide)).2.2.2.2.1,
    (sendReport_failure_gate exEnv "t" "t1" "t2" "t3" (exState exPool) (exState exPool)
      exDomainErr (by decide) (by decide) (by decide) (by decide)).2.2.2.2.2.1,
    (sendReport_failure_gate exEnv "t" "t1" "t2" "t3" (exState exPool) (exState exPool)
      exDomainErr (by decide) (by decide) (by decide) (by decide)).2.2.2.2.2.2.1⟩

/-! ## The API failure counter -/

theorem counterAfter_cons (c : Int) (ok : Bool) (l : List Bool) :
    counterAfter c (ok :: l) = counterAfter (if ok then 0 else c + 1) l := rfl

theorem counterAfter_append (c : Int) (l1 l2 : List Bool) :
    counterAfter c (l1 ++ l2) = counterAfter (counterAfter c l1) l2 := by
  simp [counterAfter, List.foldl_append]

theorem counterAfter_nonneg (l : List Bool) : ∀ c : Int, 0 ≤ c → 0 ≤ counterAfter c l := by
  induction l with
  | nil => intro c h; exact h
  | cons ok l ih =>
    intro c h
    rw [counterAfter_cons]
    apply ih
    split <;> omega

theorem resetApiFailureCount_apiFailureCount (st : State) (h : 0 ≤ st.apiFailureCount) :
    (resetApiFailureCount st).apiFailureCount = 0 := by
  unfold resetApiFailureCount
  split
  · rfl
  · show st.apiFailureCount = 0
    omega

theorem forwardLoop_apiFailureCount (env : Env) (port : Int) (fs : List ForwardRecord) :
    ∀ (banned : List String) (st : State), 0 ≤ st.apiFailureCount →
      (forwardLoop env port fs banned st).st.apiFailureCount =
        counterAfter st.apiFailureCount
          ((probedForwards env port fs).map (fun f => probeOk env (f.ForwardDomain, port))) := by
  induction fs with
  | nil => intro banned st _; simp [forwardLoop, probedForwards, counterAfter]
  | cons f rest ih =>
    intro banned st h0
    unfold forwardLoop probedForwards
    by_cases hb : f.IsBan = true
    · simp only [hb, if_true]
      exact ih banned st h0
    · have hb2 : f.IsBan = false := by simpa using hb
      simp only [hb2, Bool.false_eq_true, if_false]
      cases hc : env.checkConnectivity f.ForwardDomain port with
      | none =>
        have hr : answersReachable env port f = false := by simp [answersReachable, hc]
        simp only [hr, Bool.false_eq_true, if_false, List.map_cons, probeOk, hc,
          Option.isSome_none, counterAfter_cons]
        rw [ih]
        · rfl
        · show 0 ≤ st.apiFailureCount + 1
          omega
      | some result =>
        have hreset : (resetApiFailureCount
            { st with trace := st.trace ++ [Effect.probe f.ForwardDomain port] }).apiFailureCount
            = 0 := resetApiFailureCount_apiFailureCount _ h0
        by_cases hr : result.Result = true
        · have hr1 : answersReachable env port f = true := by simp [answersReachable, hc, hr]
          simp only [hr, hr1, Bool.not_true, Bool.false_eq_true, if_false, if_true,
            List.map_cons, List.map_nil, probeOk, hc, Option.isSome_some, counterAfter_cons]
          rw [hreset]
          rfl
        · have hr2 : result.Result = false := by simpa using hr
          have hr1 : answersReachable env port f = false := by
            simp [answersReachable, hc, hr2]
          simp only [hr2, hr1, Bool.not_false, if_true, Bool.false_eq_true, if_false,
            List.map_cons, probeOk, hc, Option.isSome_some, counterAfter_cons]
          by_cases hm : isExhaustedMessage result.Message = true
          · simp only [hm, if_true]
            rw [ih]
            · rw [banForward24Hours_apiFailureCount, hreset]
              rfl
            · rw [banForward24Hours_apiFailureCount, hreset]
          · simp only [hm, Bool.false_eq_true, if_false]
            rw [ih]
            · rw [hreset]
              rfl
            · rw [hreset]

theorem updateToCloudflare_apiFailureCount (env : Env) (d : DomainRecord) (f : ForwardRecord)
    (ip : String) (st : State) :
    (updateToCloudflare env d f ip st).apiFailureCount = st.apiFailureCount := by
  unfold updateToCloudflare
  by_cases h1 : d.RecordId = ""
  · simp [h1]
  · by_cases h2 : env.clientOk = false
    · simp [h1, h2]
    · cases h3 : recordContent f ip with
      | none => simp [h1, h2, h3]
      | some content =>
        by_cases h4 : (UpdateDNSRecordByID env (DnsUpdateCall.mk d.Domain d.ZoneId d.RecordId
            f.RecordType d.Domain content env.ttl false)).2 = false
        · simp [h1, h2, h3, h4]
        · simp [h1, h2, h3, h4]

theorem finishPool_apiFailureCount (env : Env) (d : DomainRecord) (r : LoopResult) :
    (finishPool env d r).apiFailureCount = r.st.apiFailureCount := by
  have hrb : (reportBanned r).apiFailureCount = r.st.apiFailureCount := by
    unfold reportBanned; split <;> rfl
  unfold finishPool
  split
  · rw [updateToCloudflare_apiFailureCount, hrb]
  · show (reportBanned r).apiFailureCount = r.st.apiFailureCount
    exact hrb

theorem checkDomain_probeCalls (env : Env) (d : DomainRecord) (st : State) :
    probeCalls (checkDomain env d st).trace = probeCalls st.trace ++ domainProbeCalls env d := by
  unfold checkDomain domainProbeCalls
  cases hc : env.checkConnectivity d.Domain d.Port with
  | none => simp [appendFailed, probeCalls]
  | some result =>
    by_cases hr : result.Result = true
    · simp [hr, probeCalls]
    · have hr2 : result.Result = false := by simpa using hr
      simp only [hr2, Bool.false_eq_true, if_false, checkForwardPool_probeCalls,
        appendDisconnected_trace, resetApiFailureCount_trace, probeCalls_append]
      simp [probeCalls]

theorem checkDomain_apiFailureCount (env : Env) (d : DomainRecord) (st : State)
    (h0 : 0 ≤ st.apiFailureCount) :
    (checkDomain env d st).apiFailureCount =
      counterAfter st.apiFailureCount ((domainProbeCalls env d).map (probeOk env)) := by
  unfold checkDomain domainProbeCalls
  cases hc : env.checkConnectivity d.Domain d.Port with
  | none =>
    simp [appendFailed, incrementApiFailureCount, probeOk, hc, counterAfter]
  | some result =>
    have hreset : (resetApiFailureCount
        { st with trace := st.trace ++ [Effect.probe d.Domain d.Port] }).apiFailureCount = 0 :=
      resetApiFailureCount_apiFailureCount _ h0
    by_cases hr : result.Result = true
    · simp only [hr, if_true, List.map_cons, List.map_nil, probeOk, hc, Option.isSome_some,
        counterAfter_cons, hreset]
      rfl
    · have hr2 : result.Result = false := by simpa using hr
      simp only [hr2, Bool.false_eq_true, if_false, List.map_cons, probeOk, hc,
        Option.isSome_some, counterAfter_cons, if_true, List.map_map]
      unfold checkForwardPool
      by_cases hlen : d.Forwards.length = 0
      · have hnil : d.Forwards = [] := List.length_eq_zero.1 hlen
        simp only [hlen, if_true]
        show (resetApiFailureCount _).apiFailureCount = _
        rw [hreset, hnil]
        simp [sortSlice, probedForwards, counterAfter]
      · simp only [hlen, if_false]
        rw [finishPool_apiFailureCount, forwardLoop_apiFailureCount]
        · show counterAfter (resetApiFailureCount _).apiFailureCount _ = _
          rw [hreset]
          rfl
        · show 0 ≤ (resetApiFailureCount _).apiFailureCount
          rw [hreset]

theorem checkDomain_apiFailureCount_nonneg (env : Env) (d : DomainRecord) (st : State)
    (h0 : 0 ≤ st.apiFailureCount) : 0 ≤ (checkDomain env d st).apiFailureCount := by
  rw [checkDomain_apiFailureCount env d st h0]
  exact counterAfter_nonneg _ _ h0

theorem checkDomains_apiFailureCount (env : Env) (ds : List DomainRecord) :
    ∀ st : State, 0 ≤ st.apiFailureCount →
      ∃ calls : List (String × Int),
        probeCalls (checkDomains env ds st).trace = probeCalls st.trace ++ calls ∧
        (checkDomains env ds st).apiFailureCount =
          counterAfter st.apiFailureCount (calls.map (probeOk env)) := by
  induction ds with
  | nil => intro st _; exact ⟨[], by simp [checkDomains], by simp [checkDomains, counterAfter]⟩
  | cons d ds ih =>
    intro st h0
    unfold checkDomains
    by_cases hd : d.IsDisableCheck = true
    · simp only [hd, if_true]
      exact ih st h0
    · have hd2 : d.IsDisableCheck = false := by simpa using hd
      simp only [hd2, Bool.false_eq_true, if_false]
      obtain ⟨calls, h1, h2⟩ := ih (checkDomain env d st)
        (checkDomain_apiFailureCount_nonneg env d st h0)
      refine ⟨domainProbeCalls env d ++ calls, ?_, ?_⟩
      · rw [h1, checkDomain_probeCalls, List.append_assoc]
      · rw [h2, checkDomain_apiFailureCount env d st h0, List.map_append, counterAfter_append]

theorem forwardLoopWithProgress_apiFailureCount (env : Env) (port total : Int)
    (fs : List ForwardRecord) :
    ∀ (i : Int) (banned : List String) (st : State),
      (forwardLoopWithProgress env port total i fs banned st).st.apiFailureCount =
        st.apiFailureCount := by
  induction fs with
  | nil => intro i banned st; rfl
  | cons f rest ih =>
    intro i banned st
    unfold forwardLoopWithProgress
    by_cases hb : f.IsBan = true
    · simp [hb, ih]
    · have hb2 : f.IsBan = false := by simpa using hb
      cases hc : env.checkConnectivity f.ForwardDomain port with
      | none => simp [hb2, hc, ih]
      | some result =>
        by_cases hr : result.Result = true
        · simp [hb2, hc, hr]
        · have hr2 : result.Result = false := by simpa using hr
          by_cases hm : isExhaustedMessage result.Message = true
          · simp [hb2, hc, hr2, hm, ih]
          · simp [hb2, hc, hr2, hm, ih]

theorem checkDomainWithProgress_apiFailureCount (env : Env) (d : DomainRecord) (st : State) :
    (checkDomainWithProgress env d st).apiFailureCount = st.apiFailureCount := by
  unfold checkDomainWithProgress
  cases hc : env.checkConnectivity d.Domain d.Port with
  | none => rfl
  | some result =>
    by_cases hr : result.Result = true
    · simp [hr]
    · have hr2 : result.Result = false := by simpa using hr
      simp only [hr2, Bool.false_eq_true, if_false]
      unfold checkForwardPoolWithProgress
      by_cases hlen : d.Forwards.length = 0
      · simp only [hlen, if_true]; rfl
      · simp only [hlen, if_false]
        rw [finishPool_apiFailureCount, forwardLoopWithProgress_apiFailureCount]
        rfl

/-- C17 (as contradicted by the code): in the manual path the counter is neither
reset nor raised: with the counter at two, `checkDomainWithProgress` probes
the reachable primary `up.example` without error and leaves the counter at
two, and it probes the primary `err.example`, whose probe returns an error,
and leaves the counter at two as well. -/
theorem manual_path_leaves_counter :
    exStateTwoFailures.apiFailureCount = 2 ∧
    exEnv.checkConnectivity exDomainUp.Domain exDomainUp.Port =
      some (exAnswer true "192.0.2.7" "") ∧
    probeCalls (checkDomainWithProgress exEnv exDomainUp exStateTwoFailures).trace =
      [("up.example", 443)] ∧
    (checkDomainWithProgress exEnv exDomainUp exStateTwoFailures).apiFailureCount = 2 ∧
    exEnv.checkConnectivity exDomainErr.Domain exDomainErr.Port = none ∧
    (checkDomainWithProgress exEnv exDomainErr exStateTwoFailures).apiFailureCount = 2 := by
  decide

/-- C17 (amended): in the scheduled path (`checkDomain`, `checkForwardPool`, the
loop of a cycle) the API failure counter follows the outcomes of the probes
made, in order: it is zero after a probe that returns without error and one
more after a probe that returns an error, nothing else changes it, and it is
never negative. The manual path (`checkDomainWithProgress`) leaves the
counter as it is. -/
theorem counter_follows_probe_outcomes (env : Env) (ds : List DomainRecord) (st : State)
    (h0 : 0 ≤ st.apiFailureCount) :
    (∃ calls : List (String × Int),
      probeCalls (checkDomains env ds st).trace = probeCalls st.trace ++ calls ∧
      (checkDomains env ds st).apiFailureCount =
        counterAfter st.apiFailureCount (calls.map (probeOk env))) ∧
    0 ≤ (checkDomains env ds st).apiFailureCount ∧
    (∀ (d : DomainRecord) (s : State), 0 ≤ s.apiFailureCount →
      probeCalls (checkDomain env d s).trace = probeCalls s.trace ++ domainProbeCalls env d ∧
      (checkDomain env d s).apiFailureCount =
        counterAfter s.apiFailureCount ((domainProbeCalls env d).map (probeOk env))) ∧
    (∀ (c : Int) (outcomes : List Bool), counterAfter c (outcomes ++ [true]) = 0) ∧
    (∀ (c : Int) (outcomes : List Bool),
      counterAfter c (outcomes ++ [false]) = counterAfter c outcomes + 1) ∧
    (∀ (c : Int) (outcomes : List Bool), 0 ≤ c → 0 ≤ counterAfter c outcomes) ∧
    (∀ (d : DomainRecord) (s : State),
      (checkDomainWithProgress env d s).apiFailureCount = s.apiFailureCount) := by
  obtain ⟨calls, h1, h2⟩ := checkDomains_apiFailureCount env ds st h0
  refine ⟨⟨calls, h1, h2⟩, ?_, ?_, ?_, ?_, ?_, ?_⟩
  · rw [h2]; exact counterAfter_nonneg _ _ h0
  · intro d s hs
    exact ⟨checkDomain_probeCalls env d s, checkDomain_apiFailureCount env d s hs⟩
  · intro c outcomes
    rw [counterAfter_append]; rfl
  · intro c outcomes
    rw [counterAfter_append]; rfl
  · intro c outcomes hc
    exact counterAfter_nonneg outcomes c hc
  · intro d s
    exact checkDomainWithProgress_apiFailureCount env d s

theorem counter_follows_probe_outcomes_witness :
    0 ≤ exStateTwoFailures.apiFailureCount ∧
    (∃ calls : List (String × Int),
      probeCalls (checkDomains exEnv [exDomainErr, exDomainUp] exStateTwoFailures).trace =
        probeCalls exStateTwoFailures.trace ++ calls ∧
      (checkDomains exEnv [exDomainErr, exDomainUp] exStateTwoFailures).apiFailureCount =
        counterAfter exStateTwoFailures.apiFailureCount (calls.map (probeOk exEnv))) ∧
    0 ≤ (checkDomains exEnv [exDomainErr, exDomainUp] exStateTwoFailures).apiFailureCount :=
  ⟨by decide,
    (counter_follows_probe_outcomes exEnv [exDomainErr, exDomainUp] exStateTwoFailures
      (by decide)).1,
    (counter_follows_probe_outcomes exEnv [exDomainErr, exDomainUp] exStateTwoFailures
      (by decide)).2.1⟩

/-! ## Manual and scheduled path -/

theorem withoutProgress_append (a b : List Effect) :
    withoutProgress (a ++ b) = withoutProgress a ++ withoutProgress b := by
  simp [withoutProgress]

theorem dnsUpdateCalls_withoutProgress (tr : List Effect) :
    dnsUpdateCalls (withoutProgress tr) = dnsUpdateCalls tr := by
  induction tr with
  | nil => rfl
  | cons e tr ih =>
    cases e <;> simp_all [withoutProgress, dnsUpdateCalls, List.filter_cons]

theorem probeCalls_withoutProgress (tr : List Effect) :
    probeCalls (withoutProgress tr) = probeCalls tr := by
  induction tr with
  | nil => rfl
  | cons e tr ih =>
    cases e <;> simp_all [withoutProgress, probeCalls, List.filter_cons]

theorem withoutProgress_progress (current total : Int) (text : String) :
    withoutProgress [Effect.progress current total text] = [] := rfl

theorem withoutProgress_probe (target : String) (port : Int) :
    withoutProgress [Effect.probe target port] = [Effect.probe target port] := rfl

theorem agree_refl (st : State) : Agree st st := ⟨rfl, rfl, rfl⟩

theorem agree_ban (env : Env) (f : ForwardRecord) {st st' : State} (h : Agree st st') :
    Agree (banForward24Hours env f st).2 (banForward24Hours env f st').2 := by
  obtain ⟨hs, hr, ht⟩ := h
  refine ⟨?_, ?_, ?_⟩
  · rw [banForward24Hours_store, banForward24Hours_store, hs]
  · rw [banForward24Hours_report, banForward24Hours_report, hr]
  · rw [banForward24Hours_trace, banForward24Hours_trace, ht]

theorem loops_agree (env : Env) (port total : Int) (fs : List ForwardRecord) :
    ∀ (i : Int) (banned : List String) (st st' : State), Agree st st' →
      (forwardLoopWithProgress env port total i fs banned st').availableForward =
        (forwardLoop env port fs banned st).availableForward ∧
      (forwardLoopWithProgress env port total i fs banned st').resolvedIP =
        (forwardLoop env port fs banned st).resolvedIP ∧
      (forwardLoopWithProgress env port total i fs banned st').bannedForwards =
        (forwardLoop env port fs banned st).bannedForwards ∧
      Agree (forwardLoop env port fs banned st).st
        (forwardLoopWithProgress env port total i fs banned st').st := by
  induction fs with
  | nil =>
    intro i banned st st' h
    exact ⟨rfl, rfl, rfl, h⟩
  | cons f rest ih =>
    intro i banned st st' h
    obtain ⟨hs, hr, ht⟩ := h
    have hprog : Agree st
        { st' with trace := st'.trace ++ [Effect.progress (i + 1) total f.ForwardDomain] } :=
      ⟨hs, hr, by
        show withoutProgress (st'.trace ++ [Effect.progress (i + 1) total f.ForwardDomain]) = _
        rw [withoutProgress_append, ht, withoutProgress_progress, List.append_nil]⟩
    have hprobe : ∀ s : State, s.store = st.store → s.report = st.report →
        s.trace = st.trace ++ [Effect.probe f.ForwardDomain port] →
        Agree s
          { store := st'.store, apiFailureCount := st'.apiFailureCount, report := st'.report,
            trace := st'.trace ++ [Effect.progress (i + 1) total f.ForwardDomain] ++
              [Effect.probe f.ForwardDomain port] } := by
      intro s h1 h2 h3
      refine ⟨hs.trans h1.symm, hr.trans h2.symm, ?_⟩
      show withoutProgress (st'.trace ++ [Effect.progress (i + 1) total f.ForwardDomain] ++
        [Effect.probe f.ForwardDomain port]) = withoutProgress s.trace
      rw [h3, withoutProgress_append, withoutProgress_append, withoutProgress_append, ht,
        withoutProgress_progress, List.append_nil]
    unfold forwardLoopWithProgress forwardLoop
    by_cases hb : f.IsBan = true
    · simp only [hb, if_true]
      exact ih (i + 1) banned st _ hprog
    · have hb2 : f.IsBan = false := by simpa using hb
      simp only [hb2, Bool.false_eq_true, if_false]
      cases hc : env.checkConnectivity f.ForwardDomain port with
      | none =>
        simp only [banForward24Hours_ForwardDomain]
        exact ih (i + 1) _ _ _ (agree_ban env f (hprobe _ rfl rfl rfl))
      | some result =>
        have hreset := hprobe (resetApiFailureCount
          { st with trace := st.trace ++ [Effect.probe f.ForwardDomain port] })
          (by simp) (by simp) (by simp)
        by_cases hres : result.Result = true
        · simp only [hres, Bool.not_true, Bool.false_eq_true, if_false]
          exact ⟨trivial, trivial, trivial, hreset⟩
        · have hres2 : result.Result = false := by simpa using hres
          simp only [hres2, Bool.not_false, if_true]
          by_cases hm : isExhaustedMessage result.Message = true
          · simp only [hm, if_true, banForward24Hours_ForwardDomain]
            exact ih (i + 1) _ _ _ (agree_ban env f hreset)
          · simp only [hm, Bool.false_eq_true, if_false]
            exact ih (i + 1) _ _ _ hreset

theorem updateToCloudflare_store_congr (env : Env) (d : DomainRecord) (f : ForwardRecord)
    (ip : String) (st st' : State) (hs : st'.store = st.store) :
    (updateToCloudflare env d f ip st').store = (updateToCloudflare env d f ip st).store := by
  unfold updateToCloudflare
  by_cases h1 : d.RecordId = ""
  · simp [h1, hs]
  · by_cases h2 : env.clientOk = false
    · simp [h1, h2, hs]
    · cases h3 : recordContent f ip with
      | none => simp [h1, h2, h3, hs]
      | some content =>
        by_cases h4 : (UpdateDNSRecordByID env (DnsUpdateCall.mk d.Domain d.ZoneId d.RecordId
            f.RecordType d.Domain content env.ttl false)).2 = false
        · simp [h1, h2, h3, h4, hs]
        · simp [h1, h2, h3, h4, hs]

theorem updateToCloudflare_trace_eq (env : Env) (d : DomainRecord) (f : ForwardRecord)
    (ip : String) (st : State) :
    (updateToCloudflare env d f ip st).trace =
      st.trace ++
        match gatewayCalls env d f ip with
        | [] => []
        | call :: _ => Effect.updateDNSRecordByID call :: (UpdateDNSRecordByID env call).1 := by
  unfold updateToCloudflare gatewayCalls
  by_cases h1 : d.RecordId = ""
  · simp [h1]
  · by_cases h2 : env.clientOk = false
    · simp [h1, h2]
    · cases h3 : recordContent f ip with
      | none => simp [h1, h2, h3]
      | some content =>
        by_cases h4 : (UpdateDNSRecordByID env (DnsUpdateCall.mk d.Domain d.ZoneId d.RecordId
            f.RecordType d.Domain content env.ttl false)).2 = false
        · simp [h1, h2, h3, h4]
        · simp [h1, h2, h3, h4]

theorem updateToCloudflare_withoutProgress (env : Env) (d : DomainRecord) (f : ForwardRecord)
    (ip : String) (st st' : State)
    (ht : withoutProgress st'.trace = withoutProgress st.trace) :
    withoutProgress (updateToCloudflare env d f ip st').trace =
      withoutProgress (updateToCloudflare env d f ip st).trace := by
  rw [updateToCloudflare_trace_eq, updateToCloudflare_trace_eq, withoutProgress_append,
    withoutProgress_append, ht]

theorem agree_updateToCloudflare (env : Env) (d : DomainRecord) (f : ForwardRecord)
    (ip : String) {st st' : State} (h : Agree st st') :
    Agree (updateToCloudflare env d f ip st) (updateToCloudflare env d f ip st') := by
  obtain ⟨hs, hr, ht⟩ := h
  refine ⟨updateToCloudflare_store_congr env d f ip st st' hs, ?_,
    updateToCloudflare_withoutProgress env d f ip st st' ht⟩
  rw [updateToCloudflare_report, updateToCloudflare_report, hr]

theorem agree_appendNoForward (entry : String) {st st' : State} (h : Agree st st') :
    Agree (appendNoForward entry st) (appendNoForward entry st') := by
  obtain ⟨hs, hr, ht⟩ := h
  exact ⟨hs, congrArg (fun r : CheckReport =>
    { r with NoForwardDomains := r.NoForwardDomains ++ [entry] }) hr, ht⟩

theorem agree_appendFailed (d : DomainRecord) {st st' : State} (h : Agree st st') :
    Agree (appendFailed d st) (appendFailed d st') := by
  obtain ⟨hs, hr, ht⟩ := h
  exact ⟨hs, congrArg (fun r : CheckReport =>
    { r with FailedDomains := r.FailedDomains ++ [sprintfHostPort d.Domain d.Port] }) hr, ht⟩

theorem agree_appendDisconnected (d : DomainRecord) (m : String) {st st' : State}
    (h : Agree st st') :
    Agree (appendDisconnected d m st) (appendDisconnected d m st') := by
  obtain ⟨hs, hr, ht⟩ := h
  exact ⟨hs, congrArg (fun r : CheckReport =>
    { r with DisconnectedDomains := r.DisconnectedDomains ++
        [DomainFailure.mk d.Domain d.Port (failReason m)] }) hr, ht⟩

theorem agree_probe (target : String) (port : Int) {st st' : State} (h : Agree st st') :
    Agree { st with trace := st.trace ++ [Effect.probe target port] }
      { st' with trace := st'.trace ++ [Effect.probe target port] } := by
  obtain ⟨hs, hr, ht⟩ := h
  refine ⟨hs, hr, ?_⟩
  show withoutProgress (st'.trace ++ [Effect.probe target port]) =
    withoutProgress (st.trace ++ [Effect.probe target port])
  rw [withoutProgress_append, withoutProgress_append, ht]

theorem agree_increment {st st' : State} (h : Agree st st') :
    Agree (incrementApiFailureCount st) st' := h

theorem agree_reset {st st' : State} (h : Agree st st') :
    Agree (resetApiFailureCount st) st' := by
  obtain ⟨hs, hr, ht⟩ := h
  refine ⟨?_, ?_, ?_⟩
  · rw [resetApiFailureCount_store]; exact hs
  · rw [resetApiFailureCount_report]; exact hr
  · rw [resetApiFailureCount_trace]; exact ht

theorem agree_reportBanned {r r' : LoopResult} (hb : r'.bannedForwards = r.bannedForwards)
    (h : Agree r.st r'.st) : Agree (reportBanned r) (reportBanned r') := by
  obtain ⟨hs, hr, ht⟩ := h
  refine ⟨?_, ?_, ?_⟩
  · rw [reportBanned_store, reportBanned_store, hs]
  · rw [reportBanned_report, reportBanned_report, hr, hb]
  · rw [reportBanned_trace, reportBanned_trace, ht]

theorem agree_finishPool (env : Env) (d : DomainRecord) {r r' : LoopResult}
    (ha : r'.availableForward = r.availableForward) (hi : r'.resolvedIP = r.resolvedIP)
    (hb : r'.bannedForwards = r.bannedForwards) (h : Agree r.st r'.st) :
    Agree (finishPool env d r) (finishPool env d r') := by
  have hrb := agree_reportBanned hb h
  unfold finishPool
  rw [ha, hi]
  cases r.availableForward with
  | none => exact agree_appendNoForward _ hrb
  | some g => exact agree_updateToCloudflare env d g r.resolvedIP hrb

theorem agree_checkForwardPool (env : Env) (d : DomainRecord) {st st' : State}
    (h : Agree st st') :
    Agree (checkForwardPool env d st) (checkForwardPoolWithProgress env d st') := by
  unfold checkForwardPool checkForwardPoolWithProgress
  by_cases hlen : d.Forwards.length = 0
  · simp only [hlen, if_true]
    exact agree_appendNoForward _ h
  · simp only [hlen, if_false]
    obtain ⟨ha, hi, hb, hst⟩ := loops_agree env d.Port (d.Forwards.length : Int)
      (sortSlice d.Forwards) 0 [] st st' h
    exact agree_finishPool env d ha hi hb hst

theorem agree_checkDomain (env : Env) (d : DomainRecord) {st st' : State} (h : Agree st st') :
    Agree (checkDomain env d st) (checkDomainWithProgress env d st') := by
  have hbase := agree_probe d.Domain d.Port h
  unfold checkDomain checkDomainWithProgress
  cases hc : env.checkConnectivity d.Domain d.Port with
  | none => exact agree_appendFailed d (agree_increment hbase)
  | some result =>
    by_cases hres : result.Result = true
    · simp only [hres, if_true]
      exact agree_reset hbase
    · have hres2 : result.Result = false := by simpa using hres
      simp only [hres2, Bool.false_eq_true, if_false]
      exact agree_checkForwardPool env d
        (agree_appendDisconnected d result.Message (agree_reset hbase))

/-- C18: from the same state, the manual path (`checkDomainWithProgress`,
`checkForwardPoolWithProgress`) and the scheduled path (`checkDomain`,
`checkForwardPool`) leave the same report and the same store, so the same
bans are written, and make the same probe calls and the same DNS update
calls: their traces are equal once the progress callbacks of the manual
path are left out. -/
theorem manual_path_matches_scheduled (env : Env) (d : DomainRecord) (st : State) :
    (checkDomainWithProgress env d st).report = (checkDomain env d st).report ∧
    (checkDomainWithProgress env d st).store = (checkDomain env d st).store ∧
    dnsUpdateCalls (checkDomainWithProgress env d st).trace =
      dnsUpdateCalls (checkDomain env d st).trace ∧
    probeCalls (checkDomainWithProgress env d st).trace =
      probeCalls (checkDomain env d st).trace ∧
    withoutProgress (checkDomainWithProgress env d st).trace =
      withoutProgress (checkDomain env d st).trace ∧
    (checkForwardPoolWithProgress env d st).report = (checkForwardPool env d st).report ∧
    (checkForwardPoolWithProgress env d st).store = (checkForwardPool env d st).store ∧
    withoutProgress (checkForwardPoolWithProgress env d st).trace =
      withoutProgress (checkForwardPool env d st).trace := by
  obtain ⟨h1, h2, h3⟩ := agree_checkDomain env d (agree_refl st)
  obtain ⟨k1, k2, k3⟩ := agree_checkForwardPool env d (agree_refl st)
  refine ⟨h2, h1, ?_, ?_, h3, k2, k1, k3⟩
  · rw [← dnsUpdateCalls_withoutProgress, h3, dnsUpdateCalls_withoutProgress]
  · rw [← probeCalls_withoutProgress, h3, probeCalls_withoutProgress]

/-! ## The report of a cycle -/

theorem checkDomain_report_blank (env : Env) (d : DomainRecord) :
    (checkDomain env d blankState).report = domainReport env d := by
  rw [checkDomain_report]
  exact appendReport_empty_left _

theorem checkDomainWithProgress_report (env : Env) (d : DomainRecord) (st : State) :
    (checkDomainWithProgress env d st).report = appendReport st.report (domainReport env d) := by
  rw [(agree_checkDomain env d (agree_refl st)).2.1, checkDomain_report]

theorem checkDomains_report (env : Env) (ds : List DomainRecord) :
    ∀ st : State, (checkDomains env ds st).report =
      appendReport st.report
        (concatReports ((ds.filter (fun d => !d.IsDisableCheck)).map (domainReport env))) := by
  induction ds with
  | nil => intro st; simp [checkDomains, concatReports, appendReport_empty_right]
  | cons d ds ih =>
    intro st
    unfold checkDomains
    by_cases hd : d.IsDisableCheck = true
    · simp [hd, ih]
    · have hd2 : d.IsDisableCheck = false := by simpa using hd
      simp [hd2, ih, checkDomain_report, concatReports, appendReport_assoc]

theorem checkDomainsWithProgress_report (env : Env) (ds : List DomainRecord) :
    ∀ st : State, (checkDomainsWithProgress env ds st).report =
      appendReport st.report (concatReports (ds.map (domainReport env))) := by
  induction ds with
  | nil => intro st; simp [checkDomainsWithProgress, concatReports, appendReport_empty_right]
  | cons d ds ih =>
    intro st
    unfold checkDomainsWithProgress
    simp [ih, checkDomainWithProgress_report, concatReports, appendReport_assoc]

/-- C19: the report of a cycle is the concatenation, in list order, of the reports
of the evaluations of the check-enabled domains of the list, each taken on
its own from a blank state; a check-disabled domain adds nothing, and what
the evaluation of a domain adds to the report does not depend on the state
it starts from, so not on what happened to earlier domains. This holds for
the scheduled cycle and for the manual one. -/
theorem cycle_report_is_concatenation (env : Env) (ds : List DomainRecord) (st : State) :
    (checkDomains env ds st).report =
      appendReport st.report
        (concatReports ((ds.filter (fun d => !d.IsDisableCheck)).map
          (fun d => (checkDomain env d blankState).report))) ∧
    (∀ timeText : String, (performAutoCheck env timeText (some ds) st).1.report =
      concatReports ((ds.filter (fun d => !d.IsDisableCheck)).map
        (fun d => (checkDomain env d blankState).report))) ∧
    (∀ (d : DomainRecord) (s : State),
      (checkDomain env d s).report =
        appendReport s.report (checkDomain env d blankState).report) ∧
    (manualCheckDomains env ds st).report =
      concatReports ((ds.filter (fun d => !d.IsDisableCheck)).map
        (fun d => (checkDomainWithProgress env d blankState).report)) ∧
    (∀ (d : DomainRecord) (s : State),
      (checkDomainWithProgress env d s).report =
        appendReport s.report (checkDomainWithProgress env d blankState).report) := by
  have hfun : (fun d => (checkDomain env d blankState).report) = domainReport env :=
    funext (checkDomain_report_blank env)
  have hfun2 : (fun d => (checkDomainWithProgress env d blankState).report) =
      domainReport env := by
    funext d
    rw [checkDomainWithProgress_report]
    exact appendReport_empty_left _
  refine ⟨?_, ?_, ?_, ?_, ?_⟩
  · rw [hfun, checkDomains_report]
  · intro timeText
    rw [hfun]
    show (checkDomains env ds { st with report := emptyReport }).report = _
    rw [checkDomains_report]
    exact appendReport_empty_left _
  · intro d s
    rw [checkDomain_report_blank, checkDomain_report]
  · rw [hfun2]
    unfold manualCheckDomains
    rw [checkDomainsWithProgress_report]
    exact appendReport_empty_left _
  · intro d s
    rw [congrFun hfun2 d, checkDomainWithProgress_report]

/-! ## Unban -/

/-- C20: `AutoUnbanForward`, applied by the display path to the forward whose ban
expired at 900, clears the ban flag of the stored row and leaves its ban
time at 900, not zero; the manual toggle applied to the same banned forward
leaves the ban flag false and the ban time zero. -/
theorem autoUnban_keeps_ban_time :
    exExpired.IsBan = true ∧ exExpired.BanTime = 900 ∧ exExpired.BanTime < exEnv.now ∧
    (operate.AutoUnbanForward exEnv exExpired [exExpired]).2.2.map
        (fun r => (r.ID, r.IsBan, r.BanTime)) = [(4, false, 900)] ∧
    (editForwardInfoBan exEnv exExpired [exExpired]).2.map
        (fun r => (r.ID, r.IsBan, r.BanTime)) = [(4, false, 900)] ∧
    (handleForwardToggleBan exEnv 31537000 4 [exExpired]).map
        (fun r => (r.ID, r.IsBan, r.BanTime)) = [(4, false, 0)] := by
  decide

/-! ## Lazy unban on display -/

/-- C21, counterexample: at the instant `now == BanTime` (both 1000) the display
path shows the forward as banned and leaves its stored row banned; the ban
is lifted only one second later. -/
theorem display_keeps_ban_at_ban_time :
    exBanEndsNow.IsBan = true ∧ exBanEndsNow.BanTime = exEnv.now ∧
    editForwardInfoBan exEnv exBanEndsNow [exBanEndsNow] = ("🚫 已封禁", [exBanEndsNow]) ∧
    (editForwardInfoBan { exEnv with now := 1001 } exBanEndsNow [exBanEndsNow]).1 = "✅ 未封禁" ∧
    (editForwardInfoBan { exEnv with now := 1001 } exBanEndsNow [exBanEndsNow]).2.map
      (fun r => (r.ID, r.IsBan)) = [(9, false)] := by
  decide

/-- C21, amended: for a forward with the ban flag set, the display path shows it
as banned and writes nothing when the ban time is zero (or negative) and
when the ban time is positive and not before the clock reading, the instant
`now == BanTime` included; when the positive ban time is before the clock
reading it shows the forward as not banned and issues `AutoUnbanForward`,
which clears the ban flag of the stored row when the store accepts the
write. -/
theorem editForwardInfo_ban_window (env : Env) (f : ForwardRecord) (store : List ForwardRecord)
    (hban : f.IsBan = true) :
    (f.BanTime ≤ 0 → editForwardInfoBan env f store = ("🚫 已封禁", store)) ∧
    (0 < f.BanTime → env.now ≤ f.BanTime →
      editForwardInfoBan env f store = ("🚫 已封禁", store)) ∧
    (0 < f.BanTime → f.BanTime < env.now →
      editForwardInfoBan env f store =
        ("✅ 未封禁", (operate.AutoUnbanForward env f store).2.2) ∧
      (env.dbOk DbOp.autoUnbanForward = true → f.ID ≠ 0 →
        (operate.AutoUnbanForward env f store).2.2 =
          store.map (fun r => if r.ID = f.ID then
            { r with IsBan := false, UpdatedAt := env.now } else r))) := by
  refine ⟨?_, ?_, ?_⟩
  · intro h
    have h2 : ¬ f.BanTime > 0 := by omega
    simp [editForwardInfoBan, hban, h2]
  · intro h1 h2
    have h3 : ¬ env.now > f.BanTime := by omega
    simp [editForwardInfoBan, hban, h1, h3]
  · intro h1 h2
    refine ⟨?_, ?_⟩
    · simp [editForwardInfoBan, hban, h1, h2]
    · intro hdb hid
      simp [operate.AutoUnbanForward, modelUpdates, hdb, hid]

theorem editForwardInfo_ban_window_witness :
    exBanEndsNow.IsBan = true ∧ exExpired.IsBan = true ∧
    editForwardInfoBan exEnv exBanEndsNow [exBanEndsNow] = ("🚫 已封禁", [exBanEndsNow]) ∧
    editForwardInfoBan exEnv exExpired [exExpired] =
      ("✅ 未封禁", (operate.AutoUnbanForward exEnv exExpired [exExpired]).2.2) :=
  ⟨by decide, by decide,
    (editForwardInfo_ban_window exEnv exBanEndsNow [exBanEndsNow] (by decide)).2.1
      (by decide) (by decide),
    ((editForwardInfo_ban_window exEnv exExpired [exExpired] (by decide)).2.2
      (by decide) (by decide)).1⟩

/-! ## Probe order of a preloaded pool -/

theorem preloadLess_total (a b : ForwardRecord) :
    preloadLess b a = false ∨ preloadLess a b = false := by
  unfold preloadLess
  split_ifs <;> simp only [decide_eq_false_iff_not, ne_eq, not_not] at * <;> omega

theorem preloadLess_trans (a b c : ForwardRecord) (hab : preloadLess b a = false)
    (hbc : preloadLess c b = false) : preloadLess c a = false := by
  unfold preloadLess at *
  split_ifs at * <;> simp only [decide_eq_false_iff_not, ne_eq, not_not] at * <;> omega

theorem preloadLess_asymm (a b : ForwardRecord) (hab : preloadLess a b = true) :
    preloadLess b a = false := by
  unfold preloadLess at *
  split_ifs at * <;> simp only [decide_eq_true_eq, decide_eq_false_iff_not, ne_eq, not_not] at * <;>
    omega

theorem preloadLess_iff (a b : ForwardRecord) :
    preloadLess a b = true ↔
      a.Weight > b.Weight ∨ (a.Weight = b.Weight ∧
        (a.SortOrder < b.SortOrder ∨ (a.SortOrder = b.SortOrder ∧ a.ID < b.ID))) := by
  unfold preloadLess
  split_ifs <;> simp only [decide_eq_true_eq, ne_eq, not_not] at * <;> omega

theorem less_of_preloadLess (a b : ForwardRecord) (h : preloadLess b a = false) :
    less b a = false := by
  unfold preloadLess at h
  unfold less
  split_ifs at * <;> simp only [decide_eq_false_iff_not, ne_eq, not_not] at * <;> omega

theorem preloadForwards_sorted (store : List ForwardRecord) (domainID : Nat) :
    (preloadForwards store domainID).Sorted (fun a b => preloadLess b a = false) :=
  @List.sorted_insertionSort _ (fun a b => preloadLess b a = false) _
    ⟨fun a b => preloadLess_total a b⟩ ⟨fun a b c hab hbc => preloadLess_trans a b c hab hbc⟩ _

theorem sortSlice_preloadForwards (store : List ForwardRecord) (domainID : Nat) :
    sortSlice (preloadForwards store domainID) = preloadForwards store domainID :=
  List.Sorted.insertionSort_eq
    (List.Pairwise.imp (fun {a b} h => less_of_preloadLess a b h)
      (preloadForwards_sorted store domainID))

theorem preloadForwards_perm (store : List ForwardRecord) (domainID : Nat) :
    (preloadForwards store domainID).Perm
      (store.filter (fun r => decide (r.DomainRecordID = domainID))) :=
  List.perm_insertionSort _ _

theorem preloadForwards_strict (store : List ForwardRecord) (domainID : Nat)
    (hid : (store.map (fun r => r.ID)).Nodup) :
    (preloadForwards store domainID).Pairwise (fun a b => preloadLess a b = true) := by
  have hnd : ((preloadForwards store domainID).map (fun r => r.ID)).Nodup := by
    have h1 : ((store.filter (fun r => decide (r.DomainRecordID = domainID))).map
        (fun r => r.ID)).Nodup :=
      List.Nodup.sublist (List.Sublist.map _ (List.filter_sublist _)) hid
    exact ((preloadForwards_perm store domainID).map _).nodup_iff.2 h1
  have hne : (preloadForwards store domainID).Pairwise (fun a b => a.ID ≠ b.ID) := by
    have := hnd
    unfold List.Nodup at this
    exact (List.pairwise_map.1 this)
  refine List.Pairwise.imp ?_ (List.Pairwise.and (preloadForwards_sorted store domainID) hne)
  intro a b h
  obtain ⟨h1, h2⟩ := h
  unfold preloadLess at *
  split_ifs at * <;> simp only [decide_eq_true_eq, decide_eq_false_iff_not, ne_eq, not_not] at * <;>
    omega

/-- C22: for a pool as the cycles load it (the rows of the domain, read by the
preload query, from a store with distinct primary keys), the sort of
`checkForwardPool` leaves the preloaded order as it is; that order is weight
descending, then sort order ascending, then ID ascending, so that of two
forwards with equal weight and equal sort order the one with the lower ID
comes first; the probes of the selector are made in that order on a
subsequence of it; and the order does not depend on the arrangement of the
rows in the store. -/
theorem probe_order_weight_sort_id (env : Env) (port : Int) (store : List ForwardRecord)
    (domainID : Nat) (st : State) (hid : (store.map (fun r => r.ID)).Nodup) :
    sortSlice (preloadForwards store domainID) = preloadForwards store domainID ∧
    (sortSlice (preloadForwards store domainID)).Pairwise (fun a b =>
      a.Weight > b.Weight ∨ (a.Weight = b.Weight ∧
        (a.SortOrder < b.SortOrder ∨ (a.SortOrder = b.SortOrder ∧ a.ID < b.ID)))) ∧
    (∀ a b : ForwardRecord, [a, b].Sublist (sortSlice (preloadForwards store domainID)) →
      a.Weight = b.Weight → a.SortOrder = b.SortOrder → a.ID < b.ID) ∧
    (forwardLoop env port (sortSlice (preloadForwards store domainID)) [] st).st.trace =
      st.trace ++ (probedForwards env port (sortSlice (preloadForwards store domainID))).map
        (fun f => Effect.probe f.ForwardDomain port) ∧
    (probedForwards env port (sortSlice (preloadForwards store domainID))).Sublist
      (sortSlice (preloadForwards store domainID)) ∧
    (∀ store2 : List ForwardRecord, store2.Perm store →
      sortSlice (preloadForwards store2 domainID) =
        sortSlice (preloadForwards store domainID)) := by
  have hstrict := preloadForwards_strict store domainID hid
  have hexp : (preloadForwards store domainID).Pairwise (fun a b =>
      a.Weight > b.Weight ∨ (a.Weight = b.Weight ∧
        (a.SortOrder < b.SortOrder ∨ (a.SortOrder = b.SortOrder ∧ a.ID < b.ID)))) :=
    List.Pairwise.imp (fun {a b} h => (preloadLess_iff a b).1 h) hstrict
  refine ⟨sortSlice_preloadForwards store domainID, ?_, ?_, forwardLoop_trace env port _ [] st,
    probedForwards_sublist env port _, ?_⟩
  · rw [sortSlice_preloadForwards]; exact hexp
  · intro a b hsub hw hs
    rw [sortSlice_preloadForwards] at hsub
    have h := List.pairwise_iff_forall_sublist.1 hexp hsub
    omega
  · intro store2 hperm
    rw [sortSlice_preloadForwards, sortSlice_preloadForwards]
    have hid2 : (store2.map (fun r => r.ID)).Nodup := (hperm.map _).nodup_iff.2 hid
    have hp : (preloadForwards store2 domainID).Perm (preloadForwards store domainID) :=
      ((preloadForwards_perm store2 domainID).trans (hperm.filter _)).trans
        (preloadForwards_perm store domainID).symm
    exact @List.eq_of_perm_of_sorted _ (fun a b => preloadLess a b = true)
      ⟨fun a b h1 h2 => by rw [preloadLess_asymm a b h1] at h2; exact absurd h2 (by decide)⟩
      _ _ hp (preloadForwards_strict store2 domainID hid2) hstrict

theorem probe_order_weight_sort_id_witness :
    (exStoreTies.map (fun r => r.ID)).Nodup ∧
    sortSlice (preloadForwards exStoreTies 1) = preloadForwards exStoreTies 1 ∧
    (preloadForwards exStoreTies 1).map (fun r => r.ID) = [13, 11, 12] ∧
    (forwardLoop exEnv 443 (sortSlice (preloadForwards exStoreTies 1)) []
        (exState exStoreTies)).st.trace =
      [Effect.probe "dead.example" 443, Effect.probe "nx.example" 443,
       Effect.probe "up2.example" 443] :=
  ⟨by decide,
    (probe_order_weight_sort_id exEnv 443 exStoreTies 1 (exState exStoreTies) (by decide)).1,
    by decide, by decide⟩

/-! ## Invariants of the report -/

theorem reportCoherent_empty : ReportCoherent emptyReport := by
  refine ⟨?_, ?_, ?_⟩ <;> simp [emptyReport]

theorem reportCoherent_append {a b : CheckReport} (ha : ReportCoherent a)
    (hb : ReportCoherent b) : ReportCoherent (appendReport a b) := by
  obtain ⟨a1, a2, a3⟩ := ha
  obtain ⟨b1, b2, b3⟩ := hb
  refine ⟨?_, ?_, ?_⟩
  · intro e he
    simp only [appendReport, List.mem_append] at he ⊢
    rcases he with he | he
    · obtain ⟨f, hf, h⟩ := a1 e he
      exact ⟨f, Or.inl hf, h⟩
    · obtain ⟨f, hf, h⟩ := b1 e he
      exact ⟨f, Or.inr hf, h⟩
  · intro sw hsw
    simp only [appendReport, List.mem_append] at hsw ⊢
    rcases hsw with hsw | hsw
    · obtain ⟨f, hf, h⟩ := a2 sw hsw
      exact ⟨f, Or.inl hf, h⟩
    · obtain ⟨f, hf, h⟩ := b2 sw hsw
      exact ⟨f, Or.inr hf, h⟩
  · intro h
    simp only [appendReport, ne_eq, List.append_eq_nil, not_and_or] at h ⊢
    rcases h with h | h
    · exact Or.inl (a3 h)
    · exact Or.inr (b3 h)

theorem switchEntries_domain (env : Env) (d : DomainRecord) (f : ForwardRecord)
    (resolvedIP : String) :
    ∀ sw ∈ switchEntries env d f resolvedIP, sw.Domain = d.Domain ∧ sw.Port = d.Port := by
  intro sw hsw
  unfold switchEntries at hsw
  split_ifs at hsw
  · simp at hsw
  · simp at hsw
  · split at hsw
    · simp at hsw
    · split_ifs at hsw
      · simp at hsw
      · simp only [List.mem_singleton] at hsw
        subst hsw
        exact ⟨rfl, rfl⟩

theorem poolReport_entries (env : Env) (d : DomainRecord) :
    (poolReport env d).FailedDomains = [] ∧ (poolReport env d).DisconnectedDomains = [] ∧
    (∀ e ∈ (poolReport env d).NoForwardDomains, e = sprintfHostPort d.Domain d.Port) ∧
    (∀ sw ∈ (poolReport env d).SwitchedDomains, sw.Domain = d.Domain ∧ sw.Port = d.Port) := by
  unfold poolReport
  split_ifs
  · simp [emptyReport]
  · split
    · refine ⟨rfl, rfl, ?_, ?_⟩
      · simp [emptyReport]
      · exact switchEntries_domain env d _ _
    · simp [emptyReport]

theorem reportCoherent_domainReport (env : Env) (d : DomainRecord) :
    ReportCoherent (domainReport env d) := by
  unfold domainReport
  cases hc : env.checkConnectivity d.Domain d.Port with
  | none => refine ⟨?_, ?_, ?_⟩ <;> simp [emptyReport]
  | some result =>
    by_cases hr : result.Result = true
    · simp only [hr, if_true]
      exact reportCoherent_empty
    · simp only [hr]
      obtain ⟨_, _, p3, p4⟩ := poolReport_entries env d
      refine ⟨?_, ?_, ?_⟩
      · intro e he
        simp only [appendReport, emptyReport, List.nil_append] at he
        refine ⟨⟨d.Domain, d.Port, failReason result.Message⟩, ?_, (p3 e he).symm⟩
        simp [appendReport]
      · intro sw hsw
        simp only [appendReport, emptyReport, List.nil_append] at hsw
        refine ⟨⟨d.Domain, d.Port, failReason result.Message⟩, ?_, ?_⟩
        · simp [appendReport]
        · exact ⟨(p4 sw hsw).1.symm, (p4 sw hsw).2.symm⟩
      · intro _
        simp [appendReport]

theorem reportCoherent_concat (env : Env) (ds : List DomainRecord) :
    ReportCoherent (concatReports (ds.map (domainReport env))) := by
  induction ds with
  | nil => exact reportCoherent_empty
  | cons d ds ih => exact reportCoherent_append (reportCoherent_domainReport env d) ih

theorem domainReport_failed_or_disconnected (env : Env) (d : DomainRecord) :
    (domainReport env d).FailedDomains = [] ∨ (domainReport env d).DisconnectedDomains = [] := by
  unfold domainReport
  cases hc : env.checkConnectivity d.Domain d.Port with
  | none => right; rfl
  | some result =>
    left
    by_cases hr : result.Result = true
    · simp [hr, emptyReport]
    · simp [hr, appendReport, emptyReport, (poolReport_entries env d).1]

/-- C28: the report of a scheduled cycle and the report of a manual cycle satisfy
the invariant: every entry of `NoForwardDomains` (a `domain:port` text) and
every entry of `SwitchedDomains` has an entry with the same domain and port
in `DisconnectedDomains`, and `BannedForwards` is non-empty only if
`DisconnectedDomains` is non-empty. One evaluation of a domain, with or
without progress, leaves `FailedDomains` or `DisconnectedDomains` as it
was. -/
theorem cycle_report_coherent (env : Env) (timeText : String)
    (domains : Option (List DomainRecord)) (ds : List DomainRecord) (st : State) :
    ReportCoherent (performAutoCheck env timeText domains st).1.report ∧
    ReportCoherent (manualCheckDomains env ds st).report ∧
    (∀ (d : DomainRecord) (s : State),
      (checkDomain env d s).report.FailedDomains = s.report.FailedDomains ∨
      (checkDomain env d s).report.DisconnectedDomains = s.report.DisconnectedDomains) ∧
    (∀ (d : DomainRecord) (s : State),
      (checkDomainWithProgress env d s).report.FailedDomains = s.report.FailedDomains ∨
      (checkDomainWithProgress env d s).report.DisconnectedDomains =
        s.report.DisconnectedDomains) := by
  refine ⟨?_, ?_, ?_, ?_⟩
  · cases domains with
    | none => exact reportCoherent_empty
    | some l =>
      show ReportCoherent (checkDomains env l { st with report := emptyReport }).report
      rw [checkDomains_report]
      exact reportCoherent_append reportCoherent_empty (reportCoherent_concat env _)
  · unfold manualCheckDomains
    rw [checkDomainsWithProgress_report]
    exact reportCoherent_append reportCoherent_empty (reportCoherent_concat env _)
  · intro d s
    rw [checkDomain_report]
    rcases domainReport_failed_or_disconnected env d with h | h
    · left; simp [appendReport, h]
    · right; simp [appendReport, h]
  · intro d s
    rw [checkDomainWithProgress_report]
    rcases domainReport_failed_or_disconnected env d with h | h
    · left; simp [appendReport, h]
    · right; simp [appendReport, h]

/-! ## Messages of the probe backend -/

theorem startsWith_append_self (sub rest : List Char) : startsWith (sub ++ rest) sub = true := by
  induction sub with
  | nil => cases rest <;> rfl
  | cons c sub ih => simp [startsWith, ih]

theorem startsWith_append_left (s sub rest : List Char) (h : startsWith s sub = true) :
    startsWith (s ++ rest) sub = true := by
  induction s generalizing sub with
  | nil =>
    cases sub with
    | nil => cases rest <;> rfl
    | cons x p => simp [startsWith] at h
  | cons c s ih =>
    cases sub with
    | nil => rfl
    | cons x p =>
      simp only [startsWith, Bool.and_eq_true] at h
      simp [startsWith, h.1, ih p h.2]

theorem containsChars_nil_sub (s : List Char) : containsChars s [] = true := by
  cases s <;> rfl

theorem containsChars_append_left (s sub rest : List Char) (h : containsChars s sub = true) :
    containsChars (s ++ rest) sub = true := by
  induction s with
  | nil =>
    cases sub with
    | nil => exact containsChars_nil_sub _
    | cons x p => simp [containsChars, startsWith] at h
  | cons c s ih =>
    simp only [containsChars, Bool.or_eq_true] at h
    rcases h with h | h
    · have := startsWith_append_left (c :: s) sub rest h
      simp only [List.cons_append] at this ⊢
      simp [containsChars, this]
    · simp [containsChars, ih h]

theorem containsChars_append_right (pre s sub : List Char) (h : containsChars s sub = true) :
    containsChars (pre ++ s) sub = true := by
  induction pre with
  | nil => simpa using h
  | cons c pre ih => simp [containsChars, ih]

theorem startsWith_skip (c : Char) (sub : List Char) (hc : c ∉ sub) :
    ∀ (s rest : List Char), startsWith (s ++ c :: rest) sub = startsWith s sub := by
  induction sub with
  | nil => intro s rest; cases s <;> rfl
  | cons x p ih =>
    intro s rest
    have hx : c ≠ x := fun e => hc (by simp [e])
    have hp : c ∉ p := fun e => hc (by simp [e])
    cases s with
    | nil => simp [startsWith, hx]
    | cons t s => simp [startsWith, ih hp s rest]

theorem containsChars_skip (c : Char) (sub : List Char) (hc : c ∉ sub) (hsub : sub ≠ [])
    (s rest : List Char) :
    containsChars (s ++ c :: rest) sub = (containsChars s sub || containsChars rest sub) := by
  induction s with
  | nil =>
    cases sub with
    | nil => exact absurd rfl hsub
    | cons x p =>
      have hx : c ≠ x := fun e => hc (by simp [e])
      simp [containsChars, startsWith, hx]
  | cons t s ih =>
    have h1 := startsWith_skip c sub hc (t :: s) rest
    simp only [List.cons_append] at h1 ⊢
    simp [containsChars, h1, ih, Bool.or_assoc]

theorem containsChars_skip_all (sub : List Char) (hsub : sub ≠ []) (lit rest : List Char)
    (hlit : ∀ c ∈ lit, c ∉ sub) : containsChars (lit ++ rest) sub = containsChars rest sub := by
  induction lit with
  | nil => rfl
  | cons c lit ih =>
    have h := containsChars_skip c sub (hlit c (by simp)) hsub [] (lit ++ rest)
    have h0 : containsChars [] sub = false := by
      cases sub with
      | nil => exact absurd rfl hsub
      | cons x p => rfl
    simp only [List.nil_append, h0, Bool.false_or] at h
    simp only [List.cons_append, h]
    exact ih (fun c hc => hlit c (by simp [hc]))

theorem containsChars_between (sub : List Char) (hsub : sub ≠ []) (s lit rest : List Char)
    (hne : lit ≠ []) (hlit : ∀ c ∈ lit, c ∉ sub) :
    containsChars (s ++ (lit ++ rest)) sub = (containsChars s sub || containsChars rest sub) := by
  cases lit with
  | nil => exact absurd rfl hne
  | cons c lit =>
    rw [List.cons_append, containsChars_skip c sub (hlit c (by simp)) hsub,
      containsChars_skip_all sub hsub lit rest (fun c hc => hlit c (by simp [hc]))]

theorem dialAttempts_all_fail (dial : Nat → Option String) (maxTry : Nat) :
    ∀ (fuel i : Nat), i + fuel = maxTry + 1 → 0 < fuel →
      (∀ k, i ≤ k → k ≤ maxTry → dial k ≠ none) →
      (dialAttempts dial maxTry fuel i).1 = false := by
  intro fuel
  induction fuel with
  | zero => intro i _ h; exact absurd h (by decide)
  | succ fuel ih =>
    intro i hi _ hall
    unfold dialAttempts
    cases hd : dial i with
    | none => exact absurd hd (hall i (Nat.le_refl i) (by omega))
    | some e =>
      by_cases him : i = maxTry
      · simp [him]
      · simp only [him, if_false]
        exact ih (i + 1) (by omega) (by omega) (fun k hk hk2 => hall k (by omega) hk2)

theorem exhausted_message_passes (addr err : String) :
    isExhaustedMessage ("检测结束,目标 " ++ addr ++ "无法连接: " ++ err) = true := by
  unfold isExhaustedMessage stringsContains
  simp only [String.data_append, Bool.and_eq_true]
  constructor
  · simp [containsChars, startsWith]
  · rw [List.append_assoc]
    apply containsChars_append_right
    simp [containsChars, startsWith]

theorem unresolved_message_fails (target err : String)
    (htarget : stringsContains target "检测结束" = false)
    (herr : stringsContains err "检测结束" = false) :
    isExhaustedMessage ("无法解析目标 " ++ target ++ "的IP, 错误消息: " ++ err) = false := by
  unfold isExhaustedMessage
  have h : stringsContains ("无法解析目标 " ++ target ++ "的IP, 错误消息: " ++ err) "检测结束" = false := by
    unfold stringsContains at *
    simp only [String.data_append, List.append_assoc]
    rw [containsChars_skip_all _ (by decide) _ _ (by decide),
      containsChars_between _ (by decide) _ _ _ (by decide) (by decide), htarget, herr]
    rfl
  rw [h]
  rfl

/-- C29: when the lookup of the target succeeds and all five connection attempts
fail, the final message of `tcpCheckHandler` passes the ban test of the
selector; when the lookup fails (an error, or no address) the message does
not pass it, for a target and a resolver error text that do not contain
`检测结束`; and the selector, on that answer for an unbanned forward, goes on
to the next forward with the store as it was and no forward added to the
banned ones. -/
theorem backend_messages_and_ban_test (env : Env) (port : Int) (f : ForwardRecord)
    (rest : List ForwardRecord) (banned : List String) (st : State)
    (lookup : LookupAnswer) (dial : Nat → Option String) (publicIP target : String)
    (targetIP : String) (ips : List String)
    (hdial : ∀ k, 1 ≤ k → k ≤ 5 → dial k ≠ none)
    (htarget : stringsContains f.ForwardDomain "检测结束" = false)
    (herr : ∀ e, lookup.err = some e → stringsContains e "检测结束" = false)
    (hfail : lookup.err ≠ none ∨ lookup.ips = [])
    (hban : f.IsBan = false)
    (hprobe : env.checkConnectivity f.ForwardDomain port =
      some (decodeResponse (tcpCheckHandler lookup dial publicIP f.ForwardDomain port))) :
    (tcpCheckHandler ⟨targetIP :: ips, none⟩ dial publicIP target port).Result = false ∧
    isExhaustedMessage
      (tcpCheckHandler ⟨targetIP :: ips, none⟩ dial publicIP target port).Message = true ∧
    (tcpCheckHandler lookup dial publicIP f.ForwardDomain port).Result = false ∧
    isExhaustedMessage
      (tcpCheckHandler lookup dial publicIP f.ForwardDomain port).Message = false ∧
    forwardLoop env port (f :: rest) banned st =
      forwardLoop env port rest banned
        { store := st.store
          apiFailureCount := if st.apiFailureCount > 0 then 0 else st.apiFailureCount
          report := st.report
          trace := st.trace ++ [Effect.probe f.ForwardDomain port] } := by
  have hd := dialAttempts_all_fail dial 5 5 1 (by decide) (by decide) hdial
  have hres : (tcpCheckHandler lookup dial publicIP f.ForwardDomain port).Result = false ∧
      (tcpCheckHandler lookup dial publicIP f.ForwardDomain port).Message =
        "无法解析目标 " ++ f.ForwardDomain ++ "的IP, 错误消息: " ++ sprintfError lookup.err := by
    unfold tcpCheckHandler
    cases he : lookup.err with
    | some e => simp
    | none =>
      have hips : lookup.ips = [] := by
        rcases hfail with h | h
        · exact absurd he h
        · exact h
      simp [hips]
  have herr2 : stringsContains (sprintfError lookup.err) "检测结束" = false := by
    cases he : lookup.err with
    | some e => exact herr e he
    | none => decide
  have hmsg : isExhaustedMessage
      (tcpCheckHandler lookup dial publicIP f.ForwardDomain port).Message = false := by
    rw [hres.2]
    exact unresolved_message_fails _ _ htarget herr2
  refine ⟨?_, ?_, hres.1, hmsg, ?_⟩
  · simp [tcpCheckHandler, hd]
  · simp only [tcpCheckHandler, hd]
    exact exhausted_message_passes _ _
  · have hm2 : isExhaustedMessage
        (decodeResponse (tcpCheckHandler lookup dial publicIP f.ForwardDomain port)).Message =
        false := hmsg
    have hr2 : (decodeResponse
        (tcpCheckHandler lookup dial publicIP f.ForwardDomain port)).Result = false := hres.1
    rw [forwardLoop]
    simp only [hban, hprobe, hr2, hm2]
    simp [resetApiFailureCount]
    split_ifs <;> rfl

theorem backend_messages_and_ban_test_witness :
    isExhaustedMessage
      (tcpCheckHandler ⟨["192.0.2.9"], none⟩ exDialFails "198.51.100.1" "dead.example" 443).Message
      = true ∧
    (tcpCheckHandler exLookupFails exDialFails "198.51.100.1" "nx.example" 443).Message =
      "无法解析目标 nx.example的IP, 错误消息: lookup nx.example: no such host" ∧
    isExhaustedMessage
      (tcpCheckHandler exLookupFails exDialFails "198.51.100.1" exUnresolved.ForwardDomain
        443).Message = false ∧
    forwardLoop exEnvBackend 443 (exUnresolved :: exPool) [] (exState (exUnresolved :: exPool)) =
      forwardLoop exEnvBackend 443 exPool []
        { store := (exState (exUnresolved :: exPool)).store
          apiFailureCount := if (exState (exUnresolved :: exPool)).apiFailureCount > 0 then 0
            else (exState (exUnresolved :: exPool)).apiFailureCount
          report := (exState (exUnresolved :: exPool)).report
          trace := (exState (exUnresolved :: exPool)).trace ++
            [Effect.probe exUnresolved.ForwardDomain 443] } :=
  have h := backend_messages_and_ban_test exEnvBackend 443 exUnresolved exPool []
    (exState (exUnresolved :: exPool)) exLookupFails exDialFails "198.51.100.1" "dead.example"
    "192.0.2.9" [] (fun _ _ _ => by simp [exDialFails]) (by decide)
    (fun e he => Option.some.inj he ▸ by decide) (Or.inl (by decide)) (by decide) (by decide)
  ⟨h.2.1, by decide, h.2.2.2.1, h.2.2.2.2⟩

/-! ## The deciding response line -/

theorem scanResponse_skip (codec : JsonCodec) (hasCallback : Bool) (pre rest : List String)
    (hpre : ∀ l ∈ pre, isSkippedLine codec l = true) :
    ∀ calls : List (Int × Int), ∃ calls2 : List (Int × Int),
      scanResponse codec hasCallback (pre ++ rest) calls =
        scanResponse codec hasCallback rest calls2 := by
  induction pre with
  | nil => intro calls; exact ⟨calls, rfl⟩
  | cons l pre ih =>
    intro calls
    have ih2 := ih (fun x hx => hpre x (by simp [hx]))
    have hl := hpre l (by simp)
    simp only [List.cons_append]
    rw [scanResponse]
    by_cases he : l = ""
    · simp only [he, if_true]; exact ih2 calls
    · simp only [he, if_false]
      cases hu : codec.unmarshalResponse l with
      | none => exact ih2 calls
      | some apiResp =>
        simp only [isSkippedLine, he, hu, decide_False, Bool.false_or, Bool.and_eq_true,
          decide_eq_true_eq] at hl
        obtain ⟨hcode, hmsg⟩ := hl
        simp only [hcode, hmsg, if_false, if_true, true_and]
        by_cases h1 : apiResp.Code = 1 ∧ hasCallback = true
        · obtain ⟨h1a, h1b⟩ := h1
          subst h1b
          simp only [h1a, and_self, if_true]
          cases codec.progressOf apiResp.Data with
          | none => exact ih2 calls
          | some call => exact ih2 _
        · simp only [h1, if_false]; exact ih2 calls

/-- C30, counterexample: after an empty line, a line that does not parse and a
progress line, the first deciding line has code 0 and a data value that is a
JSON string; the call returns the error of the failed decoding of the data,
not a result without error. -/
theorem code_zero_line_can_fail :
    exCodec.unmarshalResponse exBadDataLine = some ⟨0, "success", "\"oops\""⟩ ∧
    exCodec.unmarshalData "\"oops\"" = none ∧
    (checkConnectivityWithProgress exCodec false
      (HttpExchange.body ["", "garbage", exProgressLine, exBadDataLine, exFinalLine])).1 =
        (zeroResponseData, some CheckError.unmarshalData) ∧
    (checkConnectivityWithProgress exCodec true
      (HttpExchange.body ["", "garbage", exProgressLine, exBadDataLine, exFinalLine])).1 =
        (zeroResponseData, some CheckError.unmarshalData) := by
  decide

/-- C30, amended: when the request is answered, the first response line that is
not empty, parses and is not a progress line (non-zero code with message
`progress`) decides the outcome, with or without a progress callback: with
code 0 the call returns the decoded data and no error when the data decodes
as a check result, and the decoding error otherwise; with a non-zero code
it returns the error `backend error` with the message of the line. The
lines before it are passed over, and when every line is passed over the
call returns the error `unexpected response format`. -/
theorem first_deciding_line_decides (codec : JsonCodec) (hasCallback : Bool)
    (pre rest : List String) (line : String) (apiResp : apiResponse)
    (hpre : ∀ l ∈ pre, isSkippedLine codec l = true)
    (hline : line ≠ "")
    (hparse : codec.unmarshalResponse line = some apiResp)
    (hdeciding : apiResp.Code = 0 ∨ apiResp.Message ≠ "progress") :
    isSkippedLine codec line = false ∧
    (apiResp.Code = 0 → ∀ result, codec.unmarshalData apiResp.Data = some result →
      (checkConnectivityWithProgress codec hasCallback
        (HttpExchange.body (pre ++ line :: rest))).1 = (result, none)) ∧
    (apiResp.Code = 0 → codec.unmarshalData apiResp.Data = none →
      (checkConnectivityWithProgress codec hasCallback
        (HttpExchange.body (pre ++ line :: rest))).1 =
          (zeroResponseData, some CheckError.unmarshalData)) ∧
    (apiResp.Code ≠ 0 →
      (checkConnectivityWithProgress codec hasCallback
        (HttpExchange.body (pre ++ line :: rest))).1.2 =
          some (CheckError.backendError apiResp.Message)) ∧
    (checkConnectivityWithProgress codec hasCallback (HttpExchange.body pre)).1 =
      (zeroResponseData, some CheckError.unexpectedResponseFormat) := by
  obtain ⟨calls2, hskip⟩ := scanResponse_skip codec hasCallback pre (line :: rest) hpre []
  have hskip0 := scanResponse_skip codec hasCallback pre [] hpre []
  refine ⟨?_, ?_, ?_, ?_, ?_⟩
  · simp only [isSkippedLine, hline, hparse, decide_False, Bool.false_or]
    rcases hdeciding with h | h
    · simp [h]
    · simp [h]
  · intro hcode result hdata
    show (scanResponse codec hasCallback (pre ++ line :: rest) []).1 = _
    rw [hskip, scanResponse]
    simp [hline, hparse, hcode, hdata]
  · intro hcode hdata
    show (scanResponse codec hasCallback (pre ++ line :: rest) []).1 = _
    rw [hskip, scanResponse]
    simp [hline, hparse, hcode, hdata]
  · intro hcode
    have hmsg : apiResp.Message ≠ "progress" := by
      rcases hdeciding with h | h
      · exact absurd h hcode
      · exact h
    show (scanResponse codec hasCallback (pre ++ line :: rest) []).1.2 = _
    rw [hskip, scanResponse]
    simp only [hline, hparse, hcode, hmsg, if_false, false_and, and_false]
    cases codec.unmarshalData apiResp.Data <;> rfl
  · obtain ⟨calls3, h3⟩ := hskip0
    show (scanResponse codec hasCallback pre []).1 = _
    rw [List.append_nil] at h3
    rw [h3]
    rfl

theorem first_deciding_line_decides_witness :
    isSkippedLine exCodec exFinalLine = false ∧
    (checkConnectivityWithProgress exCodec true
      (HttpExchange.body (["", "garbage", exProgressLine] ++ exFinalLine :: [exErrorLine]))).1 =
        ({ zeroResponseData with Result := true, TargetIp := "192.0.2.7" }, none) ∧
    (checkConnectivityWithProgress exCodec false
      (HttpExchange.body (["", "garbage", exProgressLine] ++ exErrorLine :: [exFinalLine]))).1.2 =
        some (CheckError.backendError "invalid key") ∧
    (checkConnectivityWithProgress exCodec true
      (HttpExchange.body ["", "garbage", exProgressLine])).1 =
        (zeroResponseData, some CheckError.unexpectedResponseFormat) :=
  have h := first_deciding_line_decides exCodec true ["", "garbage", exProgressLine]
    [exErrorLine] exFinalLine ⟨0, "success", "\x7b\"result\":true,\"target_ip\":\"192.0.2.7\"\x7d"⟩
    (by decide) (by decide) (by decide) (Or.inl rfl)
  have h2 := first_deciding_line_decides exCodec false ["", "garbage", exProgressLine]
    [exFinalLine] exErrorLine ⟨401, "invalid key", "null"⟩
    (by decide) (by decide) (by decide) (Or.inr (by decide))
  ⟨h.1, h.2.1 rfl _ (by decide), h2.2.2.2.1 (by decide), h.2.2.2.2⟩

/-! ## Check and resolve of one forward -/

/-- C27: for the unbanned forward 2 of the example pool, of record type A, whose
probe answers reachable at 192.0.2.7, `handleForwardCheckAndResolve` makes the
probe and no Cloudflare call, stores the probed IP and leaves the resolve
status `never`, and ends without a result message; for the same forward with
record type CNAME it makes the record update with the hostname of the
forward and marks the forward `success`. -/
theorem check_and_resolve_skips_A_record :
    exEnv.checkConnectivity "up.example" 443 = some (exAnswer true "192.0.2.7" "") ∧
    (exPool.find? (fun r => decide (r.ID = 2))).map (fun r => (r.ForwardDomain, r.RecordType)) =
      some ("up.example", "A") ∧
    (handleForwardCheckAndResolve exEnv [exDomain exPool] 2 (exState exPool)).1.trace =
      [Effect.probe "up.example" 443] ∧
    (handleForwardCheckAndResolve exEnv [exDomain exPool] 2 (exState exPool)).2 = none ∧
    (handleForwardCheckAndResolve exEnv [exDomain exPool] 2 (exState exPool)).1.store.map
      (fun r => (r.ID, r.IP, r.ResolveStatus)) =
      [(1, "", "never"), (2, "192.0.2.7", "never"), (3, "", "never")] ∧
    (handleForwardCheckAndResolve exEnv [exDomain [exForwardCname]] 8
      (exState [exForwardCname])).1.trace =
      [Effect.probe "up.example" 443, Effect.zoneIDByName "example.com",
       Effect.apiUpdateDNSRecord "zone-1"
         { ID := "rec-1", Type_ := "CNAME", Name := "api.example.com", Content := "up.example",
           TTL := 60, Proxied := false }] ∧
    (handleForwardCheckAndResolve exEnv [exDomain [exForwardCname]] 8
      (exState [exForwardCname])).1.store.map (fun r => (r.ID, r.IP, r.ResolveStatus)) =
      [(8, "192.0.2.7", "success")] ∧
    (handleForwardCheckAndResolve exEnv [exDomain [exForwardCname]] 8
      (exState [exForwardCname])).2 =
      some (ResolveNotice.success "api.example.com" "CNAME" "up.example") := by
  decide

/-! ## Rejected edit input -/

/-- C26, counterexample: the sessions are open on domain 7 and on forward 9, which
are not in the tables (deleted after the sessions were opened); on the
non-numeric text `abc` both handlers write nothing but close the session
instead of keeping it open. -/
theorem missing_row_closes_session :
    Atoi (TrimSpace "abc") = none ∧
    (exAdminState 7 9).domainEditSession = some { DomainID := 7, Field := "port" } ∧
    (handleDomainEditInput exEnv exAdminWorld "abc" (exAdminState 7 9)).2 =
      { exAdminState 7 9 with domainEditSession := none, sent := ["❌ 未找到该主域名"] } ∧
    (exAdminState 7 9).forwardEditSession = some { ForwardID := 9, Field := "weight" } ∧
    (handleForwardEditInput exEnv exAdminWorld "abc" (exAdminState 7 9)).2 =
      { exAdminState 7 9 with forwardEditSession := none, sent := ["❌ 未找到该转发记录"] } := by
  decide

/-- C26, amended: with an open session, a text that is empty after trimming is
answered with the request to enter it again, and nothing else changes:
neither table and neither session. The same holds for a text that is not a
number when the session is on the port or the sort order of a domain, or on
the weight or the sort order of a forward, the database is open and the row
under edit is still in its table. -/
theorem rejected_edit_input_keeps_store (env : Env) (w : AdminWorld) (messageText : String)
    (st : AdminState) :
    (∀ ds : DomainEditSession, st.domainEditSession = some ds →
      (TrimSpace messageText = "" →
        handleDomainEditInput env w messageText st =
          (true, { st with sent := st.sent ++ ["❌ 输入不能为空，请重新输入。"] })) ∧
      (TrimSpace messageText ≠ "" → Atoi (TrimSpace messageText) = none → w.dbReady = true →
        (∃ d ∈ st.domains, d.ID = ds.DomainID) →
        (ds.Field = "port" → handleDomainEditInput env w messageText st =
          (true, { st with sent := st.sent ++ ["❌ 端口必须是数字，请重新输入。"] })) ∧
        (ds.Field = "sort" → handleDomainEditInput env w messageText st =
          (true, { st with sent := st.sent ++ ["❌ 排序值必须是数字，请重新输入。"] })))) ∧
    (∀ fs : ForwardEditSession, st.forwardEditSession = some fs →
      (TrimSpace messageText = "" →
        handleForwardEditInput env w messageText st =
          (true, { st with sent := st.sent ++ ["❌ 输入不能为空，请重新输入。"] })) ∧
      (TrimSpace messageText ≠ "" → Atoi (TrimSpace messageText) = none → w.dbReady = true →
        (∃ f ∈ st.forwards, f.ID = fs.ForwardID) →
        (fs.Field = "weight" → handleForwardEditInput env w messageText st =
          (true, { st with sent := st.sent ++ ["❌ 权重必须是数字，请重新输入。"] })) ∧
        (fs.Field = "sort" → handleForwardEditInput env w messageText st =
          (true, { st with sent := st.sent ++ ["❌ 排序值必须是数字，请重新输入。"] })))) := by
  refine ⟨?_, ?_⟩
  · intro ds hds
    refine ⟨?_, ?_⟩
    · intro hempty
      simp [handleDomainEditInput, hds, hempty, SendMessage]
    · intro hne hatoi hdb hrow
      obtain ⟨d, hd, hid⟩ := hrow
      have hfind : ∃ d1, st.domains.find? (fun r => decide (r.ID = ds.DomainID)) = some d1 := by
        cases hf : st.domains.find? (fun r => decide (r.ID = ds.DomainID)) with
        | some d1 => exact ⟨d1, rfl⟩
        | none =>
          have := List.find?_eq_none.1 hf d hd
          simp [hid] at this
      obtain ⟨d1, hd1⟩ := hfind
      constructor
      · intro hfield
        simp [handleDomainEditInput, hds, hne, hdb, hd1, hfield, hatoi, SendMessage]
      · intro hfield
        simp [handleDomainEditInput, hds, hne, hdb, hd1, hfield, hatoi, SendMessage]
  · intro fs hfs
    refine ⟨?_, ?_⟩
    · intro hempty
      simp [handleForwardEditInput, hfs, hempty, SendMessage]
    · intro hne hatoi hdb hrow
      obtain ⟨f, hf, hid⟩ := hrow
      have hfind : ∃ f1, st.forwards.find? (fun r => decide (r.ID = fs.ForwardID)) = some f1 := by
        cases hf1 : st.forwards.find? (fun r => decide (r.ID = fs.ForwardID)) with
        | some f1 => exact ⟨f1, rfl⟩
        | none =>
          have := List.find?_eq_none.1 hf1 f hf
          simp [hid] at this
      obtain ⟨f1, hf1⟩ := hfind
      constructor
      · intro hfield
        simp [handleForwardEditInput, hfs, hne, hdb, hf1, hfield, hatoi, SendMessage]
      · intro hfield
        simp [handleForwardEditInput, hfs, hne, hdb, hf1, hfield, hatoi, SendMessage]

theorem rejected_edit_input_keeps_store_witness :
    (exAdminState 1 2).domainEditSession = some { DomainID := 1, Field := "port" } ∧
    (exAdminState 1 2).forwardEditSession = some { ForwardID := 2, Field := "weight" } ∧
    handleDomainEditInput exEnv exAdminWorld "  " (exAdminState 1 2) =
      (true, { exAdminState 1 2 with
        sent := (exAdminState 1 2).sent ++ ["❌ 输入不能为空，请重新输入。"] }) ∧
    handleDomainEditInput exEnv exAdminWorld "80a" (exAdminState 1 2) =
      (true, { exAdminState 1 2 with
        sent := (exAdminState 1 2).sent ++ ["❌ 端口必须是数字，请重新输入。"] }) ∧
    handleForwardEditInput exEnv exAdminWorld "80a" (exAdminState 1 2) =
      (true, { exAdminState 1 2 with
        sent := (exAdminState 1 2).sent ++ ["❌ 权重必须是数字，请重新输入。"] }) ∧
    (handleDomainEditInput exEnv exAdminWorld "8443" (exAdminState 1 2)).2.domains.map
      (fun d => (d.ID, d.Port)) = [(1, 8443)] :=
  ⟨by decide, by decide,
    ((rejected_edit_input_keeps_store exEnv exAdminWorld "  " (exAdminState 1 2)).1 _ rfl).1
      (by decide),
    (((rejected_edit_input_keeps_store exEnv exAdminWorld "80a" (exAdminState 1 2)).1 _ rfl).2
      (by decide) (by decide) rfl ⟨exDomain [], by decide, by decide⟩).1 rfl,
    (((rejected_edit_input_keeps_store exEnv exAdminWorld "80a" (exAdminState 1 2)).2 _ rfl).2
      (by decide) (by decide) rfl
        ⟨exForward 2 "up.example" false 0 20 "never", by decide, by decide⟩).1 rfl,
    by decide⟩

/-! ## Decimal texts -/

/-- The value of a run of decimal digits read after the value `acc`. -/
theorem parseDigits_eq_foldl (l : List Char) (hl : ∀ c ∈ l, c.isDigit = true) :
    ∀ acc : Nat, parseDigits l acc = some (l.foldl (fun a c => a * 10 + (c.toNat - 48)) acc) := by
  induction l with
  | nil => intro acc; rfl
  | cons c l ih =>
    intro acc
    have hc : c.isDigit = true := hl c (by simp)
    simp only [parseDigits, hc, if_true, List.foldl_cons]
    exact ih (fun x hx => hl x (by simp [hx])) _

theorem digitChar_digit (k : Nat) (hk : k < 10) :
    (Nat.digitChar k).isDigit = true ∧ (Nat.digitChar k).toNat - 48 = k := by
  interval_cases k <;> decide

theorem toDigitsCore_spec (fuel : Nat) :
    ∀ (n : Nat) (ds : List Char), n < fuel →
      ∃ l : List Char, Nat.toDigitsCore 10 fuel n ds = l ++ ds ∧ l ≠ [] ∧
        (∀ c ∈ l, c.isDigit = true) ∧
        l.foldl (fun a c => a * 10 + (c.toNat - 48)) 0 = n := by
  induction fuel with
  | zero => intro n ds h; exact absurd h (Nat.not_lt_zero n)
  | succ fuel ih =>
    intro n ds hn
    have hd := digitChar_digit (n % 10) (Nat.mod_lt n (by decide))
    unfold Nat.toDigitsCore
    by_cases h0 : n / 10 = 0
    · simp only [h0, if_true]
      refine ⟨[Nat.digitChar (n % 10)], rfl, by simp, ?_, ?_⟩
      · intro c hc
        simp only [List.mem_singleton] at hc
        rw [hc]; exact hd.1
      · simp only [List.foldl_cons, List.foldl_nil, Nat.zero_mul, Nat.zero_add]
        rw [hd.2]
        omega
    · simp only [h0, if_false]
      obtain ⟨l, hl, _, hdig, hval⟩ := ih (n / 10) (Nat.digitChar (n % 10) :: ds) (by omega)
      refine ⟨l ++ [Nat.digitChar (n % 10)], ?_, by simp, ?_, ?_⟩
      · rw [hl]; simp
      · intro c hc
        simp only [List.mem_append, List.mem_singleton] at hc
        rcases hc with hc | hc
        · exact hdig c hc
        · rw [hc]; exact hd.1
      · rw [List.foldl_append, hval]
        simp only [List.foldl_cons, List.foldl_nil]
        rw [hd.2]
        omega

/-- The decimal text of a natural number: a non-empty run of digits of that
value. -/
theorem toString_nat_spec (n : Nat) :
    (toString n).data ≠ [] ∧ (∀ c ∈ (toString n).data, c.isDigit = true) ∧
    (toString n).data.foldl (fun a c => a * 10 + (c.toNat - 48)) 0 = n := by
  obtain ⟨l, hl, hne, hdig, hval⟩ := toDigitsCore_spec (n + 1) n [] (Nat.lt_succ_self n)
  have h : (toString n).data = l := by
    show (Nat.toDigits 10 n).asString.data = l
    unfold Nat.toDigits
    rw [hl]
    simp [List.asString]
  rw [h]
  exact ⟨hne, hdig, hval⟩

theorem toString_int_ofNat (m : Nat) : toString (Int.ofNat m) = toString m := rfl

theorem toString_int_negSucc (m : Nat) :
    toString (Int.negSucc m) = "-" ++ toString (m + 1) := rfl

theorem parseMagnitude_toString (n : Nat) : parseMagnitude (toString n).data = some n := by
  obtain ⟨hne, hdig, hval⟩ := toString_nat_spec n
  unfold parseMagnitude
  rw [if_neg hne, parseDigits_eq_foldl _ hdig, hval]

theorem isDigit_ne_sign (c : Char) (hc : c.isDigit = true) : c ≠ '-' ∧ c ≠ '+' := by
  constructor <;> (intro h; rw [h] at hc; exact absurd hc (by decide))

/-- The text that `%d` prints is read back by `strconv.Atoi` when the value fits
`int`. -/
theorem Atoi_toString (i : Int) (hlo : -(2 : Int) ^ 63 ≤ i) (hhi : i < (2 : Int) ^ 63) :
    Atoi (toString i) = some i := by
  cases i with
  | ofNat m =>
    obtain ⟨hne, hdig, _⟩ := toString_nat_spec m
    have hm : m < 2 ^ 63 := by
      have : (m : Int) < (2 : Int) ^ 63 := hhi
      exact_mod_cast this
    rw [toString_int_ofNat]
    have hp := parseMagnitude_toString m
    unfold Atoi
    cases hd : (toString m).data with
    | nil => exact absurd hd hne
    | cons c cs =>
      have hcd := hdig c (by rw [hd]; simp)
      obtain ⟨h1, h2⟩ := isDigit_ne_sign c hcd
      rw [hd] at hp
      split
      · rename_i heq; simp at heq; exact absurd heq.1 h1
      · rename_i heq; simp at heq; exact absurd heq.1 h2
      · simp only [hp]
        norm_num at hm ⊢
        intro h
        omega
  | negSucc m =>
    have hm : m + 1 ≤ 2 ^ 63 := by
      have h : -(2 : Int) ^ 63 ≤ Int.negSucc m := hlo
      rw [Int.negSucc_eq] at h
      have h2 : ((m : Int) + 1) ≤ (2 : Int) ^ 63 := by omega
      exact_mod_cast h2
    rw [toString_int_negSucc]
    have hp := parseMagnitude_toString (m + 1)
    have hdata : ("-" ++ toString (m + 1)).data = '-' :: (toString (m + 1)).data := by
      rw [String.data_append]; rfl
    unfold Atoi
    rw [hdata]
    simp only [hp, hm, if_true]
    rw [Int.negSucc_eq]
    push_cast
    rfl

/-! ## Rejected uploads -/

theorem exUpload_parses :
    (match parseBatchUploadContent exUpload with
      | Except.ok rs => rs.map (fun r => (r.Domain, r.Port, r.IsDisableCheck, r.SortOrder))
      | Except.error _ => []) =
      [("main.example.com", 80, false, 1), ("other.example.com", 443, true, 2)] ∧
    (match parseBatchUploadContent exUpload with
      | Except.ok rs => rs.map (fun r => r.Forwards.map (fun f => (f.ForwardDomain, f.RecordType)))
      | Except.error _ => []) =
      [[("f1.example.com", "A"), ("f2.example.com", "CNAME")], [("g.example.com", "A")]] ∧
    parseBatchUploadContent exUploadBad = Except.error ⟨3, UploadErrorKind.port⟩ := by
  decide

theorem uploadFields_getD (raw : String) (i : Nat) :
    (uploadFields raw).getD i "" =
      TrimSpace (((splitChars '|' (TrimSpace raw).data).map String.mk).getD i "") := by
  unfold uploadFields
  have h : ("" : String) = TrimSpace "" := by decide
  conv_lhs => rw [h]
  exact List.getD_map _ "" TrimSpace

theorem uploadFields_length (raw : String) :
    (uploadFields raw).length = ((splitChars '|' (TrimSpace raw).data).map String.mk).length := by
  unfold uploadFields
  exact List.length_map _ _

/-- The checks of lines 98-135 reject a data line exactly when it is malformed. -/
theorem parseUploadLine_error_iff (raw : String) (hdata : isDataLine raw = true) :
    (∃ kind, parseUploadLine (TrimSpace raw) = Except.error kind) ↔
      isMalformedLine raw = true := by
  unfold isMalformedLine parseUploadLine
  simp only [hdata, Bool.true_and, uploadFields_getD, uploadFields_length]
  generalize ((splitChars '|' (TrimSpace raw).data).map String.mk) = parts
  by_cases hlen : parts.length < 11
  · simp only [hlen, if_true, decide_True, Bool.true_or]
    exact ⟨fun _ => trivial, fun _ => ⟨_, rfl⟩⟩
  · simp only [hlen, if_false, decide_False, Bool.false_or]
    cases h1 : Atoi (TrimSpace (parts.getD 1 ""))
    · simp
    · cases h2 : Atoi (TrimSpace (parts.getD 3 ""))
      · simp
      · cases h3 : Atoi (TrimSpace (parts.getD 8 ""))
        · simp
        · cases h4 : Atoi (TrimSpace (parts.getD 9 ""))
          · simp
          · simp

theorem isMalformedLine_data (raw : String) (h : isMalformedLine raw = true) :
    isDataLine raw = true := by
  unfold isMalformedLine at h
  simp only [Bool.and_eq_true] at h
  exact h.1

theorem isDataLine_iff (raw : String) :
    isDataLine raw = true ↔ ¬ (TrimSpace raw = "" ∨ HasPrefix (TrimSpace raw) "#" = true) := by
  unfold isDataLine
  simp

theorem parseUploadLines_ok (ls : List String) :
    ∀ (lineNum : Nat) (domainMap : List (String × DomainRecord)),
      (∀ l ∈ ls, isMalformedLine l = false) →
      ∃ m, parseUploadLines ls lineNum domainMap = Except.ok m := by
  induction ls with
  | nil => intro lineNum domainMap _; exact ⟨domainMap, rfl⟩
  | cons raw rest ih =>
    intro lineNum domainMap hall
    have hrest : ∀ l ∈ rest, isMalformedLine l = false := fun l hl => hall l (by simp [hl])
    unfold parseUploadLines
    by_cases hskip : TrimSpace raw = "" ∨ HasPrefix (TrimSpace raw) "#" = true
    · simp only [hskip, if_true]
      exact ih _ _ hrest
    · simp only [hskip, if_false]
      have hdata : isDataLine raw = true := (isDataLine_iff raw).2 hskip
      cases hp : parseUploadLine (TrimSpace raw) with
      | error kind =>
        have := (parseUploadLine_error_iff raw hdata).1 ⟨kind, hp⟩
        rw [hall raw (by simp)] at this
        exact absurd this (by decide)
      | ok l => exact ih _ _ hrest

theorem parseUploadLines_error (pre : List String) (raw : String) (post : List String) :
    ∀ (lineNum : Nat) (domainMap : List (String × DomainRecord)),
      (∀ l ∈ pre, isMalformedLine l = false) → isMalformedLine raw = true →
      ∃ kind, parseUploadLines (pre ++ raw :: post) lineNum domainMap =
        Except.error ⟨lineNum + pre.length + 1, kind⟩ := by
  induction pre with
  | nil =>
    intro lineNum domainMap _ hbad
    have hdata := isMalformedLine_data raw hbad
    have hskip := (isDataLine_iff raw).1 hdata
    obtain ⟨kind, hk⟩ := (parseUploadLine_error_iff raw hdata).2 hbad
    refine ⟨kind, ?_⟩
    simp only [List.nil_append, List.length_nil, Nat.add_zero]
    unfold parseUploadLines
    simp only [hskip, if_false, hk]
  | cons p pre ih =>
    intro lineNum domainMap hall hbad
    have hpre : ∀ l ∈ pre, isMalformedLine l = false := fun l hl => hall l (by simp [hl])
    have hp : isMalformedLine p = false := hall p (by simp)
    simp only [List.cons_append, List.length_cons]
    unfold parseUploadLines
    by_cases hskip : TrimSpace p = "" ∨ HasPrefix (TrimSpace p) "#" = true
    · simp only [hskip, if_true]
      obtain ⟨kind, hk⟩ := ih (lineNum + 1) domainMap hpre hbad
      exact ⟨kind, by rw [hk]; congr 2; omega⟩
    · simp only [hskip, if_false]
      have hdata : isDataLine p = true := (isDataLine_iff p).2 hskip
      cases hpl : parseUploadLine (TrimSpace p) with
      | error kind =>
        have := (parseUploadLine_error_iff p hdata).1 ⟨kind, hpl⟩
        rw [hp] at this
        exact absurd this (by decide)
      | ok l =>
        obtain ⟨kind, hk⟩ := ih (lineNum + 1) (mergeUploadLine l domainMap) hpre hbad
        exact ⟨kind, by dsimp only; rw [hk]; congr 2; omega⟩

theorem exists_first (p : String → Bool) (ls : List String) (h : ∃ raw ∈ ls, p raw = true) :
    ∃ pre raw post, ls = pre ++ raw :: post ∧ (∀ l ∈ pre, p l = false) ∧ p raw = true := by
  induction ls with
  | nil => obtain ⟨raw, hraw, _⟩ := h; simp at hraw
  | cons x xs ih =>
    by_cases hx : p x = true
    · exact ⟨[], x, xs, rfl, by simp, hx⟩
    · have hx2 : p x = false := by simpa using hx
      obtain ⟨raw, hraw, hp⟩ := h
      have hmem : raw ∈ xs := by
        rcases List.mem_cons.1 hraw with e | e
        · rw [e] at hp; rw [hp] at hx2; exact absurd hx2 (by decide)
        · exact e
      obtain ⟨pre, r, post, he, hpre, hr⟩ := ih ⟨raw, hmem, hp⟩
      refine ⟨x :: pre, r, post, by rw [he]; rfl, ?_, hr⟩
      intro l hl
      rcases List.mem_cons.1 hl with e | e
      · rw [e]; exact hx2
      · exact hpre l e

/-- C23: `parseBatchUploadContent` returns an error (and with it no records) if and
only if some line of the content is malformed: after trimming it is not
empty and does not start with `#`, and it has fewer than 11 fields between
`|`, or a port, sort order, weight or forward sort field that `strconv.Atoi`
rejects. The line number in the error is the 1-based number of the first
malformed line. -/
theorem parseBatchUploadContent_error_iff (content : String) :
    ((∃ e, parseBatchUploadContent content = Except.error e) ↔
      ∃ raw ∈ splitLines content, isMalformedLine raw = true) ∧
    (∀ e, parseBatchUploadContent content = Except.error e →
      ∃ pre raw post, splitLines content = pre ++ raw :: post ∧
        (∀ l ∈ pre, isMalformedLine l = false) ∧ isMalformedLine raw = true ∧
        e.line = pre.length + 1) ∧
    ((∀ raw ∈ splitLines content, isMalformedLine raw = false) →
      ∃ records, parseBatchUploadContent content = Except.ok records) := by
  have hgood : (∀ raw ∈ splitLines content, isMalformedLine raw = false) →
      ∃ records, parseBatchUploadContent content = Except.ok records := by
    intro hall
    obtain ⟨m, hm⟩ := parseUploadLines_ok (splitLines content) 0 [] hall
    exact ⟨m.map (fun e => e.2), by unfold parseBatchUploadContent; rw [hm]⟩
  have hbad : (∃ raw ∈ splitLines content, isMalformedLine raw = true) →
      ∃ pre raw post kind, splitLines content = pre ++ raw :: post ∧
        (∀ l ∈ pre, isMalformedLine l = false) ∧ isMalformedLine raw = true ∧
        parseBatchUploadContent content = Except.error ⟨pre.length + 1, kind⟩ := by
    intro h
    obtain ⟨pre, raw, post, he, hpre, hraw⟩ := exists_first isMalformedLine _ h
    obtain ⟨kind, hk⟩ := parseUploadLines_error pre raw post 0 [] hpre hraw
    refine ⟨pre, raw, post, kind, he, hpre, hraw, ?_⟩
    unfold parseBatchUploadContent
    rw [he, hk]
    simp
  have hcases : (∃ raw ∈ splitLines content, isMalformedLine raw = true) ∨
      (∀ raw ∈ splitLines content, isMalformedLine raw = false) := by
    by_cases h : ∃ raw ∈ splitLines content, isMalformedLine raw = true
    · exact Or.inl h
    · right
      intro raw hraw
      cases hm : isMalformedLine raw with
      | false => rfl
      | true => exact absurd ⟨raw, hraw, hm⟩ h
  refine ⟨⟨?_, ?_⟩, ?_, hgood⟩
  · intro he
    rcases hcases with h | h
    · exact h
    · obtain ⟨e, he⟩ := he
      obtain ⟨records, hr⟩ := hgood h
      rw [hr] at he
      exact absurd he (by simp)
  · intro h
    obtain ⟨pre, raw, post, kind, _, _, _, hk⟩ := hbad h
    exact ⟨_, hk⟩
  · intro e he
    rcases hcases with h | h
    · obtain ⟨pre, raw, post, kind, hsplit, hpre, hraw, hk⟩ := hbad h
      rw [hk] at he
      refine ⟨pre, raw, post, hsplit, hpre, hraw, ?_⟩
      injection he with he
      rw [← he]
    · obtain ⟨records, hr⟩ := hgood h
      rw [hr] at he
      exact absurd he (by simp)

theorem parseBatchUploadContent_error_iff_witness :
    (∃ raw ∈ splitLines exUploadBad, isMalformedLine raw = true) ∧
    (∃ e, parseBatchUploadContent exUploadBad = Except.error e) ∧
    parseBatchUploadContent exUploadBad = Except.error ⟨3, UploadErrorKind.port⟩ ∧
    (splitLines exUploadBad).map isMalformedLine = [false, false, true, true] ∧
    (∃ records, parseBatchUploadContent exUpload = Except.ok records) :=
  ⟨⟨"main.example.com|http|false|1|f2.example.com|192.0.2.2||false|20|2|A", by decide,
      by decide⟩,
    (parseBatchUploadContent_error_iff exUploadBad).1.2
      ⟨"main.example.com|http|false|1|f2.example.com|192.0.2.2||false|20|2|A", by decide,
        by decide⟩,
    by decide, by decide,
    (parseBatchUploadContent_error_iff exUpload).2.2 (by decide)⟩

/-! ## Grouping of an upload by domain and port -/

theorem append_sep_inj (x : Char) :
    ∀ (u u2 v v2 : List Char), x ∉ u → x ∉ u2 → u ++ x :: v = u2 ++ x :: v2 →
      u = u2 ∧ v = v2 := by
  intro u
  induction u with
  | nil =>
    intro u2 v v2 _ h2 h
    cases u2 with
    | nil => simp at h; exact ⟨rfl, h⟩
    | cons y u2 =>
      simp at h
      exact absurd h.1 (fun e => h2 (by simp [e]))
  | cons a u ih =>
    intro u2 v v2 h1 h2 h
    cases u2 with
    | nil =>
      simp at h
      exact absurd h.1 (fun e => h1 (by simp [e]))
    | cons y u2 =>
      simp at h
      obtain ⟨hu, hv⟩ := ih u2 v v2 (fun e => h1 (by simp [e])) (fun e => h2 (by simp [e])) h.2
      exact ⟨by rw [h.1, hu], hv⟩

theorem sep_append_inj (x : Char) (a b c d : List Char) (hc : x ∉ c) (hd : x ∉ d)
    (h : a ++ x :: c = b ++ x :: d) : a = b ∧ c = d := by
  have hr : c.reverse ++ x :: a.reverse = d.reverse ++ x :: b.reverse := by
    have := congrArg List.reverse h
    simpa using this
  obtain ⟨h1, h2⟩ := append_sep_inj x _ _ _ _ (by simpa using hc) (by simpa using hd) hr
  exact ⟨List.reverse_injective h2, List.reverse_injective h1⟩

theorem toString_int_data (i : Int) :
    (∃ m : Nat, i = Int.ofNat m ∧ (toString i).data = (toString m).data) ∨
    (∃ m : Nat, i = Int.negSucc m ∧ (toString i).data = '-' :: (toString (m + 1)).data) := by
  cases i with
  | ofNat m => exact Or.inl ⟨m, rfl, rfl⟩
  | negSucc m =>
    refine Or.inr ⟨m, rfl, ?_⟩
    rw [toString_int_negSucc, String.data_append]
    rfl

theorem toString_nat_injective (m n : Nat) (h : (toString m).data = (toString n).data) :
    m = n := by
  have h1 := (toString_nat_spec m).2.2
  have h2 := (toString_nat_spec n).2.2
  rw [h] at h1
  rw [← h1, h2]

theorem toString_int_injective (i j : Int) (h : toString i = toString j) : i = j := by
  have hd : (toString i).data = (toString j).data := by rw [h]
  rcases toString_int_data i with ⟨m, hi, hmi⟩ | ⟨m, hi, hmi⟩ <;>
    rcases toString_int_data j with ⟨n, hj, hnj⟩ | ⟨n, hj, hnj⟩
  · rw [hmi, hnj] at hd
    rw [hi, hj, toString_nat_injective m n hd]
  · rw [hmi, hnj] at hd
    obtain ⟨hne, hdig, _⟩ := toString_nat_spec m
    cases hl : (toString m).data with
    | nil => exact absurd hl hne
    | cons c cs =>
      rw [hl] at hd
      have hc := hdig c (by rw [hl]; simp)
      injection hd with e1 _
      exact absurd e1 (isDigit_ne_sign c hc).1
  · rw [hmi, hnj] at hd
    obtain ⟨hne, hdig, _⟩ := toString_nat_spec n
    cases hl : (toString n).data with
    | nil => exact absurd hl hne
    | cons c cs =>
      rw [hl] at hd
      have hc := hdig c (by rw [hl]; simp)
      injection hd with e1 _
      exact absurd e1.symm (isDigit_ne_sign c hc).1
  · rw [hmi, hnj] at hd
    injection hd with _ e2
    have := toString_nat_injective _ _ e2
    rw [hi, hj]
    congr 1
    omega

theorem toString_int_no_char (i : Int) (x : Char) (hx : x.isDigit = false) (hm : x ≠ '-') :
    x ∉ (toString i).data := by
  intro hmem
  rcases toString_int_data i with ⟨m, _, hmi⟩ | ⟨m, _, hmi⟩
  · rw [hmi] at hmem
    have := (toString_nat_spec m).2.1 x hmem
    rw [hx] at this
    exact absurd this (by decide)
  · rw [hmi] at hmem
    rcases List.mem_cons.1 hmem with e | e
    · exact hm e
    · have := (toString_nat_spec (m + 1)).2.1 x e
      rw [hx] at this
      exact absurd this (by decide)

/-- The merge key `domain:port` determines the domain and the port. -/
theorem sprintfHostPort_injective (d1 d2 : String) (p1 p2 : Int)
    (h : sprintfHostPort d1 p1 = sprintfHostPort d2 p2) : d1 = d2 ∧ p1 = p2 := by
  unfold sprintfHostPort at h
  have hd : d1.data ++ ':' :: (toString p1).data = d2.data ++ ':' :: (toString p2).data := by
    have := congrArg String.data h
    simpa [String.data_append] using this
  obtain ⟨h1, h2⟩ := sep_append_inj ':' _ _ _ _
    (toString_int_no_char p1 ':' (by decide) (by decide))
    (toString_int_no_char p2 ':' (by decide) (by decide)) hd
  exact ⟨String.ext h1, toString_int_injective p1 p2 (String.ext h2)⟩

theorem hasPair_iff (domain : String) (port : Int) (l : UploadLine) :
    hasPair domain port l = true ↔ l.domain = domain ∧ l.port = port := by
  unfold hasPair
  simp

theorem filter_find_append_of_not (seen : List UploadLine) (l : UploadLine) (domain : String)
    (port : Int) (h : hasPair domain port l = false) :
    (seen ++ [l]).filter (hasPair domain port) = seen.filter (hasPair domain port) ∧
    (seen ++ [l]).find? (hasPair domain port) = seen.find? (hasPair domain port) := by
  constructor
  · simp [List.filter_append, h]
  · rw [List.find?_append]
    simp [List.find?, h]

theorem filter_find_append_of_pair (seen : List UploadLine) (l : UploadLine) (domain : String)
    (port : Int) (h : hasPair domain port l = true) :
    (seen ++ [l]).filter (hasPair domain port) = seen.filter (hasPair domain port) ++ [l] ∧
    (∀ first, seen.find? (hasPair domain port) = some first →
      (seen ++ [l]).find? (hasPair domain port) = some first) ∧
    (seen.find? (hasPair domain port) = none →
      (seen ++ [l]).find? (hasPair domain port) = some l) := by
  refine ⟨?_, ?_, ?_⟩
  · simp [List.filter_append, h]
  · intro first hf
    rw [List.find?_append, hf]
    rfl
  · intro hf
    rw [List.find?_append, hf]
    simp [List.find?, h]

theorem groupsLines_merge (domainMap : List (String × DomainRecord)) (seen : List UploadLine)
    (l : UploadLine) (hinv : GroupsLines domainMap seen) :
    GroupsLines (mergeUploadLine l domainMap) (seen ++ [l]) := by
  obtain ⟨hnd, hkey, hgrp, hall⟩ := hinv
  have hpair_of_key : ∀ e ∈ domainMap, e.1 = sprintfHostPort l.domain l.port →
      e.2.Domain = l.domain ∧ e.2.Port = l.port := by
    intro e he hk
    rw [hkey e he] at hk
    exact sprintfHostPort_injective _ _ _ _ hk
  have hkey_of_pair : ∀ e ∈ domainMap, e.2.Domain = l.domain → e.2.Port = l.port →
      e.1 = sprintfHostPort l.domain l.port := by
    intro e he h1 h2
    rw [hkey e he, h1, h2]
  unfold mergeUploadLine
  by_cases hany : domainMap.any (fun e => e.1 == sprintfHostPort l.domain l.port) = true
  · rw [if_pos hany]
    obtain ⟨e0, he0, hk0⟩ := List.any_eq_true.1 hany
    have hk0 : e0.1 = sprintfHostPort l.domain l.port := by simpa using hk0
    refine ⟨?_, ?_, ?_, ?_⟩
    · rw [List.map_map]
      have : ((fun e : String × DomainRecord => (e.2.Domain, e.2.Port)) ∘
          (fun e : String × DomainRecord =>
            if e.1 = sprintfHostPort l.domain l.port then
              (e.1, { e.2 with Forwards := e.2.Forwards ++ [l.forward] }) else e)) =
          (fun e : String × DomainRecord => (e.2.Domain, e.2.Port)) := by
        funext e
        simp only [Function.comp]
        split_ifs <;> rfl
      rw [this]
      exact hnd
    · intro e2 he2
      obtain ⟨e, he, rfl⟩ := List.mem_map.1 he2
      split_ifs
      · exact hkey e he
      · exact hkey e he
    · intro e2 he2
      obtain ⟨e, he, rfl⟩ := List.mem_map.1 he2
      obtain ⟨hfw, first, hfirst, hflags⟩ := hgrp e he
      by_cases hk : e.1 = sprintfHostPort l.domain l.port
      · simp only [hk, if_true]
        obtain ⟨hd, hp⟩ := hpair_of_key e he hk
        have hl : hasPair e.2.Domain e.2.Port l = true :=
          (hasPair_iff _ _ _).2 ⟨hd.symm, hp.symm⟩
        obtain ⟨f1, f2, _⟩ := filter_find_append_of_pair seen l _ _ hl
        refine ⟨?_, first, f2 first hfirst, hflags⟩
        show e.2.Forwards ++ [l.forward] = _
        rw [f1, hfw]
        simp
      · simp only [hk, if_false]
        have hl : hasPair e.2.Domain e.2.Port l = false := by
          cases hh : hasPair e.2.Domain e.2.Port l with
          | false => rfl
          | true =>
            obtain ⟨h1, h2⟩ := (hasPair_iff _ _ _).1 hh
            exact absurd (hkey_of_pair e he h1.symm h2.symm) hk
        obtain ⟨f1, f2⟩ := filter_find_append_of_not seen l _ _ hl
        exact ⟨by rw [f1]; exact hfw, first, by rw [f2]; exact hfirst, hflags⟩
    · intro l2 hl2
      rcases List.mem_append.1 hl2 with h | h
      · obtain ⟨e, he, hd, hp⟩ := hall l2 h
        refine ⟨_, List.mem_map.2 ⟨e, he, rfl⟩, ?_⟩
        split_ifs <;> exact ⟨hd, hp⟩
      · have : l2 = l := by simpa using h
        subst this
        obtain ⟨hd, hp⟩ := hpair_of_key e0 he0 hk0
        refine ⟨_, List.mem_map.2 ⟨e0, he0, rfl⟩, ?_⟩
        split_ifs
        exact ⟨hd, hp⟩
  · rw [if_neg hany]
    have hnone : ∀ e ∈ domainMap, ¬ (e.2.Domain = l.domain ∧ e.2.Port = l.port) := by
      intro e he hdp
      apply hany
      exact List.any_eq_true.2 ⟨e, he, by simpa using hkey_of_pair e he hdp.1 hdp.2⟩
    have hseen : ∀ l2 ∈ seen, hasPair l.domain l.port l2 = false := by
      intro l2 hl2
      cases hh : hasPair l.domain l.port l2 with
      | false => rfl
      | true =>
        obtain ⟨h1, h2⟩ := (hasPair_iff _ _ _).1 hh
        obtain ⟨e, he, hd, hp⟩ := hall l2 hl2
        exact absurd ⟨hd.trans h1, hp.trans h2⟩ (hnone e he)
    have hself : hasPair l.domain l.port l = true := (hasPair_iff _ _ _).2 ⟨rfl, rfl⟩
    refine ⟨?_, ?_, ?_, ?_⟩
    · rw [List.map_append]
      refine List.Nodup.append hnd (by simp) ?_
      intro p hp1 hp2
      simp only [List.map_cons, List.map_nil, List.mem_singleton] at hp2
      obtain ⟨e, he, hep⟩ := List.mem_map.1 hp1
      rw [hp2] at hep
      have h1 : e.2.Domain = l.domain := congrArg Prod.fst hep
      have h2 : e.2.Port = l.port := congrArg Prod.snd hep
      exact hnone e he ⟨h1, h2⟩
    · intro e he
      rcases List.mem_append.1 he with h | h
      · exact hkey e h
      · have := List.mem_singleton.1 h
        rw [this]
    · intro e he
      rcases List.mem_append.1 he with h | h
      · obtain ⟨hfw, first, hfirst, hflags⟩ := hgrp e h
        have hl : hasPair e.2.Domain e.2.Port l = false := by
          cases hh : hasPair e.2.Domain e.2.Port l with
          | false => rfl
          | true =>
            obtain ⟨h1, h2⟩ := (hasPair_iff _ _ _).1 hh
            exact absurd ⟨h1.symm, h2.symm⟩ (hnone e h)
        obtain ⟨f1, f2⟩ := filter_find_append_of_not seen l _ _ hl
        exact ⟨by rw [f1]; exact hfw, first, by rw [f2]; exact hfirst, hflags⟩
      · have := List.mem_singleton.1 h
        rw [this]
        obtain ⟨f1, _, f3⟩ := filter_find_append_of_pair seen l l.domain l.port hself
        have hfil : seen.filter (hasPair l.domain l.port) = [] :=
          List.filter_eq_nil_iff.2 (fun x hx => by rw [hseen x hx]; decide)
        have hfind : seen.find? (hasPair l.domain l.port) = none :=
          List.find?_eq_none.2 (fun x hx => by rw [hseen x hx]; decide)
        refine ⟨?_, l, f3 hfind, rfl, rfl⟩
        show [l.forward] = _
        rw [f1, hfil]
        rfl
    · intro l2 hl2
      rcases List.mem_append.1 hl2 with h | h
      · obtain ⟨e, he, hd, hp⟩ := hall l2 h
        exact ⟨e, List.mem_append.2 (Or.inl he), hd, hp⟩
      · have : l2 = l := by simpa using h
        subst this
        exact ⟨_, List.mem_append.2 (Or.inr (List.mem_singleton.2 rfl)), rfl, rfl⟩

theorem groupsLines_loop (ls : List String) :
    ∀ (lineNum : Nat) (domainMap m : List (String × DomainRecord)) (seen : List UploadLine),
      GroupsLines domainMap seen → parseUploadLines ls lineNum domainMap = Except.ok m →
      GroupsLines m (seen ++ uploadDataLines ls) := by
  induction ls with
  | nil =>
    intro lineNum domainMap m seen hinv h
    simp only [parseUploadLines] at h
    injection h with h
    subst h
    simpa [uploadDataLines] using hinv
  | cons raw rest ih =>
    intro lineNum domainMap m seen hinv h
    unfold parseUploadLines at h
    by_cases hskip : TrimSpace raw = "" ∨ HasPrefix (TrimSpace raw) "#" = true
    · simp only [hskip, if_true] at h
      have hnd : isDataLine raw = false := by
        cases hd : isDataLine raw with
        | false => rfl
        | true => exact absurd hskip ((isDataLine_iff raw).1 hd)
      have : uploadDataLines (raw :: rest) = uploadDataLines rest := by
        simp [uploadDataLines, hnd]
      rw [this]
      exact ih _ _ _ _ hinv h
    · simp only [hskip, if_false] at h
      have hd : isDataLine raw = true := (isDataLine_iff raw).2 hskip
      cases hp : parseUploadLine (TrimSpace raw) with
      | error kind => rw [hp] at h; simp at h
      | ok l =>
        rw [hp] at h
        have : uploadDataLines (raw :: rest) = l :: uploadDataLines rest := by
          simp [uploadDataLines, hd, hp]
        rw [this]
        have := ih _ _ _ _ (groupsLines_merge domainMap seen l hinv) h
        simpa using this

/-- C24: when `parseBatchUploadContent` accepts the content, no two of the returned
records have the same domain and port, every data line has a record with
its domain and port, and every record holds the forwards of the data lines
of its domain and port, in input order, at least one, with the
check-disabled flag and the sort order of the first of those lines. -/
theorem parseBatchUploadContent_groups (content : String) (records : List DomainRecord)
    (h : parseBatchUploadContent content = Except.ok records) :
    (records.map (fun r => (r.Domain, r.Port))).Nodup ∧
    (∀ l ∈ uploadDataLines (splitLines content),
      ∃ r ∈ records, r.Domain = l.domain ∧ r.Port = l.port) ∧
    (∀ r ∈ records,
      r.Forwards =
        ((uploadDataLines (splitLines content)).filter (hasPair r.Domain r.Port)).map
          (fun l => l.forward) ∧
      ∃ first, (uploadDataLines (splitLines content)).find? (hasPair r.Domain r.Port) =
          some first ∧
        r.IsDisableCheck = first.isDisable ∧ r.SortOrder = first.sortOrder) := by
  unfold parseBatchUploadContent at h
  cases hm : parseUploadLines (splitLines content) 0 [] with
  | error e => rw [hm] at h; simp at h
  | ok m =>
    rw [hm] at h
    have hrec : records = m.map (fun e => e.2) := by
      injection h with h
      exact h.symm
    have hinit : GroupsLines [] [] := by
      refine ⟨by simp, by simp, by simp, by simp⟩
    have hinv := groupsLines_loop (splitLines content) 0 [] m [] hinit hm
    simp only [List.nil_append] at hinv
    obtain ⟨hnd, _, hgrp, hall⟩ := hinv
    subst hrec
    refine ⟨?_, ?_, ?_⟩
    · rw [List.map_map]
      exact hnd
    · intro l hl
      obtain ⟨e, he, hd, hp⟩ := hall l hl
      exact ⟨e.2, List.mem_map.2 ⟨e, he, rfl⟩, hd, hp⟩
    · intro r hr
      obtain ⟨e, he, rfl⟩ := List.mem_map.1 hr
      exact hgrp e he

theorem parseBatchUploadContent_groups_witness :
    parseBatchUploadContent exUpload = Except.ok exUploadRecords ∧
    (exUploadRecords.map (fun r => (r.Domain, r.Port))).Nodup ∧
    (uploadDataLines (splitLines exUpload)).map (fun l => (l.domain, l.port, l.sortOrder)) =
      [("main.example.com", 80, 1), ("other.example.com", 443, 2),
       ("main.example.com", 80, 9)] ∧
    (∀ r ∈ exUploadRecords,
      r.Forwards =
        ((uploadDataLines (splitLines exUpload)).filter (hasPair r.Domain r.Port)).map
          (fun l => l.forward) ∧
      ∃ first, (uploadDataLines (splitLines exUpload)).find? (hasPair r.Domain r.Port) =
          some first ∧
        r.IsDisableCheck = first.isDisable ∧ r.SortOrder = first.sortOrder) :=
  ⟨by decide, (parseBatchUploadContent_groups exUpload exUploadRecords (by decide)).1,
    by decide, (parseBatchUploadContent_groups exUpload exUploadRecords (by decide)).2.2⟩

/-! ## Export and import -/

set_option maxRecDepth 8000

/-- C25, counterexample: of two stored domains with distinct domain and port, one
without forwards, the export writes no line for the domain without
forwards, and the import of the exported text returns the other domain
only. -/
theorem export_drops_domain_without_forwards :
    (exStored.map (fun d => (d.Domain, d.Port))).Nodup ∧
    exStored.map (fun d => (d.Domain, d.Forwards.length)) =
      [("api.example.com", 3), ("bare.example.com", 0)] ∧
    ExportDomainData (some exStored) = Except.ok
      ("api.example.com|443|false|0|up2.example|||false|10|0|A\n" ++
       "api.example.com|443|false|0|up.example|||false|20|0|A\n" ++
       "api.example.com|443|false|0|dead.example|||false|30|0|A\n") ∧
    (match ExportDomainData (some exStored) with
      | Except.ok text =>
        match parseBatchUploadContent text with
        | Except.ok records => records.map (fun r => (r.Domain, r.Port))
        | Except.error _ => []
      | Except.error _ => []) = [("api.example.com", 443)] := by
  decide

theorem splitChars_no_sep (sep : Char) :
    ∀ a : List Char, sep ∉ a → splitChars sep a = [a] := by
  intro a
  induction a with
  | nil => intro _; rfl
  | cons c a ih =>
    intro h
    have hc : c ≠ sep := fun e => h (by simp [e])
    have ha : sep ∉ a := fun e => h (by simp [e])
    simp [splitChars, hc, ih ha]

theorem splitChars_append_sep (sep : Char) (rest : List Char) :
    ∀ a : List Char, sep ∉ a →
      splitChars sep (a ++ sep :: rest) = a :: splitChars sep rest := by
  intro a
  induction a with
  | nil => intro _; simp [splitChars]
  | cons c a ih =>
    intro h
    have hc : c ≠ sep := fun e => h (by simp [e])
    have ha : sep ∉ a := fun e => h (by simp [e])
    simp [splitChars, hc, ih ha]

theorem dropWhile_of_head (l : List Char) (h : l.head?.any isSpace = false) :
    l.dropWhile isSpace = l := by
  cases l with
  | nil => rfl
  | cons c l =>
    have hc : isSpace c = false := by simpa using h
    simp [List.dropWhile, hc]

theorem trimSpaceChars_of_clean (s : List Char) (h1 : s.head?.any isSpace = false)
    (h2 : s.getLast?.any isSpace = false) : trimSpaceChars s = s := by
  unfold trimSpaceChars
  rw [dropWhile_of_head s h1, dropWhile_of_head s.reverse (by rw [List.head?_reverse]; exact h2),
    List.reverse_reverse]

theorem cleanField_iff (s : String) :
    cleanField s = true ↔
      '|' ∉ s.data ∧ '\n' ∉ s.data ∧ s.data.head?.any isSpace = false ∧
        s.data.getLast?.any isSpace = false := by
  unfold cleanField
  simp [Bool.and_eq_true]
  tauto

theorem TrimSpace_of_clean (s : String) (h : cleanField s = true) : TrimSpace s = s := by
  obtain ⟨_, _, h1, h2⟩ := (cleanField_iff s).1 h
  unfold TrimSpace
  rw [trimSpaceChars_of_clean _ h1 h2]

theorem isDigit_toNat (c : Char) (h : c.isDigit = true) : 48 ≤ c.toNat ∧ c.toNat ≤ 57 := by
  unfold Char.isDigit at h
  simp only [Bool.and_eq_true, decide_eq_true_eq, ge_iff_le] at h
  obtain ⟨h1, h2⟩ := h
  have h1n : (48 : UInt32).toNat ≤ c.val.toNat := h1
  have h2n : c.val.toNat ≤ (57 : UInt32).toNat := h2
  exact ⟨h1n, h2n⟩

theorem isSpace_of_isDigit (c : Char) (h : c.isDigit = true) : isSpace c = false := by
  obtain ⟨h1, h2⟩ := isDigit_toNat c h
  unfold isSpace
  simp only [Bool.or_eq_false_iff, Bool.and_eq_false_imp, decide_eq_true_eq,
    decide_eq_false_iff_not, beq_eq_false_iff_ne, ne_eq]
  omega

theorem toString_int_not_space (i : Int) : ∀ c ∈ (toString i).data, isSpace c = false := by
  intro c hc
  rcases toString_int_data i with ⟨m, _, hmi⟩ | ⟨m, _, hmi⟩
  · rw [hmi] at hc
    exact isSpace_of_isDigit c ((toString_nat_spec m).2.1 c hc)
  · rw [hmi] at hc
    rcases List.mem_cons.1 hc with e | e
    · rw [e]; decide
    · exact isSpace_of_isDigit c ((toString_nat_spec (m + 1)).2.1 c e)

theorem any_isSpace_of_all (s : List Char) (h : ∀ c ∈ s, isSpace c = false) :
    s.head?.any isSpace = false ∧ s.getLast?.any isSpace = false := by
  constructor
  · cases s with
    | nil => rfl
    | cons c s => simpa using h c (by simp)
  · cases hl : s.getLast? with
    | none => rfl
    | some c => simpa using h c (List.mem_of_getLast?_eq_some hl)

theorem cleanField_toString (i : Int) : cleanField (toString i) = true := by
  obtain ⟨h1, h2⟩ := any_isSpace_of_all _ (toString_int_not_space i)
  exact (cleanField_iff _).2
    ⟨toString_int_no_char i '|' (by decide) (by decide),
      toString_int_no_char i '\n' (by decide) (by decide), h1, h2⟩

theorem cleanField_sprintfBool (b : Bool) :
    cleanField (sprintfBool b) = true ∧ equalFoldTrue (sprintfBool b) = b := by
  cases b <;> decide

theorem fitsInt_iff (i : Int) :
    fitsInt i = true ↔ -(2 : Int) ^ 63 ≤ i ∧ i < (2 : Int) ^ 63 := by
  unfold fitsInt
  simp

theorem exportRow_data (d : DomainRecord) (f : ForwardRecord) :
    (exportRow d f).data =
      d.Domain.data ++ '|' :: ((toString d.Port).data ++ '|' ::
        ((sprintfBool d.IsDisableCheck).data ++ '|' :: ((toString d.SortOrder).data ++ '|' ::
          (f.ForwardDomain.data ++ '|' :: (f.IP.data ++ '|' :: (f.ISP.data ++ '|' ::
            ((sprintfBool f.IsBan).data ++ '|' :: ((toString f.Weight).data ++ '|' ::
              ((toString f.SortOrder).data ++ '|' :: f.RecordType.data))))))))) := by
  unfold exportRow
  simp only [String.data_append, List.append_assoc]
  rfl

/-- The fields of an exported line are the exported values. -/
theorem splitChars_exportRow (d : DomainRecord) (f : ForwardRecord)
    (hd : exportableDomain d = true) (hf : exportableForward f = true) :
    (splitChars '|' (exportRow d f).data).map String.mk =
      [d.Domain, toString d.Port, sprintfBool d.IsDisableCheck, toString d.SortOrder,
       f.ForwardDomain, f.IP, f.ISP, sprintfBool f.IsBan, toString f.Weight,
       toString f.SortOrder, f.RecordType] := by
  unfold exportableDomain at hd
  unfold exportableForward at hf
  simp only [Bool.and_eq_true] at hd hf
  obtain ⟨⟨⟨⟨⟨hd1, _⟩, _⟩, _⟩, _⟩, _⟩ := hd
  obtain ⟨⟨⟨⟨⟨⟨hf1, hf2⟩, hf3⟩, hf4⟩, _⟩, _⟩, _⟩ := hf
  rw [exportRow_data,
    splitChars_append_sep _ _ _ ((cleanField_iff _).1 hd1).1,
    splitChars_append_sep _ _ _ ((cleanField_iff _).1 (cleanField_toString _)).1,
    splitChars_append_sep _ _ _ ((cleanField_iff _).1 (cleanField_sprintfBool _).1).1,
    splitChars_append_sep _ _ _ ((cleanField_iff _).1 (cleanField_toString _)).1,
    splitChars_append_sep _ _ _ ((cleanField_iff _).1 hf1).1,
    splitChars_append_sep _ _ _ ((cleanField_iff _).1 hf2).1,
    splitChars_append_sep _ _ _ ((cleanField_iff _).1 hf3).1,
    splitChars_append_sep _ _ _ ((cleanField_iff _).1 (cleanField_sprintfBool _).1).1,
    splitChars_append_sep _ _ _ ((cleanField_iff _).1 (cleanField_toString _)).1,
    splitChars_append_sep _ _ _ ((cleanField_iff _).1 (cleanField_toString _)).1,
    splitChars_no_sep _ _ ((cleanField_iff _).1 hf4).1]
  rfl

theorem Atoi_TrimSpace_toString (i : Int) (h : fitsInt i = true) :
    Atoi (TrimSpace (toString i)) = some i := by
  rw [TrimSpace_of_clean _ (cleanField_toString i)]
  exact Atoi_toString i ((fitsInt_iff i).1 h).1 ((fitsInt_iff i).1 h).2

/-- The import reads from an exported line the values that were exported. -/
theorem parseUploadLine_exportRow (d : DomainRecord) (f : ForwardRecord)
    (hd : exportableDomain d = true) (hf : exportableForward f = true) :
    parseUploadLine (exportRow d f) = Except.ok (importedLine d f) := by
  have hsplit := splitChars_exportRow d f hd hf
  unfold exportableDomain at hd
  unfold exportableForward at hf
  simp only [Bool.and_eq_true, decide_eq_true_eq] at hd hf
  obtain ⟨⟨⟨⟨⟨hd1, _⟩, hd3⟩, hd4⟩, _⟩, _⟩ := hd
  obtain ⟨⟨⟨⟨⟨⟨hf1, hf2⟩, hf3⟩, hf4⟩, hf5⟩, hf6⟩, hf7⟩ := hf
  unfold parseUploadLine
  rw [hsplit]
  simp only [List.length_cons, List.length_nil, List.getD_cons_zero, List.getD_cons_succ]
  simp only [TrimSpace_of_clean _ hd1, TrimSpace_of_clean _ hf1, TrimSpace_of_clean _ hf2,
    TrimSpace_of_clean _ hf3, TrimSpace_of_clean _ hf4,
    TrimSpace_of_clean _ (cleanField_sprintfBool _).1, (cleanField_sprintfBool _).2,
    Atoi_TrimSpace_toString _ hd3, Atoi_TrimSpace_toString _ hd4,
    Atoi_TrimSpace_toString _ hf6, Atoi_TrimSpace_toString _ hf7, hf5, if_false]
  rfl

theorem exportRow_no_newline (d : DomainRecord) (f : ForwardRecord)
    (hd : exportableDomain d = true) (hf : exportableForward f = true) :
    '\n' ∉ (exportRow d f).data := by
  unfold exportableDomain at hd
  unfold exportableForward at hf
  simp only [Bool.and_eq_true] at hd hf
  obtain ⟨⟨⟨⟨⟨hd1, _⟩, _⟩, _⟩, _⟩, _⟩ := hd
  obtain ⟨⟨⟨⟨⟨⟨hf1, hf2⟩, hf3⟩, hf4⟩, _⟩, _⟩, _⟩ := hf
  have n1 := ((cleanField_iff _).1 hd1).2.1
  have n2 := ((cleanField_iff _).1 (cleanField_toString d.Port)).2.1
  have n3 := ((cleanField_iff _).1 (cleanField_sprintfBool d.IsDisableCheck).1).2.1
  have n4 := ((cleanField_iff _).1 (cleanField_toString d.SortOrder)).2.1
  have n5 := ((cleanField_iff _).1 hf1).2.1
  have n6 := ((cleanField_iff _).1 hf2).2.1
  have n7 := ((cleanField_iff _).1 hf3).2.1
  have n8 := ((cleanField_iff _).1 (cleanField_sprintfBool f.IsBan).1).2.1
  have n9 := ((cleanField_iff _).1 (cleanField_toString f.Weight)).2.1
  have n10 := ((cleanField_iff _).1 (cleanField_toString f.SortOrder)).2.1
  have n11 := ((cleanField_iff _).1 hf4).2.1
  rw [exportRow_data]
  simp only [List.mem_append, List.mem_cons, not_or]
  exact ⟨n1, by decide, n2, by decide, n3, by decide, n4, by decide, n5, by decide, n6,
    by decide, n7, by decide, n8, by decide, n9, by decide, n10, by decide, n11⟩

theorem exportRow_trim (d : DomainRecord) (f : ForwardRecord)
    (hd : exportableDomain d = true) (hf : exportableForward f = true) :
    TrimSpace (exportRow d f) = exportRow d f ∧ isDataLine (exportRow d f) = true := by
  have hdata := exportRow_data d f
  unfold exportableDomain at hd
  unfold exportableForward at hf
  simp only [Bool.and_eq_true, decide_eq_true_eq, Bool.not_eq_true'] at hd hf
  obtain ⟨⟨⟨⟨⟨hd1, hd2⟩, _⟩, _⟩, _⟩, _⟩ := hd
  obtain ⟨⟨⟨⟨⟨⟨_, _⟩, _⟩, hf4⟩, hf5⟩, _⟩, _⟩ := hf
  obtain ⟨_, _, hhead, _⟩ := (cleanField_iff _).1 hd1
  obtain ⟨_, _, _, hlast⟩ := (cleanField_iff _).1 hf4
  have hne : f.RecordType.data ≠ [] := by
    intro h
    apply hf5
    exact String.ext h
  have h1 : (exportRow d f).data.head?.any isSpace = false := by
    rw [hdata]
    cases hD : d.Domain.data with
    | nil => simp; decide
    | cons c cs =>
      rw [hD] at hhead
      simpa using hhead
  have h2 : (exportRow d f).data.getLast?.any isSpace = false := by
    have hform : (exportRow d f).data =
        (d.Domain.data ++ '|' :: ((toString d.Port).data ++ '|' ::
          ((sprintfBool d.IsDisableCheck).data ++ '|' :: ((toString d.SortOrder).data ++ '|' ::
            (f.ForwardDomain.data ++ '|' :: (f.IP.data ++ '|' :: (f.ISP.data ++ '|' ::
              ((sprintfBool f.IsBan).data ++ '|' :: ((toString f.Weight).data ++ '|' ::
                ((toString f.SortOrder).data ++ ['|'])))))))))) ++ f.RecordType.data := by
      rw [hdata]
      simp [List.append_assoc]
    rw [hform, List.getLast?_append_of_ne_nil _ hne]
    exact hlast
  have htrim : TrimSpace (exportRow d f) = exportRow d f := by
    unfold TrimSpace
    rw [trimSpaceChars_of_clean _ h1 h2]
  refine ⟨htrim, ?_⟩
  unfold isDataLine
  rw [htrim]
  have hnotempty : exportRow d f ≠ "" := by
    intro h
    have := congrArg String.data h
    rw [hdata] at this
    cases hD : d.Domain.data with
    | nil => rw [hD] at this; simp at this
    | cons c cs => rw [hD] at this; simp at this
  have hprefix : HasPrefix (exportRow d f) "#" = false := by
    unfold HasPrefix at hd2 ⊢
    rw [hdata]
    cases hD : d.Domain.data with
    | nil => simp [startsWith]
    | cons c cs =>
      rw [hD] at hd2
      have hs : ("#" : String).data = ['#'] := rfl
      rw [hs] at hd2 ⊢
      simp only [List.cons_append, startsWith] at hd2 ⊢
      exact hd2
  simp [hnotempty, hprefix]

theorem exportRow_not_malformed (d : DomainRecord) (f : ForwardRecord)
    (hd : exportableDomain d = true) (hf : exportableForward f = true) :
    isMalformedLine (exportRow d f) = false := by
  obtain ⟨htrim, hdl⟩ := exportRow_trim d f hd hf
  cases hm : isMalformedLine (exportRow d f) with
  | false => rfl
  | true =>
    obtain ⟨kind, hk⟩ := (parseUploadLine_error_iff _ hdl).2 hm
    rw [htrim, parseUploadLine_exportRow d f hd hf] at hk
    exact absurd hk (by simp)

theorem export_inner_data (d : DomainRecord) (fs : List ForwardRecord) :
    ∀ acc : String,
      (fs.foldl (fun result forward => result ++ (exportRow d forward ++ "\n")) acc).data =
        acc.data ++ ((fs.map (exportRow d)).map (fun r => r.data ++ ['\n'])).flatten := by
  induction fs with
  | nil => intro acc; simp
  | cons f fs ih =>
    intro acc
    rw [List.foldl_cons, ih]
    simp only [String.data_append, List.map_cons, List.flatten_cons, List.append_assoc]

theorem exportRows_cons (d : DomainRecord) (ds : List DomainRecord) :
    exportRows (d :: ds) = d.Forwards.map (exportRow d) ++ exportRows ds := by
  unfold exportRows
  simp

theorem export_outer_data (ds : List DomainRecord) :
    ∀ acc : String,
      (ds.foldl (fun result domain =>
        domain.Forwards.foldl (fun result forward =>
          result ++ (exportRow domain forward ++ "\n")) result) acc).data =
        acc.data ++ ((exportRows ds).map (fun r => r.data ++ ['\n'])).flatten := by
  induction ds with
  | nil => intro acc; simp [exportRows]
  | cons d ds ih =>
    intro acc
    rw [List.foldl_cons, ih, export_inner_data, exportRows_cons]
    simp [List.append_assoc]

theorem splitChars_lines (rows : List String) (h : ∀ r ∈ rows, '\n' ∉ r.data) :
    splitChars '\n' ((rows.map (fun r => r.data ++ ['\n'])).flatten) =
      rows.map (fun r => r.data) ++ [[]] := by
  induction rows with
  | nil => rfl
  | cons r rows ih =>
    have hr : '\n' ∉ r.data := h r (by simp)
    have hrest : ∀ x ∈ rows, '\n' ∉ x.data := fun x hx => h x (by simp [hx])
    simp only [List.map_cons, List.flatten_cons, List.append_assoc, List.singleton_append,
      List.cons_append]
    rw [splitChars_append_sep _ _ _ hr, List.nil_append, ih hrest]

theorem exportRows_no_newline (ds : List DomainRecord)
    (hclean : ∀ d ∈ ds, exportableDomain d = true) :
    ∀ r ∈ exportRows ds, '\n' ∉ r.data := by
  intro r hr
  unfold exportRows at hr
  obtain ⟨d, hd, hrd⟩ := List.mem_flatMap.1 hr
  obtain ⟨f, hf, rfl⟩ := List.mem_map.1 hrd
  have hdc := hclean d hd
  have hfc : exportableForward f = true := by
    have h := hdc
    unfold exportableDomain at h
    simp only [Bool.and_eq_true] at h
    exact List.all_eq_true.1 h.2 f hf
  exact exportRow_no_newline d f hdc hfc

/-- The lines of the exported text are the exported lines and an empty last
line. -/
theorem splitLines_export (ds : List DomainRecord) (text : String)
    (hclean : ∀ d ∈ ds, exportableDomain d = true)
    (hexport : ExportDomainData (some ds) = Except.ok text) :
    splitLines text = exportRows ds ++ [""] := by
  unfold ExportDomainData at hexport
  by_cases hlen : ds.length = 0
  · simp [hlen] at hexport
  · simp only [hlen, if_false] at hexport
    injection hexport with htext
    unfold splitLines
    have hnil : ("" : String).data = [] := rfl
    rw [← htext, export_outer_data, hnil, List.nil_append,
      splitChars_lines _ (exportRows_no_newline ds hclean)]
    simp only [List.map_append, List.map_map, List.map_cons, List.map_nil]
    congr 1
    · have : (String.mk ∘ fun r : String => r.data) = id := by
        funext r
        rfl
      rw [this, List.map_id]

theorem parseUploadLines_foldl (ls : List String) :
    ∀ (lineNum : Nat) (domainMap : List (String × DomainRecord)),
      (∀ raw ∈ ls, isMalformedLine raw = false) →
      parseUploadLines ls lineNum domainMap =
        Except.ok ((uploadDataLines ls).foldl (fun acc l => mergeUploadLine l acc) domainMap) := by
  induction ls with
  | nil => intro lineNum domainMap _; rfl
  | cons raw rest ih =>
    intro lineNum domainMap hall
    have hrest : ∀ l ∈ rest, isMalformedLine l = false := fun l hl => hall l (by simp [hl])
    unfold parseUploadLines
    by_cases hskip : TrimSpace raw = "" ∨ HasPrefix (TrimSpace raw) "#" = true
    · simp only [hskip, if_true]
      have hnd : isDataLine raw = false := by
        cases hd : isDataLine raw with
        | false => rfl
        | true => exact absurd hskip ((isDataLine_iff raw).1 hd)
      have : uploadDataLines (raw :: rest) = uploadDataLines rest := by
        simp [uploadDataLines, hnd]
      rw [this]
      exact ih _ _ hrest
    · simp only [hskip, if_false]
      have hd : isDataLine raw = true := (isDataLine_iff raw).2 hskip
      cases hp : parseUploadLine (TrimSpace raw) with
      | error kind =>
        have := (parseUploadLine_error_iff raw hd).1 ⟨kind, hp⟩
        rw [hall raw (by simp)] at this
        exact absurd this (by decide)
      | ok l =>
        have : uploadDataLines (raw :: rest) = l :: uploadDataLines rest := by
          simp [uploadDataLines, hd, hp]
        rw [this, List.foldl_cons]
        exact ih _ _ hrest

theorem uploadDataLines_append (a b : List String) :
    uploadDataLines (a ++ b) = uploadDataLines a ++ uploadDataLines b := by
  unfold uploadDataLines
  exact List.filterMap_append _ _ _

theorem uploadDataLines_rows (d : DomainRecord) (hd : exportableDomain d = true)
    (fs : List ForwardRecord) (hfs : ∀ f ∈ fs, exportableForward f = true) :
    uploadDataLines (fs.map (exportRow d)) = fs.map (importedLine d) := by
  induction fs with
  | nil => rfl
  | cons f fs ih =>
    have hf := hfs f (by simp)
    obtain ⟨htrim, hdl⟩ := exportRow_trim d f hd hf
    have hp := parseUploadLine_exportRow d f hd hf
    have hrest := ih (fun x hx => hfs x (by simp [hx]))
    unfold uploadDataLines at hrest ⊢
    simp only [List.map_cons, List.filterMap_cons, hdl, if_true, htrim, hp]
    rw [hrest]

theorem exportableDomain_forwards (d : DomainRecord) (hd : exportableDomain d = true) :
    d.Forwards ≠ [] ∧ ∀ f ∈ d.Forwards, exportableForward f = true := by
  have h := hd
  unfold exportableDomain at h
  simp only [Bool.and_eq_true, decide_eq_true_eq] at h
  exact ⟨h.1.2, fun f hf => List.all_eq_true.1 h.2 f hf⟩

theorem uploadDataLines_exportRows (ds : List DomainRecord)
    (hclean : ∀ d ∈ ds, exportableDomain d = true) :
    uploadDataLines (exportRows ds) = ds.flatMap (fun d => d.Forwards.map (importedLine d)) := by
  induction ds with
  | nil => rfl
  | cons d ds ih =>
    have hd := hclean d (by simp)
    rw [exportRows_cons, uploadDataLines_append,
      uploadDataLines_rows d hd _ (exportableDomain_forwards d hd).2,
      ih (fun x hx => hclean x (by simp [hx]))]
    simp

theorem merge_new_key (d : DomainRecord) (f : ForwardRecord)
    (m0 : List (String × DomainRecord))
    (hm0 : ∀ e ∈ m0, e.1 ≠ sprintfHostPort d.Domain d.Port) :
    mergeUploadLine (importedLine d f) m0 =
      m0 ++ [(sprintfHostPort d.Domain d.Port,
        { importedDomain d with Forwards := [importedForward f] })] := by
  have hany : m0.any (fun e => e.1 == sprintfHostPort d.Domain d.Port) = false := by
    rw [List.any_eq_false]
    intro e he
    simpa using hm0 e he
  simp only [mergeUploadLine, importedLine, hany]
  rfl

theorem merge_same_key (d : DomainRecord) (f : ForwardRecord) (fwds : List ForwardRecord)
    (m0 : List (String × DomainRecord))
    (hm0 : ∀ e ∈ m0, e.1 ≠ sprintfHostPort d.Domain d.Port) :
    mergeUploadLine (importedLine d f)
        (m0 ++ [(sprintfHostPort d.Domain d.Port, { importedDomain d with Forwards := fwds })]) =
      m0 ++ [(sprintfHostPort d.Domain d.Port,
        { importedDomain d with Forwards := fwds ++ [importedForward f] })] := by
  have hany : (m0 ++ [(sprintfHostPort d.Domain d.Port,
      { importedDomain d with Forwards := fwds })]).any
        (fun e => e.1 == sprintfHostPort d.Domain d.Port) = true := by
    simp [List.any_append]
  have hmap : m0.map (fun e : String × DomainRecord =>
      if e.1 = sprintfHostPort d.Domain d.Port then
        (e.1, { e.2 with Forwards := e.2.Forwards ++ [importedForward f] }) else e) = m0 := by
    conv_rhs => rw [← List.map_id m0]
    apply List.map_congr_left
    intro e he
    simp [hm0 e he]
  simp only [mergeUploadLine, importedLine, hany, if_true, List.map_append, List.map_cons,
    List.map_nil]
  rw [hmap]

theorem merge_rows (d : DomainRecord) (m0 : List (String × DomainRecord))
    (hm0 : ∀ e ∈ m0, e.1 ≠ sprintfHostPort d.Domain d.Port) (fs : List ForwardRecord) :
    ∀ fwds : List ForwardRecord,
      (fs.map (importedLine d)).foldl (fun acc l => mergeUploadLine l acc)
          (m0 ++ [(sprintfHostPort d.Domain d.Port,
            { importedDomain d with Forwards := fwds })]) =
        m0 ++ [(sprintfHostPort d.Domain d.Port,
          { importedDomain d with Forwards := fwds ++ fs.map importedForward })] := by
  induction fs with
  | nil => intro fwds; simp
  | cons f fs ih =>
    intro fwds
    rw [List.map_cons, List.foldl_cons, merge_same_key d f fwds m0 hm0, ih]
    simp

theorem merge_domain (d : DomainRecord) (hne : d.Forwards ≠ [])
    (m0 : List (String × DomainRecord))
    (hm0 : ∀ e ∈ m0, e.1 ≠ sprintfHostPort d.Domain d.Port) :
    (d.Forwards.map (importedLine d)).foldl (fun acc l => mergeUploadLine l acc) m0 =
      m0 ++ [(sprintfHostPort d.Domain d.Port, importedDomain d)] := by
  cases hfs : d.Forwards with
  | nil => exact absurd hfs hne
  | cons f fs =>
    rw [List.map_cons, List.foldl_cons, merge_new_key d f m0 hm0, merge_rows d m0 hm0 fs]
    have : importedDomain d =
        { importedDomain d with Forwards := [importedForward f] ++ fs.map importedForward } := by
      unfold importedDomain
      rw [hfs]
      rfl
    rw [← this]

theorem merge_domains (ds : List DomainRecord) :
    ∀ m0 : List (String × DomainRecord),
      (m0.map (fun e => e.1) ++
        ds.map (fun d => sprintfHostPort d.Domain d.Port)).Nodup →
      (∀ d ∈ ds, d.Forwards ≠ []) →
      (ds.flatMap (fun d => d.Forwards.map (importedLine d))).foldl
          (fun acc l => mergeUploadLine l acc) m0 =
        m0 ++ ds.map (fun d => (sprintfHostPort d.Domain d.Port, importedDomain d)) := by
  induction ds with
  | nil => intro m0 _ _; simp
  | cons d ds ih =>
    intro m0 hnd hne
    have hm0 : ∀ e ∈ m0, e.1 ≠ sprintfHostPort d.Domain d.Port := by
      intro e he hk
      have hdis := (List.nodup_append.1 hnd).2.2
      exact hdis (List.mem_map.2 ⟨e, he, rfl⟩) (by rw [hk]; simp)
    rw [List.flatMap_cons, List.foldl_append, merge_domain d (hne d (by simp)) m0 hm0,
      ih _ ?_ (fun x hx => hne x (by simp [hx]))]
    · simp
    · have : (m0 ++ [(sprintfHostPort d.Domain d.Port, importedDomain d)]).map (fun e => e.1) ++
          ds.map (fun d => sprintfHostPort d.Domain d.Port) =
          m0.map (fun e => e.1) ++
            (d :: ds).map (fun d => sprintfHostPort d.Domain d.Port) := by
        simp
      rw [this]
      exact hnd

/-- C25, amended: for stored domains with pairwise distinct domain and port, each
with at least one forward, whose texts contain no `|` and no line break and
have no white space at their ends, with a domain that does not start with
`#`, non-empty record types and numbers in the range of `int`, the import of
the exported text succeeds and returns, up to the order of the domains,
the stored domains as far as the line format keeps them: domain, port,
check-disabled flag, sort order and, per forward in order, forward domain,
IP, ISP, ban flag, weight, sort order and record type. -/
theorem import_undoes_export (ds : List DomainRecord) (text : String)
    (hpairs : (ds.map (fun d => (d.Domain, d.Port))).Nodup)
    (hclean : ∀ d ∈ ds, exportableDomain d = true)
    (hexport : ExportDomainData (some ds) = Except.ok text) :
    ∃ records, parseBatchUploadContent text = Except.ok records ∧
      records.Perm (ds.map importedDomain) := by
  have hlines := splitLines_export ds text hclean hexport
  have hgood : ∀ raw ∈ exportRows ds ++ [""], isMalformedLine raw = false := by
    intro raw hraw
    rcases List.mem_append.1 hraw with h | h
    · unfold exportRows at h
      obtain ⟨d, hd, hrd⟩ := List.mem_flatMap.1 h
      obtain ⟨f, hf, rfl⟩ := List.mem_map.1 hrd
      exact exportRow_not_malformed d f (hclean d hd)
        ((exportableDomain_forwards d (hclean d hd)).2 f hf)
    · have : raw = "" := by simpa using h
      rw [this]
      decide
  have hkeys : (([] : List (String × DomainRecord)).map (fun e => e.1) ++
      ds.map (fun d => sprintfHostPort d.Domain d.Port)).Nodup := by
    have hinj : Function.Injective (fun p : String × Int => sprintfHostPort p.1 p.2) := by
      intro p q h
      obtain ⟨h1, h2⟩ := sprintfHostPort_injective _ _ _ _ h
      exact Prod.ext h1 h2
    have := List.Nodup.map hinj hpairs
    rw [List.map_map] at this
    simpa using this
  have hne : ∀ d ∈ ds, d.Forwards ≠ [] :=
    fun d hd => (exportableDomain_forwards d (hclean d hd)).1
  have hempty : uploadDataLines [""] = [] := by decide
  have hparse := parseUploadLines_foldl _ 0 [] hgood
  rw [uploadDataLines_append, uploadDataLines_exportRows ds hclean, hempty, List.append_nil,
    merge_domains ds [] hkeys hne, List.nil_append] at hparse
  refine ⟨ds.map importedDomain, ?_, List.Perm.refl _⟩
  unfold parseBatchUploadContent
  rw [hlines, hparse]
  simp [List.map_map, Function.comp]

theorem import_undoes_export_witness :
    (exStoredFull.map (fun d => (d.Domain, d.Port))).Nodup ∧
    (∀ d ∈ exStoredFull, exportableDomain d = true) ∧
    ExportDomainData (some exStoredFull) = Except.ok
      ("api.example.com|443|false|0|up2.example|||false|10|0|A\n" ++
       "api.example.com|443|false|0|up.example|||false|20|0|A\n" ++
       "api.example.com|443|false|0|dead.example|||false|30|0|A\n" ++
       "api.example.com|8443|true|-1|up.example|192.0.2.7|电信|true|20|0|CNAME\n") ∧
    (∃ records,
      parseBatchUploadContent
        ("api.example.com|443|false|0|up2.example|||false|10|0|A\n" ++
         "api.example.com|443|false|0|up.example|||false|20|0|A\n" ++
         "api.example.com|443|false|0|dead.example|||false|30|0|A\n" ++
         "api.example.com|8443|true|-1|up.example|192.0.2.7|电信|true|20|0|CNAME\n") =
        Except.ok records ∧
      records.Perm (exStoredFull.map importedDomain)) :=
  ⟨by decide, by decide, by decide,
    import_undoes_export exStoredFull _ (by decide) (by decide) (by decide)⟩

end AutoSwitchDns
